import Mathlib

/-!
Nori renderer: light-transport estimators.

A shallow embedding of the integrators of the Nori renderer
(`path_mats.cpp`, `path_mis.cpp`, `vol_path.cpp`, `direct_ems.cpp`,
`direct_mis.cpp`, `photonmapper.cpp`), of `Medium::transmittance`, of the
emitters `PointLight` and `AreaEmitter`, and of the sphere and hemisphere
sampling of `warp.cpp`.

Conventions of the embedding.

* The C++ scalar type `float` is idealised as a linearly ordered field `R`
  (exact arithmetic, no rounding, no NaN).  Definitions are polymorphic in `R`;
  they are evaluated over `ℚ` and, where `exp` and `sqrt` are needed, stated
  over `ℝ`.  A float division by zero leaves the real numbers: where a property
  depends on a quotient its divisor is tested or assumed nonzero
  (`Color3f.divsFloat`, `VolumetricPT.interaction`).
* Library functions and constants that are not part of the repository
  (`sqrt`, `exp`, `log`, `cos`, `sin`, `acos`, `M_PI`, `INV_PI`, `Epsilon`) are
  explicit parameters.
* The collaborators whose headers are not among the sources (scene, BSDF,
  emitter, sampler, frame, ray, colour and vector types) are modelled from the
  specification; interfaces are records of functions, and a C++ method that
  fills in a record passed by reference returns the updated record next to
  its value.
* A `while (true)` loop is a step function on an explicit state; the loop
  itself is iterated with fuel.
-/

namespace Nori

/-! ## Colours and vectors -/

/-- Modelled from the spec: `Color3f` (`color.h` is not among the sources), a colour
value of three channels; its arithmetic acts per colour channel. -/
@[ext]
structure Color3f (R : Type) where
  r : R
  g : R
  b : R

/-- Modelled from the spec: `Vector3f`, `Point3f` and `Normal3f` (`vector.h` is not
among the sources), a vector or point of three coordinates. -/
@[ext]
structure Vector3f (R : Type) where
  x : R
  y : R
  z : R

section Arith

variable {R : Type} [LinearOrderedField R]

/-- Modelled from the spec: the constructor `Color3f(v)` of the missing `color.h`:
every channel is `v`. -/
def Color3f.splat (v : R) : Color3f R := ⟨v, v, v⟩

/-- Modelled from the spec: `a + b` on colours (missing `color.h`), per channel. -/
def Color3f.add (a b : Color3f R) : Color3f R := ⟨a.r + b.r, a.g + b.g, a.b + b.b⟩

/-- Modelled from the spec: `a * b` on colours (missing `color.h`), per channel. -/
def Color3f.mul (a b : Color3f R) : Color3f R := ⟨a.r * b.r, a.g * b.g, a.b * b.b⟩

/-- Modelled from the spec: scalar times colour, `s * c` (missing `color.h`). -/
def Color3f.scale (s : R) (c : Color3f R) : Color3f R := ⟨s * c.r, s * c.g, s * c.b⟩

/-- Modelled from the spec: colour times scalar, `c * s` (missing `color.h`). -/
def Color3f.muls (c : Color3f R) (s : R) : Color3f R := ⟨c.r * s, c.g * s, c.b * s⟩

/-- Modelled from the spec: colour divided by a scalar, `c / s` (missing `color.h`). -/
def Color3f.divs (c : Color3f R) (s : R) : Color3f R := ⟨c.r / s, c.g / s, c.b / s⟩

/-- Modelled from the spec: `c / s` (missing `color.h`) as the float operation, which
leaves the real numbers when the divisor is zero: a channel is then NaN (`0/0`) or
infinite.  `none` stands for such a colour; for a nonzero divisor the quotient is
`divs`. -/
def Color3f.divsFloat (c : Color3f R) (s : R) : Option (Color3f R) :=
  if s = 0 then none else some (c.divs s)

/-- Modelled from the spec: `c.maxCoeff()` (missing `color.h`), the largest channel. -/
def Color3f.maxCoeff (c : Color3f R) : R := max (max c.r c.g) c.b

/-- Modelled from the spec: `a / b` on colours (missing `color.h`), per channel. -/
def Color3f.div (a b : Color3f R) : Color3f R := ⟨a.r / b.r, a.g / b.g, a.b / b.b⟩

instance : Add (Color3f R) := ⟨Color3f.add⟩
instance : Div (Color3f R) := ⟨Color3f.div⟩
instance : Mul (Color3f R) := ⟨Color3f.mul⟩
instance : Zero (Color3f R) := ⟨Color3f.splat 0⟩

/-- Modelled from the spec: vector difference, `a - b` (missing `vector.h`). -/
def Vector3f.sub (a b : Vector3f R) : Vector3f R := ⟨a.x - b.x, a.y - b.y, a.z - b.z⟩

/-- Modelled from the spec: vector sum, `a + b` (missing `vector.h`). -/
def Vector3f.add (a b : Vector3f R) : Vector3f R := ⟨a.x + b.x, a.y + b.y, a.z + b.z⟩

/-- Modelled from the spec: scalar times vector, `s * v` (missing `vector.h`). -/
def Vector3f.smul (s : R) (v : Vector3f R) : Vector3f R := ⟨s * v.x, s * v.y, s * v.z⟩

/-- Modelled from the spec: negated vector, `-v` (missing `vector.h`). -/
def Vector3f.neg (v : Vector3f R) : Vector3f R := ⟨-v.x, -v.y, -v.z⟩

/-- Modelled from the spec: dot product, `a.dot(b)` (missing `vector.h`). -/
def Vector3f.dot (a b : Vector3f R) : R := a.x * b.x + a.y * b.y + a.z * b.z

/-- Modelled from the spec: squared Euclidean length, `v.squaredNorm()` (missing
`vector.h`). -/
def Vector3f.squaredNorm (v : Vector3f R) : R := v.x * v.x + v.y * v.y + v.z * v.z

/-- Modelled from the spec: Euclidean length, `v.norm()` (missing `vector.h`), over
the library square root. -/
def Vector3f.norm (sqrt : R → R) (v : Vector3f R) : R := sqrt v.squaredNorm

/-- Modelled from the spec: `v.normalized()` (missing `vector.h`), `v` over its length. -/
def Vector3f.normalized (sqrt : R → R) (v : Vector3f R) : Vector3f R :=
  ⟨v.x / v.norm sqrt, v.y / v.norm sqrt, v.z / v.norm sqrt⟩

instance : Sub (Vector3f R) := ⟨Vector3f.sub⟩
instance : Add (Vector3f R) := ⟨Vector3f.add⟩
instance : Neg (Vector3f R) := ⟨Vector3f.neg⟩
instance : Zero (Vector3f R) := ⟨⟨0, 0, 0⟩⟩

end Arith

/-! ## Records exchanged with the collaborators -/

/-- Modelled from the spec: `Ray3f` (`ray.h` is not among the sources): origin,
direction and the valid parametric interval; `maxt = none` stands for `+infinity`. -/
structure Ray3f (R : Type) where
  o : Vector3f R
  d : Vector3f R
  mint : R
  maxt : Option R

/-- Modelled from the spec: the constructor `Ray3f(o, d)` of the missing `ray.h`: the
interval is `[Epsilon, infinity)`. -/
def Ray3f.ofOD {R : Type} (Epsilon : R) (o d : Vector3f R) : Ray3f R :=
  ⟨o, d, Epsilon, none⟩

/-- Modelled from the spec: `EMeasure` (`bsdf.h` is not among the sources), the measure
tag continuous / discrete / unknown of a BSDF query. -/
inductive EMeasure where
  | EUnknownMeasure
  | ESolidAngle
  | EDiscrete
deriving DecidableEq

/-- Modelled from the spec: `BSDFQueryRecord` (`bsdf.h` is not among the sources):
incoming and outgoing directions in the local shading frame, the measure tag, UV
and the index-of-refraction ratio. -/
structure BSDFQueryRecord (R : Type) where
  wi : Vector3f R
  wo : Vector3f R
  eta : R
  measure : EMeasure
  uv : R × R

/-- Modelled from the spec: `EmitterQueryRecord` (`emitter.h` is not among the
sources): reference point, point and normal on the light, direction, shadow ray. -/
structure EmitterQueryRecord (R : Type) where
  ref : Vector3f R
  p : Vector3f R
  n : Vector3f R
  wi : Vector3f R
  shadowRay : Ray3f R

/-- Modelled from the spec: the `BSDF` interface (`bsdf.h` is not among the sources);
`sample` returns its value next to the record it filled in. -/
structure BSDF (R : Type) where
  eval : BSDFQueryRecord R → Color3f R
  pdf : BSDFQueryRecord R → R
  sample : BSDFQueryRecord R → R × R → Color3f R × BSDFQueryRecord R
  isDiffuse : Bool

/-- Modelled from the spec: the `Emitter` interface (`emitter.h` is not among the
sources); `sample` returns its value next to the record it filled in,
`samplePhoton` its value next to the emitted ray. -/
structure Emitter (R : Type) where
  eval : EmitterQueryRecord R → Color3f R
  pdf : EmitterQueryRecord R → R
  sample : EmitterQueryRecord R → R × R → Color3f R × EmitterQueryRecord R
  samplePhoton : R × R → R × R → Color3f R × Ray3f R

/-- Modelled from the spec: the hit surface as the integrators see it (`shape.h` is
not among the sources): its BSDF and its optional emitter. -/
structure Mesh (R : Type) where
  bsdf : BSDF R
  emitter : Option (Emitter R)

/-- Modelled from the spec: `Frame` (`frame.h` is not among the sources), an
orthonormal basis `(s, t, n)` built from the surface normal `n`. -/
structure Frame (R : Type) where
  s : Vector3f R
  t : Vector3f R
  n : Vector3f R

/-- Modelled from the spec: `Intersection` (`shape.h` is not among the sources): hit
point, parametric distance, UV, shading and geometric frames, the hit surface. -/
structure Intersection (R : Type) where
  p : Vector3f R
  t : R
  uv : R × R
  shFrame : Frame R
  geoFrame : Frame R
  mesh : Mesh R

/-- Modelled from the spec: `Sampler` (`sampler.h` is not among the sources): a stream
of uniform numbers and the position reached in it. -/
structure Sampler (R : Type) where
  stream : Nat → R
  pos : Nat

/-- The members of `Medium`. -/
structure Medium (R : Type) where
  m_sigmaA : Color3f R
  m_sigmaS : Color3f R
  m_sigmaT : Color3f R
  m_albedo : Color3f R
  m_phaseF : R

/-- Modelled from the spec: the `Scene` queries the integrators use (`scene.h` is not
among the sources). -/
structure Scene (R : Type) where
  rayIntersect : Ray3f R → Option (Intersection R)
  getLights : List (Emitter R)
  getRandomEmitter : R → Emitter R
  getEnvEmitter : Option (Emitter R)
  getMedium : Option (Medium R)

/-- Outcome of one iteration of a `while (true)` loop: the loop returns, or
goes round again with a new state. -/
inductive LoopStep (S V : Type) where
  | ret : V → LoopStep S V
  | continue_ : S → LoopStep S V

section Collaborators

variable {R : Type} [LinearOrderedField R]

/-- Modelled from the spec: `Frame::toLocal` (missing `frame.h`): the coordinates of a
world vector in the frame, the normal being the local `+Z`. -/
def Frame.toLocal (f : Frame R) (v : Vector3f R) : Vector3f R :=
  ⟨v.dot f.s, v.dot f.t, v.dot f.n⟩

/-- Modelled from the spec: `Frame::toWorld` (missing `frame.h`): the world vector of
local coordinates. -/
def Frame.toWorld (f : Frame R) (v : Vector3f R) : Vector3f R :=
  Vector3f.smul v.x f.s + Vector3f.smul v.y f.t + Vector3f.smul v.z f.n

/-- Modelled from the spec: `Frame::cosTheta` (missing `frame.h`): the cosine of the
angle between a local unit vector and the normal, its `z`. -/
def Frame.cosTheta (v : Vector3f R) : R := v.z

/-- Modelled from the spec: `Intersection::toLocal` (missing `shape.h`): into the
shading frame. -/
def Intersection.toLocal (its : Intersection R) (v : Vector3f R) : Vector3f R :=
  its.shFrame.toLocal v

/-- Modelled from the spec: `Intersection::toWorld` (missing `shape.h`): out of the
shading frame. -/
def Intersection.toWorld (its : Intersection R) (v : Vector3f R) : Vector3f R :=
  its.shFrame.toWorld v

/-- Modelled from the spec: `isEmitter()` (missing `shape.h`): an emitter is attached. -/
def Mesh.isEmitter (m : Mesh R) : Bool := m.emitter.isSome

/-- Modelled from the spec: `Sampler::next1D` (missing `sampler.h`): the next number
of the stream. -/
def Sampler.next1D (s : Sampler R) : R × Sampler R :=
  (s.stream s.pos, ⟨s.stream, s.pos + 1⟩)

/-- Modelled from the spec: `Sampler::next2D` (missing `sampler.h`): the next two
numbers of the stream. -/
def Sampler.next2D (s : Sampler R) : (R × R) × Sampler R :=
  ((s.stream s.pos, s.stream (s.pos + 1)), ⟨s.stream, s.pos + 2⟩)

/-- Modelled from the spec: the default-constructed `EmitterQueryRecord()` (missing
`emitter.h`); its unset fields read as zero. -/
def EmitterQueryRecord.empty : EmitterQueryRecord R :=
  ⟨0, 0, 0, 0, ⟨0, 0, 0, none⟩⟩

/-- Modelled from the spec: the constructor `EmitterQueryRecord(ref)` of sample mode
(missing `emitter.h`): the reference point only. -/
def EmitterQueryRecord.ofRef (ref : Vector3f R) : EmitterQueryRecord R :=
  { (EmitterQueryRecord.empty : EmitterQueryRecord R) with ref := ref }

/-- Modelled from the spec: the constructor `EmitterQueryRecord(ref, p, n)` of eval
mode (missing `emitter.h`): fully specified, the direction being the unit vector
from `ref` to `p`. -/
def EmitterQueryRecord.ofRefPN (sqrt : R → R) (ref p n : Vector3f R) :
    EmitterQueryRecord R :=
  { (EmitterQueryRecord.empty : EmitterQueryRecord R) with
    ref := ref, p := p, n := n, wi := (p - ref).normalized sqrt }

/-- Modelled from the spec: the constructor `BSDFQueryRecord(wi)` of sample mode
(missing `bsdf.h`): the measure is unknown until `sample` sets it. -/
def BSDFQueryRecord.ofWi (wi : Vector3f R) : BSDFQueryRecord R :=
  ⟨wi, 0, 0, EMeasure.EUnknownMeasure, (0, 0)⟩

/-- Modelled from the spec: the constructor `BSDFQueryRecord(wi, wo, measure)` of eval
mode (missing `bsdf.h`). -/
def BSDFQueryRecord.ofWiWo (wi wo : Vector3f R) (measure : EMeasure) :
    BSDFQueryRecord R :=
  ⟨wi, wo, 0, measure, (0, 0)⟩

end Collaborators

/-- Run a loop given by its step function for at most `fuel` iterations;
`none` when the fuel runs out before the loop returns. -/
def LoopStep.run {S V : Type} (step : S → LoopStep S V) : Nat → S → Option V
  | 0, _ => none
  | fuel + 1, s =>
    match step s with
    | LoopStep.ret v => some v
    | LoopStep.continue_ s' => LoopStep.run step fuel s'

/-- The state at the head of iteration `n` of a loop started in `s` (iterations are
counted from 0); `none` when the loop has returned before. -/
def LoopStep.reach {S V : Type} (step : S → LoopStep S V) : Nat → S → Option S
  | 0, s => some s
  | n + 1, s =>
    match step s with
    | LoopStep.ret _ => none
    | LoopStep.continue_ s' => LoopStep.reach step n s'

/-- Every channel of the colour is non-negative. -/
def Color3f.NonNeg {R : Type} [LinearOrderedField R] (c : Color3f R) : Prop :=
  0 ≤ c.r ∧ 0 ≤ c.g ∧ 0 ≤ c.b

/-! ## `path_mats.cpp`: path tracing with BSDF sampling -/

namespace PathMaterialSampling

variable {R : Type} [LinearOrderedField R]

/-- The variables of `Li` that live across iterations of the loop. -/
structure State (R : Type) where
  Li : Color3f R
  t : Color3f R
  mRay : Ray3f R
  BSDF : Color3f R
  sampler : Sampler R

/-- Lines 43-47: the roulette test against the draw `u` and the rescale of
the throughput; `none` is the `return Li` branch. With the divisor 0 the float
quotient is NaN or infinite (`Color3f.divsFloat` is `none`), which the real quotient
written here does not represent. -/
def russianRoulette (t : Color3f R) (u : R) : Option (Color3f R) :=
  if u > min t.maxCoeff (999 / 1000) then none
  else some (t.divs (min t.maxCoeff (999 / 1000)))

/-- One iteration of the `while (true)` loop of `PathMaterialSampling::Li`. -/
def step (sqrt : R → R) (Epsilon : R) (scene : Scene R) (s : State R) :
    LoopStep (State R) (Color3f R) :=
  match scene.rayIntersect s.mRay with
  | none =>
    let lRec : EmitterQueryRecord R :=
      { (EmitterQueryRecord.empty : EmitterQueryRecord R) with
        wi := s.mRay.d.normalized sqrt }
    match scene.getEnvEmitter with
    | some env => LoopStep.ret (s.Li + env.eval lRec * s.BSDF)
    | none => LoopStep.ret s.Li
  | some its =>
    let Li : Color3f R :=
      match its.mesh.emitter with
      | some e =>
        s.Li + s.t * e.eval (EmitterQueryRecord.ofRefPN sqrt s.mRay.o its.p its.shFrame.n)
      | none => s.Li
    let u := s.sampler.next1D
    match russianRoulette s.t u.1 with
    | none => LoopStep.ret Li
    | some t =>
      let bRec : BSDFQueryRecord R :=
        { BSDFQueryRecord.ofWi (its.shFrame.toLocal (-s.mRay.d)) with uv := its.uv }
      let u2 := u.2.next2D
      let bs := its.mesh.bsdf.sample bRec u2.1
      let mRay := Ray3f.ofOD Epsilon its.p (its.toWorld bs.2.wo)
      LoopStep.continue_ ⟨Li, t * bs.1, mRay, bs.1, u2.2⟩

/-- `PathMaterialSampling::Li`, the loop run with `fuel` iterations at most. -/
def Li (sqrt : R → R) (Epsilon : R) (fuel : Nat) (scene : Scene R)
    (sampler : Sampler R) (ray : Ray3f R) : Option (Color3f R) :=
  LoopStep.run (step sqrt Epsilon scene) fuel
    ⟨Color3f.splat 0, Color3f.splat 1, ray, Color3f.splat 1, sampler⟩

end PathMaterialSampling

/-! ## `path_mis.cpp`: path tracing with multiple importance sampling -/

namespace PathMultiImportanceSampling

variable {R : Type} [LinearOrderedField R]

/-- The variables of `Li` that live across iterations of the loop (the outer
`BSDF`, shadowed inside the loop and never read, is left out). -/
structure State (R : Type) where
  Li : Color3f R
  t : Color3f R
  mRay : Ray3f R
  pdf_matsB : R
  pdf_matsE : R
  pdf_emsB : R
  pdf_emsE : R
  w_mat : R
  w_em : R
  sampler : Sampler R

/-- Lines 24-27: the state `Li` enters the loop with. -/
def init (sampler : Sampler R) (ray : Ray3f R) : State R :=
  { Li := Color3f.splat 0, t := Color3f.splat 1, mRay := ray,
    pdf_matsB := 0, pdf_matsE := 0, pdf_emsB := 0, pdf_emsE := 0,
    w_mat := 1, w_em := 1, sampler := sampler }

/-- Lines 50-54: the roulette test against the draw `u` and the rescale of
the throughput; `none` is the `return Li` branch. With the divisor 0 the float
quotient is NaN or infinite (`Color3f.divsFloat` is `none`), which the real quotient
written here does not represent. -/
def russianRoulette (t : Color3f R) (u : R) : Option (Color3f R) :=
  if u > min t.maxCoeff (99 / 100) then none
  else some (t.divs (min t.maxCoeff (99 / 100)))

/-- Lines 80-82: the light-sampling weight after the guarded assignment;
`w_em` is the value the variable held before. -/
def updateWem (w_em pdf_emsE pdf_emsB : R) : R :=
  if pdf_emsE + pdf_emsB ≠ 0 then pdf_emsE / (pdf_emsE + pdf_emsB) else w_em

/-- Lines 100-102 and 108-110: the material-sampling weight after the guarded
assignment; `w_mat` is the value the variable held before. -/
def updateWmat (w_mat pdf_matsB pdf_matsE : R) : R :=
  if pdf_matsE + pdf_matsB ≠ 0 then pdf_matsB / (pdf_matsB + pdf_matsE) else w_mat

/-- Lines 95-111: the one-step look-ahead along the new ray; returns the new
`(pdf_matsE, w_mat)`. -/
def lookAhead (sqrt : R → R) (scene : Scene R) (s : State R) (its : Intersection R)
    (mRay : Ray3f R) (pdf_matsB : R) : R × R :=
  match scene.rayIntersect mRay with
  | some itsR =>
    match itsR.mesh.emitter with
    | some e =>
      let pdf_matsE := e.pdf (EmitterQueryRecord.ofRefPN sqrt its.p itsR.p itsR.shFrame.n)
      (pdf_matsE, updateWmat s.w_mat pdf_matsB pdf_matsE)
    | none => (s.pdf_matsE, s.w_mat)
  | none =>
    match scene.getEnvEmitter with
    | some env =>
      let lRec_R : EmitterQueryRecord R :=
        { (EmitterQueryRecord.empty : EmitterQueryRecord R) with
          wi := mRay.d.normalized sqrt }
      let pdf_matsE := env.pdf lRec_R
      (pdf_matsE, updateWmat s.w_mat pdf_matsB pdf_matsE)
    | none => (s.pdf_matsE, s.w_mat)

/-- Lines 38-49: `Li` after the emission of the hit surface has been added
with the material-sampling weight. -/
def hitEmission (sqrt : R → R) (s : State R) (its : Intersection R) : Color3f R :=
  let radiance_mats : Color3f R :=
    match its.mesh.emitter with
    | some e =>
      s.t * e.eval (EmitterQueryRecord.ofRefPN sqrt s.mRay.o its.p its.shFrame.n)
    | none => Color3f.splat 0
  s.Li + radiance_mats.scale s.w_mat

/-- Lines 86-89: the BSDF sample of the iteration, drawn after the roulette
draw, the emitter choice and the emitter sample: its value and the record it
filled in. -/
def bsdfSample (s : State R) (its : Intersection R) : Color3f R × BSDFQueryRecord R :=
  let bRec : BSDFQueryRecord R :=
    { BSDFQueryRecord.ofWi (its.shFrame.toLocal (-s.mRay.d)) with uv := its.uv }
  its.mesh.bsdf.sample bRec s.sampler.next1D.2.next1D.2.next2D.2.next2D.1

/-- Lines 60-64: the emitter sample of the iteration, drawn after the roulette draw
and the emitter choice: its value and the record it filled in. -/
def emitterSample (scene : Scene R) (s : State R) (its : Intersection R) :
    Color3f R × EmitterQueryRecord R :=
  (scene.getRandomEmitter s.sampler.next1D.2.next1D.1).sample
    (EmitterQueryRecord.ofRef its.p) s.sampler.next1D.2.next1D.2.next2D.1

/-- One iteration of the `while (true)` loop of `PathMultiImportanceSampling::Li`. -/
def step (sqrt : R → R) (Epsilon : R) (scene : Scene R) (s : State R) :
    LoopStep (State R) (Color3f R) :=
  match scene.rayIntersect s.mRay with
  | none =>
    let lRec : EmitterQueryRecord R :=
      { (EmitterQueryRecord.empty : EmitterQueryRecord R) with
        wi := s.mRay.d.normalized sqrt }
    match scene.getEnvEmitter with
    | some env => LoopStep.ret (s.Li + (env.eval lRec).scale s.w_mat * s.t)
    | none => LoopStep.ret s.Li
  | some its =>
    let Li := hitEmission sqrt s its
    let u := s.sampler.next1D
    match russianRoulette s.t u.1 with
    | none => LoopStep.ret Li
    | some t =>
      let u1 := u.2.next1D
      let emitter := scene.getRandomEmitter u1.1
      let u2 := u1.2.next2D
      let es := emitter.sample (EmitterQueryRecord.ofRef its.p) u2.1
      let lRec_ems := es.2
      let pdf_emsE := emitter.pdf lRec_ems
      let cosTheta_ems := Frame.cosTheta (its.shFrame.toLocal lRec_ems.wi)
      let bRec_ems : BSDFQueryRecord R :=
        { BSDFQueryRecord.ofWiWo (its.shFrame.toLocal (-s.mRay.d))
            (its.shFrame.toLocal lRec_ems.wi) EMeasure.ESolidAngle with uv := its.uv }
      let BSDF_ems := its.mesh.bsdf.eval bRec_ems
      let pdf_emsB := its.mesh.bsdf.pdf bRec_ems
      let radiance_ems : Color3f R :=
        if (scene.rayIntersect lRec_ems.shadowRay).isSome then Color3f.splat 0
        else es.1.muls (scene.getLights.length : R)
      let w_em := updateWem s.w_em pdf_emsE pdf_emsB
      let Li := Li + (t.scale w_em * radiance_ems * BSDF_ems).muls (max 0 cosTheta_ems)
      let bs := bsdfSample s its
      let mRay := Ray3f.ofOD Epsilon its.p (its.toWorld bs.2.wo)
      let pdf_matsB := its.mesh.bsdf.pdf bs.2
      let la := lookAhead sqrt scene s its mRay pdf_matsB
      let discrete : Bool := decide (bs.2.measure = EMeasure.EDiscrete)
      LoopStep.continue_
        { Li := Li, t := t * bs.1, mRay := mRay,
          pdf_matsB := pdf_matsB, pdf_matsE := la.1,
          pdf_emsB := pdf_emsB, pdf_emsE := pdf_emsE,
          w_mat := if discrete then 1 else la.2,
          w_em := if discrete then 0 else w_em,
          sampler := u2.2.next2D.2 }

/-- `PathMultiImportanceSampling::Li`, the loop run with `fuel` iterations at most. -/
def Li (sqrt : R → R) (Epsilon : R) (fuel : Nat) (scene : Scene R)
    (sampler : Sampler R) (ray : Ray3f R) : Option (Color3f R) :=
  LoopStep.run (step sqrt Epsilon scene) fuel (init sampler ray)

end PathMultiImportanceSampling

/-! ## `medium.h`, `medium.cpp`: the homogeneous medium -/

namespace Medium

variable {R : Type} [LinearOrderedField R]

/-- The constructor `Medium(propList)`, from the `absorption` and `scattering`
properties.  The albedo is the channel-wise quotient `sigmaS / sigmaT`; in a channel
whose `sigmaT` is zero the float quotient is NaN or infinite, which no real number
stands for, and the properties below do not read the albedo of such a medium. -/
def ofProps (INV_PI : R) (absorption scattering : Color3f R) : Medium R :=
  { m_sigmaA := absorption
    m_sigmaS := scattering
    m_sigmaT := absorption + scattering
    m_albedo := scattering / (absorption + scattering)
    m_phaseF := (1 / 4) * INV_PI }

/-- `Medium::transmittance(x, y)`, over the library `sqrt` (inside `norm`) and `exp`. -/
def transmittance (sqrt exp : R → R) (m : Medium R) (x y : Vector3f R) : Color3f R :=
  let dist := (x - y).norm sqrt
  ⟨exp (-m.m_sigmaT.r * dist), exp (-m.m_sigmaT.g * dist), exp (-m.m_sigmaT.b * dist)⟩

end Medium

/-! ## `warp.cpp`: uniform sampling of the sphere -/

namespace Warp

variable {R : Type} [LinearOrderedField R]

/-- `Warp::squareToUniformCylinder`, over the library `cos` and `sin`. -/
def squareToUniformCylinder (cos sin : R → R) (M_PI : R) (sample : R × R) : Vector3f R :=
  ⟨cos (2 * M_PI * sample.2), sin (2 * M_PI * sample.2), 2 * sample.1 - 1⟩

/-- `Warp::squareToUniformSphere`, over the library `sqrt`, `cos` and `sin`. -/
def squareToUniformSphere (sqrt cos sin : R → R) (M_PI : R) (sample : R × R) :
    Vector3f R :=
  let cyl := squareToUniformCylinder cos sin M_PI sample
  ⟨sqrt (1 - cyl.z ^ 2) * cyl.x, sqrt (1 - cyl.z ^ 2) * cyl.y, cyl.z⟩

/-- `Warp::squareToUniformSphereCap`, over the library `sqrt`, `cos` and `sin`. -/
def squareToUniformSphereCap (sqrt cos sin : R → R) (M_PI : R) (sample : R × R)
    (cosThetaMax : R) : Vector3f R :=
  let cyl := squareToUniformCylinder cos sin M_PI sample
  let fac := cyl.z * (1 - cosThetaMax) / 2 + 1 / 2 + cosThetaMax / 2
  ⟨cyl.x * sqrt (1 - fac ^ 2), cyl.y * sqrt (1 - fac ^ 2), fac⟩

/-- `Warp::squareToUniformSphereCapPdf`: the truth value of the test, as 1 or 0, over
`2 * M_PI * (1 - cosThetaMax)`. -/
def squareToUniformSphereCapPdf (sqrt : R → R) (M_PI Epsilon : R) (v : Vector3f R)
    (cosThetaMax : R) : R :=
  (if |v.norm sqrt - 1| < Epsilon ∧ v.z ≥ cosThetaMax then 1 else 0)
    / (2 * M_PI * (1 - cosThetaMax))

/-- `Warp::squareToUniformSpherePdf`: the truth value of the test, as 1 or 0, times
`0.25 * INV_PI`. -/
def squareToUniformSpherePdf (sqrt : R → R) (INV_PI Epsilon : R) (v : Vector3f R) : R :=
  (if |v.norm sqrt - 1| < Epsilon then 1 else 0) * (1 / 4) * INV_PI

/-- `Warp::squareToCosineHemisphere`, over the library `sqrt`, `acos`, `cos`, `sin`. -/
def squareToCosineHemisphere (sqrt acos cos sin : R → R) (M_PI : R) (sample : R × R) :
    Vector3f R :=
  let phi := 2 * M_PI * sample.1
  let theta := acos (sqrt sample.2)
  ⟨sin theta * cos phi, sin theta * sin phi, cos theta⟩

end Warp

/-! ## `vol_path.cpp`: path tracing in a homogeneous medium -/

namespace VolumetricPT

variable {R : Type} [LinearOrderedField R]

/-- The variables of `Li` that live across iterations of the loop. -/
structure State (R : Type) where
  Li : Color3f R
  th : Color3f R
  nRay : Ray3f R
  sampler : Sampler R

/-- Lines 112-116: the roulette test against the draw `u` and the rescale of
the throughput `th`; `none` is the `return Li` branch. With the divisor 0 the float
quotient is NaN or infinite (`Color3f.divsFloat` is `none`), which the real quotient
written here does not represent. -/
def russianRoulette (th : Color3f R) (u : R) : Option (Color3f R) :=
  if u > min th.maxCoeff (99 / 100) then none
  else some (th.divs (min th.maxCoeff (99 / 100)))

/-- Lines 112-117: the end of an iteration, from the radiance, throughput, ray
and sampler the interaction left. -/
def roulette (Li th : Color3f R) (nRay : Ray3f R) (sampler : Sampler R) :
    LoopStep (State R) (Option (Color3f R)) :=
  match russianRoulette th sampler.next1D.1 with
  | none => LoopStep.ret (some Li)
  | some th' => LoopStep.continue_ ⟨Li, th', nRay, sampler.next1D.2⟩

/-- Line 38: the sampled free-flight distance `-log(1 - u) / sigmaT.maxCoeff()`, for
a medium whose `sigmaT.maxCoeff()` is not zero.  For a zero `sigmaT.maxCoeff()` the
float quotient is `+infinity` (NaN for the draw 0), which no real number stands for:
`interaction` tests the divisor before it reads this value. -/
def freePath (log : R → R) (medium : Medium R) (u : R) : R :=
  -log (1 - u) / medium.m_sigmaT.maxCoeff

/-- Lines 28-35: the distance `tmax` to the nearest surface along the current ray;
`tOnMiss` is what `its.t` reads after a failed intersection query (line 34). -/
def tmax (sqrt : R → R) (tOnMiss : R) (scene : Scene R) (s : State R) : R :=
  match scene.rayIntersect s.nRay with
  | some its => (its.p - s.nRay.o).norm sqrt
  | none => tOnMiss

/-- Lines 43-45: the ray leaving a scattering event at distance `t`: it starts at
`o + t * d.normalized()` in a direction drawn uniformly on the sphere. -/
def scatterRay (sqrt cos sin : R → R) (M_PI Epsilon : R) (s : State R) (t : R)
    (sampler : Sampler R) : Ray3f R :=
  Ray3f.ofOD Epsilon (s.nRay.o + Vector3f.smul t (s.nRay.d.normalized sqrt))
    (Warp.squareToUniformSphere sqrt cos sin M_PI sampler.next2D.1)

/-- Lines 47-50: the light chosen and sampled from the point `ref` with the draws
that follow the direction sample: the value `sample` returned and the record it
filled in. -/
def volumeEmitterSample (scene : Scene R) (ref : Vector3f R) (sampler : Sampler R) :
    Color3f R × EmitterQueryRecord R :=
  (scene.getRandomEmitter sampler.next2D.2.next1D.1).sample (EmitterQueryRecord.ofRef ref)
    sampler.next2D.2.next1D.2.next2D.1

/-- Lines 40-60: the volume interaction at distance `t` along the ray: the values of
`Li`, `th`, `nRay` and the sampler it leaves for the roulette of line 112. -/
def volumeInteraction (sqrt exp cos sin : R → R) (M_PI Epsilon : R) (scene : Scene R)
    (medium : Medium R) (s : State R) (t : R) (sampler : Sampler R) : State R :=
  let nRay := scatterRay sqrt cos sin M_PI Epsilon s t sampler
  let es := volumeEmitterSample scene nRay.o sampler
  let Le : Color3f R :=
    if (scene.rayIntersect es.2.shadowRay).isSome then Color3f.splat 0
    else es.1.muls (scene.getLights.length : R)
  let th := s.th * medium.m_albedo
  let Li := s.Li
    + (th * medium.transmittance sqrt exp nRay.o es.2.p).muls medium.m_phaseF * Le
  ⟨Li, th, nRay, sampler.next2D.2.next1D.2.next2D.2⟩

/-- Lines 73-99: light sampling at a surface hit that is no emitter: the term
added to `Li` and the sampler after the draws. -/
def surfaceLightSampling (sqrt exp : R → R) (scene : Scene R) (medium : Medium R)
    (s : State R) (its : Intersection R) (sampler : Sampler R) : Color3f R × Sampler R :=
  let u1 := sampler.next1D
  let emitter := scene.getRandomEmitter u1.1
  let u2 := u1.2.next2D
  let es := emitter.sample (EmitterQueryRecord.ofRef its.p) u2.1
  let bRec : BSDFQueryRecord R :=
    { BSDFQueryRecord.ofWiWo (its.shFrame.toLocal (-s.nRay.d))
        (its.shFrame.toLocal es.2.wi) EMeasure.ESolidAngle with uv := its.uv }
  let BSDF := its.mesh.bsdf.eval bRec
  let Le : Color3f R :=
    if (scene.rayIntersect es.2.shadowRay).isSome then Color3f.splat 0
    else es.1.muls (scene.getLights.length : R)
  (s.th * BSDF * medium.transmittance sqrt exp its.p es.2.p * Le, u2.2)

/-- Lines 62-111: the surface interaction at the hit `its`: the values of `Li`,
`th`, `nRay` and the sampler it leaves for the roulette of line 112. -/
def surfaceInteraction (sqrt exp : R → R) (Epsilon : R) (scene : Scene R)
    (medium : Medium R) (s : State R) (its : Intersection R) (sampler : Sampler R) :
    State R :=
  let lit : Color3f R × Sampler R :=
    match its.mesh.emitter with
    | some e =>
      let Le := e.eval (EmitterQueryRecord.ofRefPN sqrt s.nRay.o its.p its.shFrame.n)
      (s.Li + s.th * medium.transmittance sqrt exp s.nRay.o its.p * Le, sampler)
    | none =>
      let ls := surfaceLightSampling sqrt exp scene medium s its sampler
      (s.Li + ls.1, ls.2)
  let bRec_d : BSDFQueryRecord R :=
    { BSDFQueryRecord.ofWi (its.shFrame.toLocal (-s.nRay.d)) with uv := its.uv }
  let u3 := lit.2.next2D
  let bs := its.mesh.bsdf.sample bRec_d u3.1
  let nRay := Ray3f.ofOD Epsilon its.p (its.toWorld bs.2.wo)
  ⟨lit.1, s.th * bs.1, nRay, u3.2⟩

/-- Lines 28-111: the interaction of one iteration, up to the roulette of line 112.
The test `t < tmax` of line 41 is made on the float `t` of line 38: for a medium with
`sigmaT.maxCoeff() = 0` that `t` is `+infinity` (NaN for the draw 0), the test is
false and the iteration is a surface interaction; otherwise `t` is the quotient
`freePath`.  A surface interaction without a hit dereferences the null `its.mesh`
(line 66): the result is then `none`. -/
def interaction (sqrt exp log cos sin : R → R) (M_PI Epsilon tOnMiss : R)
    (scene : Scene R) (medium : Medium R) (s : State R) : Option (State R) :=
  let u0 := s.sampler.next1D
  let t := freePath log medium u0.1
  if medium.m_sigmaT.maxCoeff ≠ 0 ∧ t < tmax sqrt tOnMiss scene s then
    some (volumeInteraction sqrt exp cos sin M_PI Epsilon scene medium s t u0.2)
  else
    match scene.rayIntersect s.nRay with
    | some its => some (surfaceInteraction sqrt exp Epsilon scene medium s its u0.2)
    | none => none

/-- One iteration of the `while (true)` loop of `VolumetricPT::Li`: the interaction,
then the roulette.  The iteration returns `none` when the interaction dereferences
the null `its.mesh`. -/
def step (sqrt exp log cos sin : R → R) (M_PI Epsilon tOnMiss : R) (scene : Scene R)
    (medium : Medium R) (s : State R) : LoopStep (State R) (Option (Color3f R)) :=
  match interaction sqrt exp log cos sin M_PI Epsilon tOnMiss scene medium s with
  | some x => roulette x.Li x.th x.nRay x.sampler
  | none => LoopStep.ret none

/-- `VolumetricPT::Li`, the loop run with `fuel` iterations at most; `none` also
when the scene has no medium (line 20 dereferences it unchecked). -/
def Li (sqrt exp log cos sin : R → R) (M_PI Epsilon tOnMiss : R) (fuel : Nat)
    (scene : Scene R) (sampler : Sampler R) (ray : Ray3f R) : Option (Color3f R) :=
  match scene.getMedium with
  | none => none
  | some medium =>
    (LoopStep.run (step sqrt exp log cos sin M_PI Epsilon tOnMiss scene medium) fuel
      ⟨Color3f.splat 0, Color3f.splat 1, ray, sampler⟩).join

end VolumetricPT

/-! ## `pointlight.cpp` -/

/-- The members of `PointLight`. -/
structure PointLight (R : Type) where
  m_lightPos : Vector3f R
  m_power : Color3f R

namespace PointLight

variable {R : Type} [LinearOrderedField R]

/-- `PointLight::sample`: fills in `p`, `wi` and the shadow ray of the record and
returns the power over `4 * M_PI * squared distance`; the sample is not read. -/
def sample (sqrt : R → R) (M_PI Epsilon : R) (l : PointLight R)
    (lRec : EmitterQueryRecord R) (_sample : R × R) :
    Color3f R × EmitterQueryRecord R :=
  let lRec1 : EmitterQueryRecord R := { lRec with p := l.m_lightPos }
  let lRec2 : EmitterQueryRecord R :=
    { lRec1 with wi := (lRec1.p - lRec1.ref).normalized sqrt }
  let lRec3 : EmitterQueryRecord R :=
    { lRec2 with
      shadowRay := ⟨lRec2.ref, lRec2.wi, Epsilon, some ((lRec2.p - lRec2.ref).norm sqrt)⟩ }
  (l.m_power.divs (4 * M_PI * (l.m_lightPos - lRec3.ref).squaredNorm), lRec3)

/-- `PointLight::eval`. -/
def eval (l : PointLight R) (_lRec : EmitterQueryRecord R) : Color3f R := l.m_power

/-- `PointLight::pdf`. -/
def pdf (_l : PointLight R) (_lRec : EmitterQueryRecord R) : R := 1

/-- A point light seen through the `Emitter` interface; `samplePhoton`, which
`PointLight` does not override, is the base class's. -/
def toEmitter (sqrt : R → R) (M_PI Epsilon : R)
    (baseSamplePhoton : R × R → R × R → Color3f R × Ray3f R) (l : PointLight R) :
    Emitter R :=
  { eval := l.eval
    pdf := l.pdf
    sample := l.sample sqrt M_PI Epsilon
    samplePhoton := baseSamplePhoton }

end PointLight

/-! ## `arealight.cpp` -/

/-- Modelled from the spec: `ShapeQueryRecord` (`shape.h` is not among the sources):
reference point, sampled point, its normal and the density of the sample. -/
structure ShapeQueryRecord (R : Type) where
  ref : Vector3f R
  p : Vector3f R
  n : Vector3f R
  pdf : R

/-- Modelled from the spec: the sampling interface of `Shape` (`shape.h` is not among
the sources); `sampleSurface` returns the record it filled in. -/
structure Shape (R : Type) where
  sampleSurface : ShapeQueryRecord R → R × R → ShapeQueryRecord R
  pdfSurface : ShapeQueryRecord R → R

/-- How a call ends without a value: a thrown `NoriException`, or the dereference of
a null pointer. -/
inductive Raised where
  | noriException
  | nullDereference
deriving DecidableEq

/-- The members of `AreaEmitter`; `m_shape` is inherited from `Emitter` and null
until a shape is attached. -/
structure AreaEmitter (R : Type) where
  m_radiance : Color3f R
  m_shape : Option (Shape R)

namespace AreaEmitter

variable {R : Type} [LinearOrderedField R]

/-- `AreaEmitter::eval`. -/
def eval (a : AreaEmitter R) (lRec : EmitterQueryRecord R) : Except Raised (Color3f R) :=
  match a.m_shape with
  | none => Except.error Raised.noriException
  | some _ =>
    if lRec.n.dot (-lRec.wi) ≥ 0 then Except.ok a.m_radiance
    else Except.ok (Color3f.splat 0)

/-- `AreaEmitter::pdf`. -/
def pdf (a : AreaEmitter R) (lRec : EmitterQueryRecord R) : Except Raised R :=
  match a.m_shape with
  | none => Except.error Raised.noriException
  | some shape =>
    let sRec : ShapeQueryRecord R := ⟨lRec.ref, lRec.p, lRec.n, 0⟩
    let cosTheta := lRec.n.dot (-lRec.wi)
    if cosTheta ≤ 0 then Except.ok 0
    else Except.ok (shape.pdfSurface sRec * (lRec.p - lRec.ref).squaredNorm / cosTheta)

/-- `AreaEmitter::sample`: the value and the record filled in. -/
def sample (sqrt : R → R) (Epsilon : R) (a : AreaEmitter R) (lRec : EmitterQueryRecord R)
    (sample : R × R) : Except Raised (Color3f R × EmitterQueryRecord R) :=
  match a.m_shape with
  | none => Except.error Raised.noriException
  | some shape =>
    let sRec := shape.sampleSurface ⟨0, 0, 0, 0⟩ sample
    let lRec1 : EmitterQueryRecord R := { lRec with p := sRec.p, n := sRec.n }
    let lRec2 : EmitterQueryRecord R :=
      { lRec1 with wi := (lRec1.p - lRec1.ref).normalized sqrt }
    let lRec3 : EmitterQueryRecord R :=
      { lRec2 with
        shadowRay :=
          ⟨lRec2.ref, lRec2.wi, Epsilon, some ((lRec2.p - lRec2.ref).norm sqrt - Epsilon)⟩ }
    match a.pdf lRec3, a.eval lRec3 with
    | Except.ok pd, Except.ok e =>
      if pd = 0 then Except.ok (Color3f.splat 0, lRec3) else Except.ok (e.divs pd, lRec3)
    | Except.error r, _ => Except.error r
    | Except.ok _, Except.error r => Except.error r

/-- `AreaEmitter::samplePhoton`: the value and the emitted ray.  The shape is used
without the null check of the other three methods (line 87).  `frameOf` is the
constructor `Frame(n)` of the missing `frame.h`. -/
def samplePhoton (sqrt acos cos sin : R → R) (M_PI Epsilon : R)
    (frameOf : Vector3f R → Frame R) (a : AreaEmitter R) (sample1 sample2 : R × R) :
    Except Raised (Color3f R × Ray3f R) :=
  match a.m_shape with
  | none => Except.error Raised.nullDereference
  | some shape =>
    let sRec := shape.sampleSurface ⟨0, 0, 0, 0⟩ sample1
    let vec := (frameOf sRec.n).toWorld
      (Warp.squareToCosineHemisphere sqrt acos cos sin M_PI sample2)
    let ray := Ray3f.ofOD Epsilon sRec.p vec
    let lRec := EmitterQueryRecord.ofRefPN sqrt (sRec.p + vec) sRec.p sRec.n
    match a.eval lRec with
    | Except.ok e => Except.ok ((e.muls M_PI).divs sRec.pdf, ray)
    | Except.error r => Except.error r

end AreaEmitter

/-! ## `sphere.cpp` -/

/-- The members of `Sphere` that intersection and sampling read. -/
structure Sphere (R : Type) where
  m_position : Vector3f R
  m_radius : R

namespace Sphere

variable {R : Type} [LinearOrderedField R]

/-- The test `t < ray.maxt`, `maxt = none` being `+infinity`. -/
def belowMaxt (ray : Ray3f R) (t : R) : Bool :=
  match ray.maxt with
  | none => true
  | some m => decide (t < m)

/-- `Sphere::rayIntersect`: `some t` when it returns `true` with the parameter `t`,
`none` when it returns `false` (`u` and `v` are not written). -/
def rayIntersect (sqrt : R → R) (s : Sphere R) (ray : Ray3f R) : Option R :=
  let C := s.m_position
  let O := ray.o
  let D := ray.d
  let b := 2 * (D.x * (O.x - C.x) + D.y * (O.y - C.y) + D.z * (O.z - C.z))
  let a := D.x ^ 2 + D.y ^ 2 + D.z ^ 2
  let c := (O.x - C.x) ^ 2 + (O.y - C.y) ^ 2 + (O.z - C.z) ^ 2 - s.m_radius * s.m_radius
  let delta := b * b - 4 * a * c
  if delta > 0 then
    let tm := (-b - sqrt delta) / 2 * a
    let tM := (-b + sqrt delta) / 2 * a
    if tm > ray.mint ∧ belowMaxt ray tm = true then some tm
    else if tM > ray.mint ∧ belowMaxt ray tM = true then some tM
    else none
  else none

/-- `Sphere::sampleSurface`: the record filled in. -/
def sampleSurface (sqrt cos sin : R → R) (M_PI INV_PI Epsilon : R) (s : Sphere R)
    (sRec : ShapeQueryRecord R) (sample : R × R) : ShapeQueryRecord R :=
  let q := Warp.squareToUniformSphere sqrt cos sin M_PI sample
  { sRec with
    p := s.m_position + Vector3f.smul s.m_radius q
    n := q
    pdf := (1 / s.m_radius) ^ 2 * Warp.squareToUniformSpherePdf sqrt INV_PI Epsilon ⟨0, 0, 1⟩ }

/-- `Sphere::pdfSurface`. -/
def pdfSurface (sqrt : R → R) (INV_PI Epsilon : R) (s : Sphere R)
    (_sRec : ShapeQueryRecord R) : R :=
  (1 / s.m_radius) ^ 2 * Warp.squareToUniformSpherePdf sqrt INV_PI Epsilon ⟨0, 0, 1⟩

end Sphere

/-! ## `spotlight.cpp` -/

/-- The members of `SpotLight`. -/
structure SpotLight (R : Type) where
  m_lightPos : Vector3f R
  m_power : Color3f R
  m_lightDir : Vector3f R
  m_cosCone : R
  m_cosFalloff : R

namespace SpotLight

variable {R : Type} [LinearOrderedField R]

/-- The constructor `SpotLight(propList)`: the direction is the unit vector towards
the target, the two cosines are those of the angles given in degrees. -/
def ofProps (sqrt cos : R → R) (M_PI : R) (position target : Vector3f R)
    (cone falloff : R) (power : Color3f R) : SpotLight R :=
  { m_lightPos := position
    m_power := power
    m_lightDir := (target - position).normalized sqrt
    m_cosCone := cos (M_PI / 180 * cone)
    m_cosFalloff := cos (M_PI / 180 * falloff) }

/-- `SpotLight::falloff`. -/
def falloff (sqrt : R → R) (l : SpotLight R) (vec : Vector3f R) : R :=
  let cosTheta := (vec.normalized sqrt).dot l.m_lightDir
  if cosTheta < l.m_cosCone then 0
  else if cosTheta > l.m_cosFalloff then 1
  else ((cosTheta - l.m_cosCone) / (l.m_cosFalloff - l.m_cosCone)) ^ 4

end SpotLight

/-! ## `envmap.cpp`: the tabulated distributions of the environment map -/

namespace EnvironmentMap

variable {R : Type} [LinearOrderedField R]

/-- Lines 119-120 of `precompute1D`: the entries `Pf(row, 0 .. nf - 1)`, the first
being `acc` and each next one the previous plus the previous `pf`. -/
def cdfLoop (acc : R) : List R → List R
  | [] => []
  | p :: ps => acc :: cdfLoop (acc + p) ps

/-- `EnvironmentMap::precompute1D` on the row `f`: the sum `I` it stores, and the rows
`pf` (of `nf` entries) and `Pf` (of `nf + 1` entries) it writes; `none` when it
returns at line 117 and leaves the two rows as they were. -/
def precompute1D (f : List R) : R × Option (List R × List R) :=
  let I := f.foldl (fun acc x => acc + x) 0
  if I = 0 then (I, none)
  else (I, some (f.map (fun x => x / I), cdfLoop 0 (f.map fun x => x / I) ++ [1]))

/-- Lines 125-128 of `sample1D`: the search loop from index `i` with `fuel`
iterations left before `i` reaches `Pf.cols()`.  `some i` is the index the loop is
left with, `none` a read of `Pf` past its last column.  The second operand of `&&`
is read only when the first holds. -/
def search (Pf : List R) (unif : R) : Nat → Nat → Option Nat
  | 0, i => some i
  | fuel + 1, i =>
    match Pf[i]? with
    | none => none
    | some a =>
      if unif ≥ a then
        match Pf[i + 1]? with
        | none => none
        | some b => if unif < b then some i else search Pf unif fuel (i + 1)
      else search Pf unif fuel (i + 1)

/-- `EnvironmentMap::sample1D` on the rows `pf` and `Pf`: the coordinate `x` and the
density `pdf` it writes; `none` when it reads past the end of a row. -/
def sample1D (pf Pf : List R) (unif : R) : Option (R × R) :=
  match search Pf unif Pf.length 0 with
  | none => none
  | some i =>
    match Pf[i + 1]?, Pf[i]?, pf[i]? with
    | some b, some a, some p =>
      let t := (b - unif) / (b - a)
      some ((1 - t) * (i : R) + t * ((i : R) + 1), p)
    | _, _, _ => none

end EnvironmentMap

/-! ## `dielectric.cpp` -/

/-- The members of `Dielectric`. -/
structure Dielectric (R : Type) where
  m_intIOR : R
  m_extIOR : R

namespace Dielectric

variable {R : Type} [LinearOrderedField R]

/-- Lines 58-63 of `sample`: the relative index `eta1_2` of the refraction branch. -/
def eta1_2 (d : Dielectric R) (wi : Vector3f R) : R :=
  if Frame.cosTheta wi ≤ 0 then d.m_intIOR / d.m_extIOR else d.m_extIOR / d.m_intIOR

/-- Lines 59-63 of `sample`: the normal `n` of the refraction branch, `+Z` flipped
when `cosTheta ≤ 0`. -/
def normal (wi : Vector3f R) : Vector3f R :=
  if Frame.cosTheta wi ≤ 0 then Vector3f.smul (-1) ⟨0, 0, 1⟩ else ⟨0, 0, 1⟩

/-- Lines 64-65 of `sample`: the refracted direction before `normalize()`. -/
def refracted (sqrt : R → R) (d : Dielectric R) (wi : Vector3f R) : Vector3f R :=
  let n := normal wi
  Vector3f.smul (-d.eta1_2 wi) (wi - Vector3f.smul (wi.dot n) n)
    - Vector3f.smul (sqrt (1 - d.eta1_2 wi ^ 2 * (1 - wi.dot n ^ 2))) n

/-- `Dielectric::sample`: the value and the record filled in; `fresnelDiel` is the
Fresnel reflectance of the missing `common.cpp`. -/
def sample (sqrt : R → R) (fresnelDiel : R → R → R → R) (d : Dielectric R)
    (bRec : BSDFQueryRecord R) (sample : R × R) : Color3f R × BSDFQueryRecord R :=
  let cosTheta := Frame.cosTheta bRec.wi
  let bRec1 : BSDFQueryRecord R := { bRec with measure := EMeasure.EDiscrete }
  if sample.1 < fresnelDiel cosTheta d.m_extIOR d.m_intIOR then
    (Color3f.splat 1,
      { bRec1 with wo := ⟨-bRec1.wi.x, -bRec1.wi.y, bRec1.wi.z⟩, eta := 1 })
  else
    (Color3f.splat 1,
      { bRec1 with
        wo := (refracted sqrt d bRec1.wi).normalized sqrt
        eta := d.m_extIOR / d.m_intIOR })

end Dielectric

/-! ## `direct_ems.cpp`: direct lighting by light sampling -/

namespace DirectEmitterSampling

variable {R : Type} [LinearOrderedField R]

/-- Lines 17-25: the light chosen with the first draw, sampled from the hit point
with the next two: the value `sample` returned and the record it filled in. -/
def emitterSample (scene : Scene R) (sampler : Sampler R) (its : Intersection R) :
    Color3f R × EmitterQueryRecord R :=
  (scene.getRandomEmitter sampler.next1D.1).sample
    { (EmitterQueryRecord.empty : EmitterQueryRecord R) with ref := its.p }
    sampler.next1D.2.next2D.1

/-- `DirectEmitterSampling::Li`. -/
def Li (sqrt : R → R) (scene : Scene R) (sampler : Sampler R) (ray : Ray3f R) :
    Color3f R :=
  match scene.rayIntersect ray with
  | none => Color3f.splat 0
  | some its =>
    let es := emitterSample scene sampler its
    let lRecR := es.2
    let radiance := es.1.muls (scene.getLights.length : R)
    let cosTheta := Frame.cosTheta (its.shFrame.toLocal lRecR.wi)
    let bRec : BSDFQueryRecord R :=
      { BSDFQueryRecord.ofWiWo (its.shFrame.toLocal (-ray.d))
          (its.shFrame.toLocal lRecR.wi) EMeasure.ESolidAngle with uv := its.uv }
    let BSDF := its.mesh.bsdf.eval bRec
    let Le : Color3f R :=
      match its.mesh.emitter with
      | some e => e.eval (EmitterQueryRecord.ofRefPN sqrt ray.o its.p its.shFrame.n)
      | none => Color3f.splat 0
    let obstacle : R := if (scene.rayIntersect lRecR.shadowRay).isSome then 0 else 1
    Le + (radiance.scale obstacle * BSDF).muls (max 0 cosTheta)

end DirectEmitterSampling

/-! ## `direct_mis.cpp`: direct lighting with multiple importance sampling -/

namespace DirectMultiImportanceSampling

variable {R : Type} [LinearOrderedField R]

/-- Line 87: the guard of the light-sampling weight. -/
def emGuard (pdf_emsE pdf_emsB : R) : Bool := decide (pdf_emsE + pdf_emsB ≠ 0)

/-- Lines 85-89: the light-sampling weight `w_em`. -/
def w_em (pdf_emsE pdf_emsB : R) : R :=
  if emGuard pdf_emsE pdf_emsB then pdf_emsE / (pdf_emsE + pdf_emsB) else 0

/-- Line 90: the guard `pdf_matsE != 0.f + pdf_matsB != 0.f`.  `+` binds tighter
than `!=`, and `!=` associates to the left, so this is
`(pdf_matsE != (0.f + pdf_matsB)) != 0.f`: the inner comparison is a `bool`,
promoted to `1` or `0` and compared with zero. -/
def matGuard (pdf_matsE pdf_matsB : R) : Bool :=
  decide ((if pdf_matsE ≠ 0 + pdf_matsB then (1 : R) else 0) ≠ 0)

/-- Lines 85-92: the BSDF-sampling weight `w_mat`. -/
def w_mat (pdf_matsE pdf_matsB : R) : R :=
  if matGuard pdf_matsE pdf_matsB then pdf_matsB / (pdf_matsE + pdf_matsB) else 0

/-- `DirectMultiImportanceSampling::Li`. -/
def Li (sqrt : R → R) (Epsilon : R) (scene : Scene R) (sampler : Sampler R)
    (ray : Ray3f R) : Color3f R :=
  match scene.rayIntersect ray with
  | none => Color3f.splat 0
  | some itsE =>
    let Le : Color3f R :=
      match itsE.mesh.emitter with
      | some e => e.eval (EmitterQueryRecord.ofRefPN sqrt ray.o itsE.p itsE.shFrame.n)
      | none => Color3f.splat 0
    let u1 := sampler.next1D
    let emitter := scene.getRandomEmitter u1.1
    let lRecR0 : EmitterQueryRecord R :=
      { (EmitterQueryRecord.empty : EmitterQueryRecord R) with ref := itsE.p }
    let u2 := u1.2.next2D
    let es := emitter.sample lRecR0 u2.1
    let lRecR_ems := es.2
    let radiance_ems := es.1.muls (scene.getLights.length : R)
    let pdf_emsE := emitter.pdf lRecR_ems
    let cosTheta_ems := Frame.cosTheta (itsE.shFrame.toLocal lRecR_ems.wi)
    let bRec_ems : BSDFQueryRecord R :=
      BSDFQueryRecord.ofWiWo (itsE.shFrame.toLocal (-ray.d))
        (itsE.shFrame.toLocal lRecR_ems.wi) EMeasure.ESolidAngle
    let BSDF_ems := itsE.mesh.bsdf.eval bRec_ems
    let pdf_emsB := itsE.mesh.bsdf.pdf bRec_ems
    let obstacle : R := if (scene.rayIntersect lRecR_ems.shadowRay).isSome then 0 else 1
    let bRec_mats : BSDFQueryRecord R :=
      { BSDFQueryRecord.ofWi (itsE.shFrame.toLocal (-ray.d)) with uv := itsE.uv }
    let u3 := u2.2.next2D
    let bs := itsE.mesh.bsdf.sample bRec_mats u3.1
    let BSDF_mats := bs.1
    let pdf_matsB := itsE.mesh.bsdf.pdf bs.2
    let rayR := Ray3f.ofOD Epsilon itsE.p (itsE.toWorld bs.2.wo)
    let hitR : Color3f R × R :=
      match scene.rayIntersect rayR with
      | some itsR =>
        match itsR.mesh.emitter with
        | some e =>
          let lRecR_mats := EmitterQueryRecord.ofRefPN sqrt itsE.p itsR.p itsR.shFrame.n
          (e.eval lRecR_mats, e.pdf lRecR_mats)
        | none => (Color3f.splat 0, 0)
      | none => (Color3f.splat 0, 0)
    let radiance_mats := hitR.1
    let pdf_matsE := hitR.2
    Le + (radiance_ems.scale (w_em pdf_emsE pdf_emsB * obstacle) * BSDF_ems).muls
          (max 0 cosTheta_ems)
      + radiance_mats.scale (w_mat pdf_matsE pdf_matsB) * BSDF_mats

end DirectMultiImportanceSampling

/-! ## `photonmapper.cpp`: photon tracing -/

/-- Modelled from the spec: `Photon` (`photon.h` is not among the sources): position,
incoming direction and power, stored by value. -/
structure Photon (R : Type) where
  position : Vector3f R
  direction : Vector3f R
  power : Color3f R

/-- Modelled from the spec: the photon spatial index `PointKDTree<Photon>` after its
build (`kdtree.h` is not among the sources): `search` is the radius query, which
reports indices of stored photons, and `get` is `operator[]`. -/
structure PhotonMap (R : Type) where
  search : Vector3f R → R → List Nat
  get : Nat → Photon R

/-- The members of `PhotonMapper` at rendering time. -/
structure PhotonMapper (R : Type) where
  m_photonCount : Int
  m_photonRadius : R
  m_photonMap : PhotonMap R

namespace PhotonMapper

variable {R : Type} [LinearOrderedField R]

/-- What `tracePhoton` reads and writes: its by-reference arguments `ray` and
`W`, the sampler, and the photon map it appends to. -/
structure TraceState (R : Type) where
  ray : Ray3f R
  W : Color3f R
  sampler : Sampler R
  photonMap : List (Photon R)

/-- Lines 93-97 of `tracePhoton`: the roulette test against the draw `u` and the
rescale of the power `W`; `none` is the `break` branch. With the divisor 0 the float
quotient is NaN or infinite (`Color3f.divsFloat` is `none`), which the real quotient
written here does not represent. -/
def russianRoulette (W : Color3f R) (u : R) : Option (Color3f R) :=
  if u > min W.maxCoeff (99 / 100) then none
  else some (W.divs (min W.maxCoeff (999 / 1000)))

/-- One iteration of the `while (true)` loop of `PhotonMapper::tracePhoton`;
`ret` is the state the loop is left with. -/
def traceStep (Epsilon : R) (scene : Scene R) (s : TraceState R) :
    LoopStep (TraceState R) (TraceState R) :=
  match scene.rayIntersect s.ray with
  | none => LoopStep.ret s
  | some its =>
    let photonMap :=
      if its.mesh.bsdf.isDiffuse then s.photonMap ++ [⟨its.p, -s.ray.d, s.W⟩]
      else s.photonMap
    let u := s.sampler.next1D
    match russianRoulette s.W u.1 with
    | none => LoopStep.ret { s with sampler := u.2, photonMap := photonMap }
    | some W =>
      let bRec := BSDFQueryRecord.ofWi (its.toLocal (-s.ray.d))
      let u2 := u.2.next2D
      let bs := its.mesh.bsdf.sample bRec u2.1
      LoopStep.continue_
        { ray := Ray3f.ofOD Epsilon its.p (its.toWorld bs.2.wo)
          W := W * bs.1
          sampler := u2.2
          photonMap := photonMap }

/-- `PhotonMapper::tracePhoton`, the loop run with `fuel` iterations at most. -/
def tracePhoton (Epsilon : R) (fuel : Nat) (scene : Scene R) (s : TraceState R) :
    Option (TraceState R) :=
  LoopStep.run (traceStep Epsilon scene) fuel s

/-- One visit of a photon walk: the hit, the ray that arrived and the power carried
on arrival. -/
structure Visit (R : Type) where
  its : Intersection R
  ray : Ray3f R
  W : Color3f R

/-- The photon a visit deposits: hit position, negated ray direction, power on
arrival (line 89). -/
def Visit.photon (v : Visit R) : Photon R := ⟨v.its.p, -v.ray.d, v.W⟩

/-- The loop of `tracePhoton` run for at most `fuel` iterations, recording the
intersections it visits: the visits in order and the state reached (the final
state when the loop has ended within the fuel). -/
def traceVisits (Epsilon : R) (scene : Scene R) :
    Nat → TraceState R → List (Visit R) × TraceState R
  | 0, s => ([], s)
  | fuel + 1, s =>
    match scene.rayIntersect s.ray with
    | none => ([], s)
    | some its =>
      match traceStep Epsilon scene s with
      | LoopStep.ret s' => ([⟨its, s.ray, s.W⟩], s')
      | LoopStep.continue_ s' =>
        (⟨its, s.ray, s.W⟩ :: (traceVisits Epsilon scene fuel s').1,
          (traceVisits Epsilon scene fuel s').2)

/-- `PhotonMapper::photonDensityEstimation`. -/
def photonDensityEstimation (INV_PI : R) (pm : PhotonMapper R) (its : Intersection R)
    (ray : Ray3f R) : Color3f R :=
  let scopePhotons := pm.m_photonMap.search its.p pm.m_photonRadius
  let Lr : Color3f R :=
    scopePhotons.foldl
      (fun Lr idx =>
        let photon := pm.m_photonMap.get idx
        let bRec := BSDFQueryRecord.ofWiWo (its.shFrame.toLocal (-ray.d))
          (its.shFrame.toLocal photon.direction) EMeasure.ESolidAngle
        Lr + its.mesh.bsdf.eval bRec * photon.power)
      (Color3f.splat 0)
  (Lr.muls INV_PI).divs (pm.m_photonRadius ^ 2 * (pm.m_photonCount : R))

/-- The variables of `PhotonMapper::Li` that live across iterations of the loop. -/
structure LiState (R : Type) where
  Li : Color3f R
  t : Color3f R
  ray : Ray3f R
  sampler : Sampler R

/-- Lines 151-154 of `Li`: the roulette test against the draw `u` and the rescale
of the throughput; `none` is the `return Li` branch. With the divisor 0 the float
quotient is NaN or infinite (`Color3f.divsFloat` is `none`), which the real quotient
written here does not represent. -/
def russianRouletteLi (t : Color3f R) (u : R) : Option (Color3f R) :=
  if u > min t.maxCoeff (999 / 1000) then none
  else some (t.divs (min t.maxCoeff (999 / 1000)))

/-- One iteration of the `while (true)` loop of `PhotonMapper::Li`; `ret` carries
the radiance returned and the sampler as the call leaves it. -/
def liStep (sqrt : R → R) (INV_PI Epsilon : R) (pm : PhotonMapper R) (scene : Scene R)
    (s : LiState R) : LoopStep (LiState R) (Color3f R × Sampler R) :=
  match scene.rayIntersect s.ray with
  | none => LoopStep.ret (s.Li, s.sampler)
  | some its =>
    let Li : Color3f R :=
      match its.mesh.emitter with
      | some e =>
        s.Li + s.t * e.eval (EmitterQueryRecord.ofRefPN sqrt s.ray.o its.p its.shFrame.n)
      | none => s.Li
    if its.mesh.bsdf.isDiffuse then
      LoopStep.ret (Li + s.t * photonDensityEstimation INV_PI pm its s.ray, s.sampler)
    else
      let u := s.sampler.next1D
      match russianRouletteLi s.t u.1 with
      | none => LoopStep.ret (Li, u.2)
      | some t =>
        let bRec : BSDFQueryRecord R :=
          { BSDFQueryRecord.ofWi (its.shFrame.toLocal (-s.ray.d)) with uv := its.uv }
        let u2 := u.2.next2D
        let bs := its.mesh.bsdf.sample bRec u2.1
        let ray := Ray3f.ofOD Epsilon its.p (its.toWorld bs.2.wo)
        LoopStep.continue_ ⟨Li, t * bs.1, ray, u2.2⟩

/-- `PhotonMapper::Li`, the loop run with `fuel` iterations at most. -/
def Li (sqrt : R → R) (INV_PI Epsilon : R) (fuel : Nat) (pm : PhotonMapper R)
    (scene : Scene R) (sampler : Sampler R) (ray : Ray3f R) :
    Option (Color3f R × Sampler R) :=
  LoopStep.run (liStep sqrt INV_PI Epsilon pm scene) fuel
    ⟨Color3f.splat 0, Color3f.splat 1, ray, sampler⟩

end PhotonMapper

/-! ## A test scene

A floor in the plane `z = 0`, hit by every ray of unbounded extent (camera rays
and bounce rays); rays of bounded extent (the shadow rays of `testEmitter`) reach
their light unoccluded. -/

namespace TestScene

/-- A BSDF of constant value 1 and constant density `pdfB`, whose `sample`
reflects straight up and reports the measure `m`. -/
def testBSDF (pdfB : ℚ) (m : EMeasure) : BSDF ℚ :=
  { eval := fun _ => Color3f.splat 1
    pdf := fun _ => pdfB
    sample := fun bRec _ => (Color3f.splat 1, { bRec with wo := ⟨0, 0, 1⟩, measure := m })
    isDiffuse := false }

/-- An emitter of constant value 1 and constant density `pdfE`, whose `sample`
reports a light point straight above the reference point. -/
def testEmitter (pdfE : ℚ) : Emitter ℚ :=
  { eval := fun _ => Color3f.splat 1
    pdf := fun _ => pdfE
    sample := fun lRec _ =>
      (Color3f.splat 1,
        { lRec with
          p := ⟨0, 0, 2⟩, wi := ⟨0, 0, 1⟩
          shadowRay := ⟨lRec.ref, ⟨0, 0, 1⟩, 0, some 2⟩ })
    samplePhoton := fun _ _ => (Color3f.splat 1, ⟨⟨0, 0, 2⟩, ⟨0, 0, -1⟩, 0, none⟩) }

/-- The frame of the floor: normal `+Z`. -/
def frameZ : Frame ℚ := ⟨⟨1, 0, 0⟩, ⟨0, 1, 0⟩, ⟨0, 0, 1⟩⟩

/-- The hit on the floor, at the origin. -/
def floorHit (bsdf : BSDF ℚ) (emitter : Option (Emitter ℚ)) : Intersection ℚ :=
  { p := ⟨0, 0, 0⟩, t := 1, uv := (0, 0), shFrame := frameZ, geoFrame := frameZ
    mesh := ⟨bsdf, emitter⟩ }

/-- The scene: the floor with the given BSDF and optional emission, lit by the
one given light. -/
def scene (bsdf : BSDF ℚ) (floorEmitter : Option (Emitter ℚ)) (light : Emitter ℚ) :
    Scene ℚ :=
  { rayIntersect := fun r => if r.maxt.isNone then some (floorHit bsdf floorEmitter) else none
    getLights := [light]
    getRandomEmitter := fun _ => light
    getEnvEmitter := none
    getMedium := none }

/-- A Lambertian BSDF as the integrators see it: `eval` is `albedo / M_PI`. -/
def lambert (M_PI : ℚ) (albedo : Color3f ℚ) : BSDF ℚ :=
  { eval := fun _ => albedo.divs M_PI
    pdf := fun _ => 1 / M_PI
    sample := fun bRec _ =>
      (albedo, { bRec with wo := ⟨0, 0, 1⟩, measure := EMeasure.ESolidAngle })
    isDiffuse := true }

/-- The point light of the examples: power `(8, 8, 8)`, two units above the origin. -/
def pointLight : PointLight ℚ := ⟨⟨0, 0, 2⟩, ⟨8, 8, 8⟩⟩

/-- The `samplePhoton` a point light inherits; the direct-lighting estimators never
call it. -/
def basePhoton : ℚ × ℚ → ℚ × ℚ → Color3f ℚ × Ray3f ℚ :=
  fun _ _ => (Color3f.splat 0, ⟨⟨0, 0, 0⟩, ⟨0, 0, 1⟩, 0, none⟩)

/-- A square root on `ℚ` that is exact at the squared lengths the examples use. -/
def sqrtQ (x : ℚ) : ℚ := if x = 4 then 2 else if x = 1 then 1 else 0

/-- An exponential on `ℚ` that is exact at 0, the only argument the examples use. -/
def expQ (x : ℚ) : ℚ := if x = 0 then 1 else 0

/-- A logarithm on `ℚ` that is exact at 1, the only argument the examples use. -/
def logQ (x : ℚ) : ℚ := if x = 1 then 0 else -1

/-- A medium without extinction: absorption and scattering are zero. -/
def vacuum : Medium ℚ := Medium.ofProps (7 / 22) ⟨0, 0, 0⟩ ⟨0, 0, 0⟩

/-- A medium of absorption `(1, 1, 1)` and scattering `(1, 1, 1)`: extinction 2,
albedo 1/2. -/
def fog : Medium ℚ := Medium.ofProps (7 / 22) ⟨1, 1, 1⟩ ⟨1, 1, 1⟩

/-- An emitter of constant value 1 whose `sample` reports a light in the unit
direction `(4/5, 0, 3/5)`, at distance 1 from the reference point. -/
def tiltedEmitter : Emitter ℚ :=
  { eval := fun _ => Color3f.splat 1
    pdf := fun _ => 1
    sample := fun lRec _ =>
      (Color3f.splat 1,
        { lRec with
          p := lRec.ref + ⟨4 / 5, 0, 3 / 5⟩, wi := ⟨4 / 5, 0, 3 / 5⟩
          shadowRay := ⟨lRec.ref, ⟨4 / 5, 0, 3 / 5⟩, 0, some 1⟩ })
    samplePhoton := fun _ _ => (Color3f.splat 1, ⟨⟨0, 0, 2⟩, ⟨0, 0, -1⟩, 0, none⟩) }

/-- A photon map of two photons, of powers `(2, 2, 2)` and `(4, 4, 4)`, both
reported by every query of positive radius. -/
def photonMap : PhotonMap ℚ :=
  { search := fun _ r => if 0 < r then [0, 1] else []
    get := fun i =>
      if i = 0 then ⟨⟨0, 0, 0⟩, ⟨0, 0, 1⟩, ⟨2, 2, 2⟩⟩
      else ⟨⟨0, 0, 0⟩, ⟨0, 0, 1⟩, ⟨4, 4, 4⟩⟩ }

/-- A photon mapper over `photonMap`: 2 emitted photons, gather radius 1. -/
def photonMapper : PhotonMapper ℚ := ⟨2, 1, photonMap⟩

/-- A scene open to the sky: rays pointing down hit the floor, all others leave
the scene, where the environment emitter `env` is configured. -/
def openScene (bsdf : BSDF ℚ) (env : Emitter ℚ) : Scene ℚ :=
  { rayIntersect := fun r => if r.d.z < 0 then some (floorHit bsdf none) else none
    getLights := [env]
    getRandomEmitter := fun _ => env
    getEnvEmitter := some env
    getMedium := none }

/-- A square root on `ℚ` that is also exact at 16. -/
def sqrtQ16 (x : ℚ) : ℚ := if x = 16 then 4 else sqrtQ x

/-- A sampler whose every draw is `u`. -/
def constSampler (u : ℚ) : Sampler ℚ := ⟨fun _ => u, 0⟩

/-- A camera ray looking straight down at the floor. -/
def cameraRay : Ray3f ℚ := ⟨⟨0, 0, 1⟩, ⟨0, 0, -1⟩, 0, none⟩

end TestScene

/-! ## Properties -/

section Lemmas

variable {R : Type} [LinearOrderedField R]

theorem Color3f.add_def (a b : Color3f R) :
    a + b = ⟨a.r + b.r, a.g + b.g, a.b + b.b⟩ := rfl

theorem Color3f.mul_def (a b : Color3f R) :
    a * b = ⟨a.r * b.r, a.g * b.g, a.b * b.b⟩ := rfl

theorem Color3f.zero_def : (0 : Color3f R) = ⟨0, 0, 0⟩ := rfl

theorem Color3f.div_def (a b : Color3f R) :
    a / b = ⟨a.r / b.r, a.g / b.g, a.b / b.b⟩ := rfl

theorem Vector3f.vsub_def (a b : Vector3f R) :
    a - b = ⟨a.x - b.x, a.y - b.y, a.z - b.z⟩ := rfl

theorem Vector3f.vadd_def (a b : Vector3f R) :
    a + b = ⟨a.x + b.x, a.y + b.y, a.z + b.z⟩ := rfl

theorem Vector3f.vneg_def (a : Vector3f R) : -a = ⟨-a.x, -a.y, -a.z⟩ := rfl

theorem Vector3f.zero_vec : (0 : Vector3f R) = ⟨0, 0, 0⟩ := rfl

theorem Color3f.muls_eq_scale (c : Color3f R) (s : R) : c.muls s = c.scale s := by
  ext <;> simp [Color3f.muls, Color3f.scale, mul_comm]

/-- Dividing by the survival probability and weighting by it gives the value back. -/
theorem Color3f.scale_divs_cancel (t : Color3f R) (p : R) (hp : p ≠ 0) :
    (t.divs p).scale p + (Color3f.splat 0).scale (1 - p) = t := by
  ext <;> simp [Color3f.add_def, Color3f.scale, Color3f.divs, Color3f.splat] <;> field_simp

end Lemmas

section Roulette

variable {R : Type} [LinearOrderedField R]

/-- C1: in `PathMaterialSampling::Li`, `PathMultiImportanceSampling::Li` and
`VolumetricPT::Li`, for a throughput `t` whose largest channel is positive, the
roulette step continues exactly when the draw `u` does not exceed
`p = min (maxCoeff t) cap` (`cap` = 0.999, 0.99, 0.99), the surviving throughput
is `t / p` with that same `p`, and `p * (t / p) + (1 - p) * 0 = t`. -/
theorem russianRoulette_unbiased (t : Color3f R) (u : R) (hm : 0 < t.maxCoeff) :
    (PathMaterialSampling.russianRoulette t u =
        (if u ≤ min t.maxCoeff (999 / 1000)
          then some (t.divs (min t.maxCoeff (999 / 1000))) else none)
      ∧ (t.divs (min t.maxCoeff (999 / 1000))).scale (min t.maxCoeff (999 / 1000))
          + (Color3f.splat 0).scale (1 - min t.maxCoeff (999 / 1000)) = t)
    ∧ (PathMultiImportanceSampling.russianRoulette t u =
        (if u ≤ min t.maxCoeff (99 / 100)
          then some (t.divs (min t.maxCoeff (99 / 100))) else none)
      ∧ (t.divs (min t.maxCoeff (99 / 100))).scale (min t.maxCoeff (99 / 100))
          + (Color3f.splat 0).scale (1 - min t.maxCoeff (99 / 100)) = t)
    ∧ (VolumetricPT.russianRoulette t u =
        (if u ≤ min t.maxCoeff (99 / 100)
          then some (t.divs (min t.maxCoeff (99 / 100))) else none)
      ∧ (t.divs (min t.maxCoeff (99 / 100))).scale (min t.maxCoeff (99 / 100))
          + (Color3f.splat 0).scale (1 - min t.maxCoeff (99 / 100)) = t) := by
  have h1 : min t.maxCoeff (999 / 1000 : R) ≠ 0 :=
    ne_of_gt (lt_min hm (by norm_num))
  have h2 : min t.maxCoeff (99 / 100 : R) ≠ 0 :=
    ne_of_gt (lt_min hm (by norm_num))
  refine ⟨⟨?_, Color3f.scale_divs_cancel t _ h1⟩, ⟨?_, Color3f.scale_divs_cancel t _ h2⟩,
    ⟨?_, Color3f.scale_divs_cancel t _ h2⟩⟩
  · unfold PathMaterialSampling.russianRoulette
    by_cases h : u ≤ min t.maxCoeff (999 / 1000)
    · rw [if_neg (not_lt.mpr h), if_pos h]
    · rw [if_pos (not_le.mp h), if_neg h]
  · unfold PathMultiImportanceSampling.russianRoulette
    by_cases h : u ≤ min t.maxCoeff (99 / 100)
    · rw [if_neg (not_lt.mpr h), if_pos h]
    · rw [if_pos (not_le.mp h), if_neg h]
  · unfold VolumetricPT.russianRoulette
    by_cases h : u ≤ min t.maxCoeff (99 / 100)
    · rw [if_neg (not_lt.mpr h), if_pos h]
    · rw [if_pos (not_le.mp h), if_neg h]

/-- C1 at the throughput `(1/2, 1/4, 1/8)` and the draw `1/4`: the three walks go on
with the throughput `(1, 1/2, 1/4)`. -/
theorem russianRoulette_unbiased_witness :
    0 < (⟨1 / 2, 1 / 4, 1 / 8⟩ : Color3f ℚ).maxCoeff
      ∧ PathMaterialSampling.russianRoulette (⟨1 / 2, 1 / 4, 1 / 8⟩ : Color3f ℚ) (1 / 4)
          = some ⟨1, 1 / 2, 1 / 4⟩
      ∧ PathMultiImportanceSampling.russianRoulette (⟨1 / 2, 1 / 4, 1 / 8⟩ : Color3f ℚ) (1 / 4)
          = some ⟨1, 1 / 2, 1 / 4⟩
      ∧ VolumetricPT.russianRoulette (⟨1 / 2, 1 / 4, 1 / 8⟩ : Color3f ℚ) (1 / 4)
          = some ⟨1, 1 / 2, 1 / 4⟩ := by
  have hm : 0 < (⟨1 / 2, 1 / 4, 1 / 8⟩ : Color3f ℚ).maxCoeff := by
    norm_num [Color3f.maxCoeff]
  obtain ⟨⟨a, _⟩, ⟨b, _⟩, ⟨c, _⟩⟩ :=
    russianRoulette_unbiased (⟨1 / 2, 1 / 4, 1 / 8⟩ : Color3f ℚ) (1 / 4) hm
  refine ⟨hm, ?_, ?_, ?_⟩
  · rw [a]; norm_num [Color3f.maxCoeff, Color3f.divs]
  · rw [b]; norm_num [Color3f.maxCoeff, Color3f.divs]
  · rw [c]; norm_num [Color3f.maxCoeff, Color3f.divs]

/-- C7, evaluated: in `PhotonMapper::tracePhoton` a photon of power `(1, 1, 1)` is
tested against the threshold `0.99` (it survives the draw `0.99` and is killed by
any larger one) but its power is divided by `0.999`, so that threshold times
surviving power is `(990/999) * (1, 1, 1)`, not the power carried on arrival. -/
theorem tracePhoton_roulette_mismatch :
    PhotonMapper.russianRoulette (⟨1, 1, 1⟩ : Color3f ℚ) (99 / 100)
        = some ⟨1000 / 999, 1000 / 999, 1000 / 999⟩
      ∧ PhotonMapper.russianRoulette (⟨1, 1, 1⟩ : Color3f ℚ) (991 / 1000) = none
      ∧ (⟨1000 / 999, 1000 / 999, 1000 / 999⟩ : Color3f ℚ).scale (99 / 100)
          + (Color3f.splat 0).scale (1 - 99 / 100) ≠ ⟨1, 1, 1⟩
      ∧ PathMultiImportanceSampling.russianRoulette (⟨1, 1, 1⟩ : Color3f ℚ) (99 / 100)
        = some ⟨100 / 99, 100 / 99, 100 / 99⟩ := by
  refine ⟨?_, ?_, ?_, ?_⟩
  · norm_num [PhotonMapper.russianRoulette, Color3f.maxCoeff, Color3f.divs]
  · norm_num [PhotonMapper.russianRoulette, Color3f.maxCoeff, Color3f.divs]
  · intro h
    have hr := congrArg Color3f.r h
    norm_num [Color3f.add_def, Color3f.scale, Color3f.splat] at hr
  · norm_num [PathMultiImportanceSampling.russianRoulette, Color3f.maxCoeff, Color3f.divs]

end Roulette

section Weights

variable {R : Type} [LinearOrderedField R]

/-- C2, evaluated: in `DirectMultiImportanceSampling::Li` the guard of `w_mat`
compares the two densities with each other, so for `pdf_matsE = pdf_matsB = 1`
(sum `2`, nonzero) the weight is `0` where `pdf_matsB / (pdf_matsE + pdf_matsB)`
is `1/2`; for unequal densities the quotient is assigned. -/
theorem direct_mis_w_mat_equal_densities :
    DirectMultiImportanceSampling.w_mat (1 : ℚ) 1 = 0
      ∧ (1 : ℚ) + 1 ≠ 0
      ∧ (1 : ℚ) / (1 + 1) = 1 / 2
      ∧ DirectMultiImportanceSampling.w_mat (1 : ℚ) 3 = 3 / 4
      ∧ DirectMultiImportanceSampling.w_em (1 : ℚ) 1 = 1 / 2 := by
  refine ⟨?_, ?_, ?_, ?_, ?_⟩
  · simp [DirectMultiImportanceSampling.w_mat, DirectMultiImportanceSampling.matGuard]
  · norm_num
  · norm_num
  · norm_num [DirectMultiImportanceSampling.w_mat, DirectMultiImportanceSampling.matGuard]
  · norm_num [DirectMultiImportanceSampling.w_em, DirectMultiImportanceSampling.emGuard]

/-- C3: in `PathMultiImportanceSampling::Li`, the light-sampling weight rule and
the material-sampling weight rule applied to the same pair of non-negative,
nonzero densities `pdf_E`, `pdf_B` give weights that sum to exactly 1, whatever
values the two weight variables held before. -/
theorem path_mis_weights_sum_one (w_em w_mat pdf_E pdf_B : R)
    (hE0 : 0 ≤ pdf_E) (hB0 : 0 ≤ pdf_B) (hE : pdf_E ≠ 0) (hB : pdf_B ≠ 0) :
    PathMultiImportanceSampling.updateWem w_em pdf_E pdf_B
      + PathMultiImportanceSampling.updateWmat w_mat pdf_B pdf_E = 1 := by
  have hEpos : 0 < pdf_E := lt_of_le_of_ne hE0 (Ne.symm hE)
  have hBpos : 0 < pdf_B := lt_of_le_of_ne hB0 (Ne.symm hB)
  have hs : pdf_E + pdf_B ≠ 0 := ne_of_gt (add_pos hEpos hBpos)
  have hs' : pdf_B + pdf_E ≠ 0 := by rwa [add_comm]
  unfold PathMultiImportanceSampling.updateWem PathMultiImportanceSampling.updateWmat
  rw [if_pos hs, if_pos hs]
  field_simp
  ring

/-- C3 at the densities `pdf_E = 1`, `pdf_B = 3`: the weights are `1/4` and `3/4`. -/
theorem path_mis_weights_sum_one_witness :
    PathMultiImportanceSampling.updateWem (1 : ℚ) 1 3 = 1 / 4
      ∧ PathMultiImportanceSampling.updateWmat (1 : ℚ) 3 1 = 3 / 4
      ∧ PathMultiImportanceSampling.updateWem (1 : ℚ) 1 3
          + PathMultiImportanceSampling.updateWmat (1 : ℚ) 3 1 = 1 :=
  ⟨by norm_num [PathMultiImportanceSampling.updateWem],
   by norm_num [PathMultiImportanceSampling.updateWmat],
   path_mis_weights_sum_one (1 : ℚ) 1 1 3 (by norm_num) (by norm_num) (by norm_num)
     (by norm_num)⟩

/-- C5: in `DirectMultiImportanceSampling::Li`, for non-negative densities (only
those of the BSDF-sampled direction need the assumption), each
of the two weights is the quotient only under its guard and is `0` otherwise,
the guard of either weight being true implies that the denominator of its
quotient is nonzero, and a weight whose two densities are both zero is `0`. -/
theorem direct_mis_no_zero_division (pdf_emsE pdf_emsB pdf_matsE pdf_matsB : R)
    (h3 : 0 ≤ pdf_matsE) (h4 : 0 ≤ pdf_matsB) :
    (DirectMultiImportanceSampling.w_em pdf_emsE pdf_emsB
        = if DirectMultiImportanceSampling.emGuard pdf_emsE pdf_emsB
          then pdf_emsE / (pdf_emsE + pdf_emsB) else 0)
      ∧ (DirectMultiImportanceSampling.w_mat pdf_matsE pdf_matsB
        = if DirectMultiImportanceSampling.matGuard pdf_matsE pdf_matsB
          then pdf_matsB / (pdf_matsE + pdf_matsB) else 0)
      ∧ (DirectMultiImportanceSampling.emGuard pdf_emsE pdf_emsB = true
          → pdf_emsE + pdf_emsB ≠ 0)
      ∧ (DirectMultiImportanceSampling.matGuard pdf_matsE pdf_matsB = true
          → pdf_matsE + pdf_matsB ≠ 0)
      ∧ (pdf_emsE = 0 → pdf_emsB = 0
          → DirectMultiImportanceSampling.w_em pdf_emsE pdf_emsB = 0)
      ∧ (pdf_matsE = 0 → pdf_matsB = 0
          → DirectMultiImportanceSampling.w_mat pdf_matsE pdf_matsB = 0) := by
  refine ⟨rfl, rfl, ?_, ?_, ?_, ?_⟩
  · intro hg
    simpa [DirectMultiImportanceSampling.emGuard] using hg
  · intro hg
    have hne : pdf_matsE ≠ pdf_matsB := by
      simpa [DirectMultiImportanceSampling.matGuard] using hg
    intro hsum
    have hE : pdf_matsE = 0 := le_antisymm (by linarith) h3
    have hB : pdf_matsB = 0 := le_antisymm (by linarith) h4
    exact hne (hE.trans hB.symm)
  · intro hE hB
    simp [DirectMultiImportanceSampling.w_em, DirectMultiImportanceSampling.emGuard, hE, hB]
  · intro hE hB
    simp [DirectMultiImportanceSampling.w_mat, DirectMultiImportanceSampling.matGuard, hE, hB]

/-- C5 at the densities `(0, 0)` for light sampling and `(2, 1)` for BSDF
sampling: no quotient for the first weight, the quotient `1/3` for the second. -/
theorem direct_mis_no_zero_division_witness :
    DirectMultiImportanceSampling.w_em (0 : ℚ) 0 = 0
      ∧ DirectMultiImportanceSampling.matGuard (2 : ℚ) 1 = true
      ∧ (2 : ℚ) + 1 ≠ 0 := by
  have h := direct_mis_no_zero_division (0 : ℚ) 0 2 1 (by norm_num) (by norm_num)
  have hg : DirectMultiImportanceSampling.matGuard (2 : ℚ) 1 = true := by
    simp [DirectMultiImportanceSampling.matGuard]
  exact ⟨h.2.2.2.2.1 rfl rfl, hg, h.2.2.2.1 hg⟩

/-- C6: in `PathMultiImportanceSampling::Li`, an iteration that hits a surface,
goes on, and whose BSDF sample reported the discrete measure ends with
`w_mat = 1` and `w_em = 0`, whatever the look-ahead computed.  In the next
iteration the emission of a hit emitter enters `Li` as throughput times emission
(so the walk returns `Li + t * Le` if the roulette then stops it), and on a miss
the environment's value is returned added as `eval * t`. -/
theorem path_mis_discrete_bounce (sqrt : R → R) (Epsilon : R) (scene : Scene R)
    (s s' : PathMultiImportanceSampling.State R) (its : Intersection R)
    (hhit : scene.rayIntersect s.mRay = some its)
    (hdisc : (PathMultiImportanceSampling.bsdfSample s its).2.measure = EMeasure.EDiscrete)
    (hstep : PathMultiImportanceSampling.step sqrt Epsilon scene s = LoopStep.continue_ s') :
    s'.w_mat = 1 ∧ s'.w_em = 0
      ∧ (∀ its2 e, its2.mesh.emitter = some e →
          PathMultiImportanceSampling.hitEmission sqrt s' its2
            = s'.Li + s'.t * e.eval
                (EmitterQueryRecord.ofRefPN sqrt s'.mRay.o its2.p its2.shFrame.n))
      ∧ (∀ its2 e, scene.rayIntersect s'.mRay = some its2 → its2.mesh.emitter = some e →
          PathMultiImportanceSampling.russianRoulette s'.t s'.sampler.next1D.1 = none →
          PathMultiImportanceSampling.step sqrt Epsilon scene s'
            = LoopStep.ret (s'.Li + s'.t * e.eval
                (EmitterQueryRecord.ofRefPN sqrt s'.mRay.o its2.p its2.shFrame.n)))
      ∧ (∀ env, scene.rayIntersect s'.mRay = none → scene.getEnvEmitter = some env →
          PathMultiImportanceSampling.step sqrt Epsilon scene s'
            = LoopStep.ret (s'.Li + env.eval
                { (EmitterQueryRecord.empty : EmitterQueryRecord R) with
                  wi := s'.mRay.d.normalized sqrt } * s'.t)) := by
  have hw : s'.w_mat = 1 ∧ s'.w_em = 0 := by
    unfold PathMultiImportanceSampling.step at hstep
    rw [hhit] at hstep
    simp only at hstep
    split at hstep
    · cases hstep
    · injection hstep with hs
      subst hs
      simp [hdisc]
  obtain ⟨hm, he⟩ := hw
  have hem : ∀ its2 e, its2.mesh.emitter = some e →
      PathMultiImportanceSampling.hitEmission sqrt s' its2
        = s'.Li + s'.t * e.eval
            (EmitterQueryRecord.ofRefPN sqrt s'.mRay.o its2.p its2.shFrame.n) := by
    intro its2 e hemit
    unfold PathMultiImportanceSampling.hitEmission
    rw [hemit, hm]
    simp [Color3f.scale]
  refine ⟨hm, he, hem, ?_, ?_⟩
  · intro its2 e hhit2 hemit hrr
    unfold PathMultiImportanceSampling.step
    rw [hhit2]
    simp only
    rw [hrr, hem its2 e hemit]
  · intro env hmiss henv
    unfold PathMultiImportanceSampling.step
    rw [hmiss]
    simp only
    rw [henv, hm]
    simp [Color3f.scale]

/-- C6 on the test scene with a specular, emitting floor (BSDF density 3, light
density 1): the look-ahead computes the weight `3/4`, the discrete bounce
overrides it with `1` and sets the light-sampling weight to `0`, and the next
hit's emission is added as throughput times emission. -/
theorem path_mis_discrete_bounce_witness :
    PathMultiImportanceSampling.updateWmat (1 : ℚ) 3 1 = 3 / 4
      ∧ ∃ s', PathMultiImportanceSampling.step (fun x => x) 0
          (TestScene.scene (TestScene.testBSDF 3 EMeasure.EDiscrete)
            (some (TestScene.testEmitter 1)) (TestScene.testEmitter 1))
          (PathMultiImportanceSampling.init (TestScene.constSampler 0) TestScene.cameraRay)
            = LoopStep.continue_ s'
        ∧ s'.pdf_matsB = 3 ∧ s'.pdf_matsE = 1
        ∧ s'.w_mat = 1 ∧ s'.w_em = 0
        ∧ PathMultiImportanceSampling.hitEmission (fun x => x) s'
            (TestScene.floorHit (TestScene.testBSDF 3 EMeasure.EDiscrete)
              (some (TestScene.testEmitter 1)))
          = s'.Li + s'.t * Color3f.splat 1 := by
  refine ⟨by norm_num [PathMultiImportanceSampling.updateWmat], ?_⟩
  have hstep : PathMultiImportanceSampling.step (fun x => x) 0
      (TestScene.scene (TestScene.testBSDF 3 EMeasure.EDiscrete)
        (some (TestScene.testEmitter 1)) (TestScene.testEmitter 1))
      (PathMultiImportanceSampling.init (TestScene.constSampler 0) TestScene.cameraRay)
        = LoopStep.continue_
          { Li := ⟨124 / 99, 124 / 99, 124 / 99⟩, t := ⟨100 / 99, 100 / 99, 100 / 99⟩
            mRay := ⟨⟨0, 0, 0⟩, ⟨0, 0, 1⟩, 0, none⟩
            pdf_matsB := 3, pdf_matsE := 1, pdf_emsB := 3, pdf_emsE := 1
            w_mat := 1, w_em := 0, sampler := ⟨fun _ => 0, 6⟩ } := by
    simp [PathMultiImportanceSampling.step, PathMultiImportanceSampling.init,
      PathMultiImportanceSampling.hitEmission, PathMultiImportanceSampling.bsdfSample,
      PathMultiImportanceSampling.lookAhead, PathMultiImportanceSampling.updateWem,
      PathMultiImportanceSampling.updateWmat,
      PathMultiImportanceSampling.russianRoulette,
      TestScene.scene, TestScene.cameraRay, TestScene.constSampler, TestScene.testBSDF,
      TestScene.testEmitter, TestScene.floorHit, TestScene.frameZ,
      Sampler.next1D, Sampler.next2D, Color3f.maxCoeff, Color3f.splat, Color3f.scale,
      Color3f.muls, Color3f.divs, Color3f.add_def, Color3f.mul_def, Ray3f.ofOD,
      EmitterQueryRecord.ofRef, EmitterQueryRecord.empty, BSDFQueryRecord.ofWi,
      BSDFQueryRecord.ofWiWo, Frame.toLocal, Frame.toWorld, Frame.cosTheta,
      Intersection.toWorld, Vector3f.dot, Vector3f.smul, Vector3f.vadd_def, Vector3f.vneg_def]
    norm_num
  have h := path_mis_discrete_bounce (fun x => x) 0
    (TestScene.scene (TestScene.testBSDF 3 EMeasure.EDiscrete)
      (some (TestScene.testEmitter 1)) (TestScene.testEmitter 1))
    (PathMultiImportanceSampling.init (TestScene.constSampler 0) TestScene.cameraRay) _
    (TestScene.floorHit (TestScene.testBSDF 3 EMeasure.EDiscrete)
      (some (TestScene.testEmitter 1)))
    (by simp [TestScene.scene, PathMultiImportanceSampling.init, TestScene.cameraRay])
    (by simp [PathMultiImportanceSampling.bsdfSample, TestScene.floorHit,
          TestScene.testBSDF])
    hstep
  exact ⟨_, hstep, rfl, rfl, h.1, h.2.1,
    h.2.2.1 (TestScene.floorHit (TestScene.testBSDF 3 EMeasure.EDiscrete)
      (some (TestScene.testEmitter 1))) (TestScene.testEmitter 1) rfl⟩

end Weights

section Transmittance

/-- On a segment the Euclidean lengths add up: for `b = a + s * (c - a)` with
`0 ≤ s ≤ 1`, `|a - c| = |a - b| + |b - c|`. -/
theorem Vector3f.norm_segment (a b c : Vector3f ℝ) (s : ℝ) (hs0 : 0 ≤ s) (hs1 : s ≤ 1)
    (hb : b = a + Vector3f.smul s (c - a)) :
    (a - c).norm Real.sqrt = (a - b).norm Real.sqrt + (b - c).norm Real.sqrt := by
  have h1 : (a - b).squaredNorm = s ^ 2 * (a - c).squaredNorm := by
    subst hb
    simp only [Vector3f.squaredNorm, Vector3f.vsub_def, Vector3f.vadd_def, Vector3f.smul]
    ring
  have h2 : (b - c).squaredNorm = (1 - s) ^ 2 * (a - c).squaredNorm := by
    subst hb
    simp only [Vector3f.squaredNorm, Vector3f.vsub_def, Vector3f.vadd_def, Vector3f.smul]
    ring
  unfold Vector3f.norm
  rw [h1, h2, Real.sqrt_mul (sq_nonneg s), Real.sqrt_mul (sq_nonneg (1 - s)),
    Real.sqrt_sq hs0, Real.sqrt_sq (by linarith : (0 : ℝ) ≤ 1 - s)]
  ring

/-- C8: `Medium::transmittance` is multiplicative along a line: for every medium
and points `a`, `b`, `c` with `b` on the segment from `a` to `c`
(`b = a + s * (c - a)`, `0 ≤ s ≤ 1`),
`transmittance(a, c) = transmittance(a, b) * transmittance(b, c)` channel-wise
(over the reals, with the real `sqrt` and `exp`). -/
theorem transmittance_multiplicative (m : Medium ℝ) (a b c : Vector3f ℝ) (s : ℝ)
    (hs0 : 0 ≤ s) (hs1 : s ≤ 1) (hb : b = a + Vector3f.smul s (c - a)) :
    Medium.transmittance Real.sqrt Real.exp m a c
      = Medium.transmittance Real.sqrt Real.exp m a b
        * Medium.transmittance Real.sqrt Real.exp m b c := by
  have hn := Vector3f.norm_segment a b c s hs0 hs1 hb
  simp only [Medium.transmittance, Color3f.mul_def, hn, ← Real.exp_add]
  congr 1 <;> ring_nf

/-- C8 for the medium of absorption `(1, 1, 1)` and scattering `(1, 2, 3)` and the
points `0`, `1`, `2` of the x-axis. -/
theorem transmittance_multiplicative_witness :
    Medium.transmittance Real.sqrt Real.exp
        (Medium.ofProps (1 / Real.pi) ⟨1, 1, 1⟩ ⟨1, 2, 3⟩) ⟨0, 0, 0⟩ ⟨2, 0, 0⟩
      = Medium.transmittance Real.sqrt Real.exp
          (Medium.ofProps (1 / Real.pi) ⟨1, 1, 1⟩ ⟨1, 2, 3⟩) ⟨0, 0, 0⟩ ⟨1, 0, 0⟩
        * Medium.transmittance Real.sqrt Real.exp
          (Medium.ofProps (1 / Real.pi) ⟨1, 1, 1⟩ ⟨1, 2, 3⟩) ⟨1, 0, 0⟩ ⟨2, 0, 0⟩ :=
  transmittance_multiplicative _ ⟨0, 0, 0⟩ ⟨1, 0, 0⟩ ⟨2, 0, 0⟩ (1 / 2) (by norm_num)
    (by norm_num) (by ext <;> norm_num [Vector3f.vadd_def, Vector3f.vsub_def, Vector3f.smul])

end Transmittance

section DirectLighting

variable {R : Type} [LinearOrderedField R]

/-- C9: when the camera ray hits a surface, `DirectEmitterSampling::Li` returns
`Le + V * (N * S) * f * max(0, cosTheta)`: `Le` the hit surface's emitter `eval`
(zero if it is no emitter), `S` the value of the chosen emitter's `sample`, `N`
the number of lights, `f` the surface BSDF `eval` for `(-ray.d, light direction)`,
`cosTheta` the cosine between the light direction and the shading normal, `V` = 0
if the shadow ray is occluded and 1 otherwise; an occluded shadow ray leaves `Le`. -/
theorem direct_ems_Li_formula (sqrt : R → R) (scene : Scene R) (sampler : Sampler R)
    (ray : Ray3f R) (its : Intersection R) (hhit : scene.rayIntersect ray = some its) :
    DirectEmitterSampling.Li sqrt scene sampler ray
        = (match its.mesh.emitter with
            | some e => e.eval (EmitterQueryRecord.ofRefPN sqrt ray.o its.p its.shFrame.n)
            | none => Color3f.splat 0)
          + ((((DirectEmitterSampling.emitterSample scene sampler its).1.scale
                  (scene.getLights.length : R)).scale
                (if (scene.rayIntersect
                      (DirectEmitterSampling.emitterSample scene sampler its).2.shadowRay).isSome
                  then 0 else 1))
              * its.mesh.bsdf.eval
                  { BSDFQueryRecord.ofWiWo (its.shFrame.toLocal (-ray.d))
                      (its.shFrame.toLocal
                        (DirectEmitterSampling.emitterSample scene sampler its).2.wi)
                      EMeasure.ESolidAngle with uv := its.uv }).muls
              (max 0 ((DirectEmitterSampling.emitterSample scene sampler its).2.wi.dot
                its.shFrame.n))
      ∧ ((scene.rayIntersect
            (DirectEmitterSampling.emitterSample scene sampler its).2.shadowRay).isSome = true →
          DirectEmitterSampling.Li sqrt scene sampler ray
            = (match its.mesh.emitter with
                | some e => e.eval (EmitterQueryRecord.ofRefPN sqrt ray.o its.p its.shFrame.n)
                | none => Color3f.splat 0)) := by
  constructor
  · unfold DirectEmitterSampling.Li
    rw [hhit]
    simp only [Frame.cosTheta, Frame.toLocal, Color3f.muls_eq_scale]
  · intro hocc
    unfold DirectEmitterSampling.Li
    rw [hhit]
    simp only [hocc, if_true]
    cases its.mesh.emitter <;>
      (ext <;> simp [Color3f.scale, Color3f.muls, Color3f.mul_def, Color3f.add_def,
        Color3f.splat])

/-- C9 on the test scene (non-emitting floor of BSDF value 1, one light of sample
value 1 straight above, unoccluded): the estimate is `0 + 1 * (1 * 1) * 1 * 1`. -/
theorem direct_ems_Li_formula_witness :
    DirectEmitterSampling.Li TestScene.sqrtQ
        (TestScene.scene (TestScene.testBSDF 1 EMeasure.ESolidAngle) none
          (TestScene.testEmitter 1))
        (TestScene.constSampler 0) TestScene.cameraRay
      = ⟨1, 1, 1⟩ :=
  (direct_ems_Li_formula TestScene.sqrtQ
      (TestScene.scene (TestScene.testBSDF 1 EMeasure.ESolidAngle) none
        (TestScene.testEmitter 1))
      (TestScene.constSampler 0) TestScene.cameraRay
      (TestScene.floorHit (TestScene.testBSDF 1 EMeasure.ESolidAngle) none)
      (by simp [TestScene.scene, TestScene.cameraRay])).1.trans
    (by
      simp [DirectEmitterSampling.emitterSample, TestScene.scene, TestScene.testBSDF,
        TestScene.testEmitter, TestScene.floorHit, TestScene.frameZ, TestScene.constSampler,
        Sampler.next1D, Sampler.next2D, Color3f.splat, Color3f.scale, Color3f.muls,
        Color3f.add_def, Color3f.mul_def, Vector3f.dot, EmitterQueryRecord.empty])

/-- C10: in a scene whose only light is a `PointLight` of power `P`, for a camera
ray hitting a non-emissive surface point `x` at distance `d > 0` from the light,
a BSDF whose `eval` is `albedo / M_PI` and an unoccluded shadow ray,
`DirectEmitterSampling::Li` is
`(albedo / M_PI) * P / (4 * M_PI * d^2) * max(0, cosTheta)` for every sampler
state, `cosTheta` being the cosine of the unit vector towards the light with the
shading normal. -/
theorem direct_ems_point_light (sqrt : R → R) (M_PI Epsilon : R)
    (baseSamplePhoton : R × R → R × R → Color3f R × Ray3f R) (l : PointLight R)
    (scene : Scene R) (sampler : Sampler R) (ray : Ray3f R) (its : Intersection R)
    (albedo : Color3f R) (d : R)
    (_hpi : 0 < M_PI)
    (hlights : scene.getLights = [l.toEmitter sqrt M_PI Epsilon baseSamplePhoton])
    (hrand : ∀ u, scene.getRandomEmitter u ∈ scene.getLights)
    (hhit : scene.rayIntersect ray = some its)
    (hnoemit : its.mesh.emitter = none)
    (hbsdf : ∀ bRec, its.mesh.bsdf.eval bRec = albedo.divs M_PI)
    (_hd : 0 < d) (hdist : d ^ 2 = (l.m_lightPos - its.p).squaredNorm)
    (hvis : scene.rayIntersect
        ⟨its.p, (l.m_lightPos - its.p).normalized sqrt, Epsilon,
          some ((l.m_lightPos - its.p).norm sqrt)⟩ = none) :
    DirectEmitterSampling.Li sqrt scene sampler ray
      = (albedo.divs M_PI * l.m_power.divs (4 * M_PI * d ^ 2)).muls
          (max 0 (((l.m_lightPos - its.p).normalized sqrt).dot its.shFrame.n)) := by
  have hem : scene.getRandomEmitter sampler.next1D.1
      = l.toEmitter sqrt M_PI Epsilon baseSamplePhoton := by
    have h := hrand sampler.next1D.1
    rw [hlights] at h
    simpa using h
  unfold DirectEmitterSampling.Li
  rw [hhit]
  simp only [DirectEmitterSampling.emitterSample, hem, hnoemit, hbsdf, hlights,
    PointLight.toEmitter, PointLight.sample, hvis, hdist, Frame.cosTheta, Frame.toLocal]
  ext <;>
    simp only [Color3f.scale, Color3f.muls, Color3f.mul_def, Color3f.add_def, Color3f.splat,
      Color3f.divs, Option.isSome_none, Bool.false_eq_true, if_false, List.length_singleton,
      Nat.cast_one] <;> ring

/-- C10 for the light of power `(8, 8, 8)` two units above a Lambertian floor of
albedo `1/2`, with `22/7` for `M_PI`: every sample is
`(1/2)/(22/7) * 8/(4 * (22/7) * 4) * 1 = 49/1936`. -/
theorem direct_ems_point_light_witness :
    DirectEmitterSampling.Li TestScene.sqrtQ
        (TestScene.scene (TestScene.lambert (22 / 7) ⟨1 / 2, 1 / 2, 1 / 2⟩) none
          (TestScene.pointLight.toEmitter TestScene.sqrtQ (22 / 7) (1 / 10000)
            TestScene.basePhoton))
        (TestScene.constSampler (1 / 3)) TestScene.cameraRay
      = ⟨49 / 1936, 49 / 1936, 49 / 1936⟩ :=
  (direct_ems_point_light TestScene.sqrtQ (22 / 7) (1 / 10000) TestScene.basePhoton
      TestScene.pointLight
      (TestScene.scene (TestScene.lambert (22 / 7) ⟨1 / 2, 1 / 2, 1 / 2⟩) none
        (TestScene.pointLight.toEmitter TestScene.sqrtQ (22 / 7) (1 / 10000)
          TestScene.basePhoton))
      (TestScene.constSampler (1 / 3)) TestScene.cameraRay
      (TestScene.floorHit (TestScene.lambert (22 / 7) ⟨1 / 2, 1 / 2, 1 / 2⟩) none)
      ⟨1 / 2, 1 / 2, 1 / 2⟩ 2
      (by norm_num)
      rfl
      (by intro u; simp [TestScene.scene])
      (by simp [TestScene.scene, TestScene.cameraRay])
      rfl
      (by intro bRec; rfl)
      (by norm_num)
      (by norm_num [TestScene.pointLight, TestScene.floorHit, Vector3f.vsub_def,
            Vector3f.squaredNorm])
      (by simp [TestScene.scene])).trans
    (by
      norm_num [TestScene.pointLight, TestScene.floorHit, TestScene.frameZ,
        TestScene.sqrtQ, Vector3f.vsub_def, Vector3f.normalized, Vector3f.norm,
        Vector3f.squaredNorm, Vector3f.dot, Color3f.divs, Color3f.muls, Color3f.mul_def])

end DirectLighting

section Throughput

variable {R : Type} [LinearOrderedField R]

theorem Color3f.nonneg_divs (t : Color3f R) (p : R) (h : t.NonNeg) (hp : 0 < p) :
    (t.divs p).NonNeg :=
  ⟨div_nonneg h.1 hp.le, div_nonneg h.2.1 hp.le, div_nonneg h.2.2 hp.le⟩

theorem Color3f.nonneg_mul (a b : Color3f R) (ha : a.NonNeg) (hb : b.NonNeg) :
    (a * b).NonNeg :=
  ⟨mul_nonneg ha.1 hb.1, mul_nonneg ha.2.1 hb.2.1, mul_nonneg ha.2.2 hb.2.2⟩

theorem Color3f.nonneg_splat_one : (Color3f.splat (1 : R)).NonNeg :=
  ⟨zero_le_one, zero_le_one, zero_le_one⟩

/-- A roulette rescale by `min (maxCoeff t) cap`, for a throughput whose largest
channel is positive and a positive cap: the divisor is positive, so the float
quotient is the real one, and a non-negative throughput stays non-negative. -/
theorem Color3f.nonneg_rescale (t : Color3f R) (cap : R) (h : t.NonNeg)
    (hm : 0 < t.maxCoeff) (hc : 0 < cap) :
    Color3f.divsFloat t (min t.maxCoeff cap) = some (t.divs (min t.maxCoeff cap))
      ∧ (t.divs (min t.maxCoeff cap)).NonNeg := by
  have hd : 0 < min t.maxCoeff cap := lt_min hm hc
  refine ⟨?_, Color3f.nonneg_divs t _ h hd⟩
  unfold Color3f.divsFloat
  rw [if_neg (ne_of_gt hd)]

theorem PathMaterialSampling.roulette_nonneg (t t' : Color3f R) (u : R) (h : t.NonNeg)
    (hm : 0 < t.maxCoeff) (hr : PathMaterialSampling.russianRoulette t u = some t') :
    Color3f.divsFloat t (min t.maxCoeff (999 / 1000)) = some t' ∧ t'.NonNeg := by
  unfold PathMaterialSampling.russianRoulette at hr
  split at hr
  · cases hr
  · cases hr
    exact Color3f.nonneg_rescale t _ h hm (by norm_num)

theorem PathMultiImportanceSampling.roulette_nonneg_mis (t t' : Color3f R) (u : R)
    (h : t.NonNeg) (hm : 0 < t.maxCoeff)
    (hr : PathMultiImportanceSampling.russianRoulette t u = some t') :
    Color3f.divsFloat t (min t.maxCoeff (99 / 100)) = some t' ∧ t'.NonNeg := by
  unfold PathMultiImportanceSampling.russianRoulette at hr
  split at hr
  · cases hr
  · cases hr
    exact Color3f.nonneg_rescale t _ h hm (by norm_num)

theorem VolumetricPT.roulette_nonneg_vol (t t' : Color3f R) (u : R) (h : t.NonNeg)
    (hm : 0 < t.maxCoeff) (hr : VolumetricPT.russianRoulette t u = some t') :
    Color3f.divsFloat t (min t.maxCoeff (99 / 100)) = some t' ∧ t'.NonNeg := by
  unfold VolumetricPT.russianRoulette at hr
  split at hr
  · cases hr
  · cases hr
    exact Color3f.nonneg_rescale t _ h hm (by norm_num)

theorem PhotonMapper.roulette_nonneg_li (t t' : Color3f R) (u : R) (h : t.NonNeg)
    (hm : 0 < t.maxCoeff) (hr : PhotonMapper.russianRouletteLi t u = some t') :
    Color3f.divsFloat t (min t.maxCoeff (999 / 1000)) = some t' ∧ t'.NonNeg := by
  unfold PhotonMapper.russianRouletteLi at hr
  split at hr
  · cases hr
  · cases hr
    exact Color3f.nonneg_rescale t _ h hm (by norm_num)

/-- A property that holds initially and is preserved by every continuing iteration
holds at the head of every iteration. -/
theorem LoopStep.reach_invariant {S V : Type} (step : S → LoopStep S V) (P : S → Prop)
    (hstep : ∀ s s', P s → step s = LoopStep.continue_ s' → P s') :
    ∀ (n : Nat) (s s' : S), P s → LoopStep.reach step n s = some s' → P s' := by
  intro n
  induction n with
  | zero =>
    intro s s' hP h
    simp only [LoopStep.reach, Option.some.injEq] at h
    exact h ▸ hP
  | succ n ih =>
    intro s s' hP h
    simp only [LoopStep.reach] at h
    cases hs : step s with
    | ret v => rw [hs] at h; cases h
    | continue_ s1 =>
      rw [hs] at h
      exact ih s1 s' (hstep s s1 hP hs) h

/-- A property that holds initially and is preserved by every continuing iteration
that starts in a state satisfying `Q` holds at the head of iteration `n`, when the
heads of all earlier iterations satisfy `Q`. -/
theorem LoopStep.reach_invariant_under {S V : Type} (step : S → LoopStep S V)
    (P Q : S → Prop)
    (hstep : ∀ s s', P s → Q s → step s = LoopStep.continue_ s' → P s') :
    ∀ (n : Nat) (s s' : S), P s → LoopStep.reach step n s = some s' →
      (∀ k sk, k < n → LoopStep.reach step k s = some sk → Q sk) → P s' := by
  intro n
  induction n with
  | zero =>
    intro s s' hP h _
    simp only [LoopStep.reach, Option.some.injEq] at h
    exact h ▸ hP
  | succ n ih =>
    intro s s' hP h hQ
    simp only [LoopStep.reach] at h
    cases hs : step s with
    | ret v => rw [hs] at h; cases h
    | continue_ s1 =>
      rw [hs] at h
      have hQ0 : Q s := hQ 0 s (Nat.succ_pos n) rfl
      refine ih s1 s' (hstep s s1 hP hQ0 hs) h ?_
      intro k sk hk hr
      refine hQ (k + 1) sk (Nat.succ_lt_succ hk) ?_
      simp only [LoopStep.reach, hs]
      exact hr

theorem PathMaterialSampling.step_nonneg (sqrt : R → R) (Epsilon : R) (scene : Scene R)
    (hB : ∀ ray its, scene.rayIntersect ray = some its →
      ∀ bRec u, (its.mesh.bsdf.sample bRec u).1.NonNeg)
    (s s' : PathMaterialSampling.State R) (h : s.t.NonNeg) (hm : 0 < s.t.maxCoeff)
    (hs : PathMaterialSampling.step sqrt Epsilon scene s = LoopStep.continue_ s') :
    s'.t.NonNeg := by
  unfold PathMaterialSampling.step at hs
  cases hhit : scene.rayIntersect s.mRay with
  | none =>
    rw [hhit] at hs
    simp only at hs
    split at hs <;> cases hs
  | some its =>
    rw [hhit] at hs
    simp only at hs
    split at hs
    · cases hs
    · rename_i t hr
      injection hs with hs
      subst hs
      exact Color3f.nonneg_mul _ _ (PathMaterialSampling.roulette_nonneg _ _ _ h hm hr).2
        (hB _ _ hhit _ _)

theorem PathMultiImportanceSampling.step_nonneg_mis (sqrt : R → R) (Epsilon : R)
    (scene : Scene R)
    (hB : ∀ ray its, scene.rayIntersect ray = some its →
      ∀ bRec u, (its.mesh.bsdf.sample bRec u).1.NonNeg)
    (s s' : PathMultiImportanceSampling.State R) (h : s.t.NonNeg)
    (hm : 0 < s.t.maxCoeff)
    (hs : PathMultiImportanceSampling.step sqrt Epsilon scene s = LoopStep.continue_ s') :
    s'.t.NonNeg := by
  unfold PathMultiImportanceSampling.step at hs
  cases hhit : scene.rayIntersect s.mRay with
  | none =>
    rw [hhit] at hs
    simp only at hs
    split at hs <;> cases hs
  | some its =>
    rw [hhit] at hs
    simp only at hs
    split at hs
    · cases hs
    · rename_i t hr
      injection hs with hs
      subst hs
      exact Color3f.nonneg_mul _ _
        (PathMultiImportanceSampling.roulette_nonneg_mis _ _ _ h hm hr).2 (hB _ _ hhit _ _)

theorem VolumetricPT.roulette_continue (Li th : Color3f R) (nRay : Ray3f R)
    (sampler : Sampler R) (s' : VolumetricPT.State R) (h : th.NonNeg)
    (hm : 0 < th.maxCoeff)
    (hs : VolumetricPT.roulette Li th nRay sampler = LoopStep.continue_ s') :
    s'.th.NonNeg := by
  unfold VolumetricPT.roulette at hs
  split at hs
  · cases hs
  · rename_i t hr
    injection hs with hs
    subst hs
    exact (VolumetricPT.roulette_nonneg_vol _ _ _ h hm hr).2

/-- The throughput an interaction of `VolumetricPT::Li` leaves for the roulette, the
product with the albedo or with the BSDF sample, is non-negative. -/
theorem VolumetricPT.interaction_nonneg (sqrt exp log cos sin : R → R)
    (M_PI Epsilon tOnMiss : R) (scene : Scene R) (medium : Medium R)
    (hB : ∀ ray its, scene.rayIntersect ray = some its →
      ∀ bRec u, (its.mesh.bsdf.sample bRec u).1.NonNeg)
    (halb : medium.m_albedo.NonNeg)
    (s x : VolumetricPT.State R) (h : s.th.NonNeg)
    (hx : VolumetricPT.interaction sqrt exp log cos sin M_PI Epsilon tOnMiss scene medium s
      = some x) :
    x.th.NonNeg := by
  unfold VolumetricPT.interaction at hx
  simp only at hx
  split at hx
  · injection hx with hx
    subst hx
    exact Color3f.nonneg_mul _ _ h halb
  · cases hhit : scene.rayIntersect s.nRay with
    | none => rw [hhit] at hx; cases hx
    | some its =>
      rw [hhit] at hx
      injection hx with hx
      subst hx
      exact Color3f.nonneg_mul _ _ h (hB _ _ hhit _ _)

theorem VolumetricPT.step_nonneg_vol (sqrt exp log cos sin : R → R)
    (M_PI Epsilon tOnMiss : R) (scene : Scene R) (medium : Medium R)
    (hB : ∀ ray its, scene.rayIntersect ray = some its →
      ∀ bRec u, (its.mesh.bsdf.sample bRec u).1.NonNeg)
    (halb : medium.m_albedo.NonNeg)
    (s s' : VolumetricPT.State R) (h : s.th.NonNeg)
    (hm : ∀ x, VolumetricPT.interaction sqrt exp log cos sin M_PI Epsilon tOnMiss scene
      medium s = some x → 0 < x.th.maxCoeff)
    (hs : VolumetricPT.step sqrt exp log cos sin M_PI Epsilon tOnMiss scene medium s
      = LoopStep.continue_ s') :
    s'.th.NonNeg := by
  unfold VolumetricPT.step at hs
  cases hi : VolumetricPT.interaction sqrt exp log cos sin M_PI Epsilon tOnMiss scene
      medium s with
  | none => rw [hi] at hs; cases hs
  | some x =>
    rw [hi] at hs
    exact VolumetricPT.roulette_continue _ _ _ _ _
      (VolumetricPT.interaction_nonneg sqrt exp log cos sin M_PI Epsilon tOnMiss scene
        medium hB halb s x h hi) (hm x hi) hs

theorem PhotonMapper.step_nonneg_li (sqrt : R → R) (INV_PI Epsilon : R)
    (pm : PhotonMapper R) (scene : Scene R)
    (hB : ∀ ray its, scene.rayIntersect ray = some its →
      ∀ bRec u, (its.mesh.bsdf.sample bRec u).1.NonNeg)
    (s s' : PhotonMapper.LiState R) (h : s.t.NonNeg) (hm : 0 < s.t.maxCoeff)
    (hs : PhotonMapper.liStep sqrt INV_PI Epsilon pm scene s = LoopStep.continue_ s') :
    s'.t.NonNeg := by
  unfold PhotonMapper.liStep at hs
  cases hhit : scene.rayIntersect s.ray with
  | none =>
    rw [hhit] at hs
    cases hs
  | some its =>
    rw [hhit] at hs
    simp only at hs
    split at hs
    · cases hs
    · split at hs
      · cases hs
      · rename_i t hr
        injection hs with hs
        subst hs
        exact Color3f.nonneg_mul _ _ (PhotonMapper.roulette_nonneg_li _ _ _ h hm hr).2
          (hB _ _ hhit _ _)

/-- C11 as stated fails.  On a floor whose BSDF sample value is `(0, 0, 0)` (every
BSDF sample value is non-negative) with every draw `0`, the throughput of
`PathMaterialSampling::Li` is `(0, 0, 0)` at the head of the second iteration; the
ray hits again, the roulette test `0 > min(0, 0.999)` is false, and line 47 divides
the throughput by `min(0, 0.999) = 0`: the float quotient `0/0` is NaN, not a
non-negative number. -/
theorem throughput_zero_over_zero :
    (∀ ray its,
        (TestScene.scene (TestScene.lambert (22 / 7) ⟨0, 0, 0⟩) none
          (TestScene.testEmitter 1)).rayIntersect ray = some its →
        ∀ bRec u, (its.mesh.bsdf.sample bRec u).1.NonNeg)
      ∧ ∃ s, LoopStep.reach
            (PathMaterialSampling.step TestScene.sqrtQ 0
              (TestScene.scene (TestScene.lambert (22 / 7) ⟨0, 0, 0⟩) none
                (TestScene.testEmitter 1))) 1
            ⟨Color3f.splat 0, Color3f.splat 1, TestScene.cameraRay, Color3f.splat 1,
              TestScene.constSampler 0⟩ = some s
          ∧ s.t = ⟨0, 0, 0⟩
          ∧ ((TestScene.scene (TestScene.lambert (22 / 7) ⟨0, 0, 0⟩) none
                (TestScene.testEmitter 1)).rayIntersect s.mRay).isSome = true
          ∧ s.sampler.next1D.1 = 0
          ∧ min s.t.maxCoeff (999 / 1000) = 0
          ∧ PathMaterialSampling.russianRoulette s.t s.sampler.next1D.1
              = some (s.t.divs 0)
          ∧ Color3f.divsFloat s.t (min s.t.maxCoeff (999 / 1000)) = none := by
  have hreach : LoopStep.reach
      (PathMaterialSampling.step TestScene.sqrtQ 0
        (TestScene.scene (TestScene.lambert (22 / 7) ⟨0, 0, 0⟩) none
          (TestScene.testEmitter 1))) 1
      ⟨Color3f.splat 0, Color3f.splat 1, TestScene.cameraRay, Color3f.splat 1,
        TestScene.constSampler 0⟩
      = some ⟨⟨0, 0, 0⟩, ⟨0, 0, 0⟩, ⟨⟨0, 0, 0⟩, ⟨0, 0, 1⟩, 0, none⟩, ⟨0, 0, 0⟩,
          ⟨fun _ => 0, 3⟩⟩ := by
    simp [LoopStep.reach, PathMaterialSampling.step, PathMaterialSampling.russianRoulette,
      TestScene.scene, TestScene.cameraRay, TestScene.constSampler, TestScene.lambert,
      TestScene.floorHit, TestScene.frameZ, Sampler.next1D, Sampler.next2D,
      Color3f.maxCoeff, Color3f.splat, Color3f.divs, Color3f.mul_def, Ray3f.ofOD,
      BSDFQueryRecord.ofWi, Frame.toLocal, Frame.toWorld, Intersection.toWorld,
      Vector3f.dot, Vector3f.smul, Vector3f.vadd_def, Vector3f.vneg_def]
    norm_num
  refine ⟨?_, _, hreach, rfl, ?_, ?_, ?_, ?_, ?_⟩
  · intro ray its hhit bRec u
    simp only [TestScene.scene] at hhit
    split at hhit
    · cases hhit
      simp [TestScene.floorHit, TestScene.lambert, Color3f.NonNeg]
    · cases hhit
  · simp [TestScene.scene]
  · simp [Sampler.next1D]
  · norm_num [Color3f.maxCoeff]
  · norm_num [PathMaterialSampling.russianRoulette, Sampler.next1D, Color3f.maxCoeff]
  · norm_num [Color3f.divsFloat, Color3f.maxCoeff]

/-- C11, amended: the throughput is never negative as long as no roulette step
divides by zero.  In `PathMaterialSampling::Li`, `PathMultiImportanceSampling::Li`,
`VolumetricPT::Li` and `PhotonMapper::Li`, if every BSDF sample value of the scene
(and the medium albedo) is non-negative in every channel, then at the head of every
iteration `n` reached through iterations whose roulette tested a throughput of
positive largest channel (so that it divided by a positive
`min(max channel, cap)`), the throughput is non-negative in every channel, and so
are the values it takes inside the iteration: in the three surface tracers the
roulette-rescaled throughput, when the largest channel is positive (its product
with the BSDF sample is the next head value); in the volumetric tracer the product
with the albedo or with the BSDF sample that the interaction leaves, and its
roulette rescale when its largest channel is positive.  Each of these rescales is
the float quotient. -/
theorem throughput_nonneg (sqrt exp log cos sin : R → R)
    (M_PI INV_PI Epsilon tOnMiss : R) (scene : Scene R) (medium : Medium R)
    (pm : PhotonMapper R) (sampler : Sampler R) (ray : Ray3f R)
    (hB : ∀ ray its, scene.rayIntersect ray = some its →
      ∀ bRec u, (its.mesh.bsdf.sample bRec u).1.NonNeg)
    (halb : medium.m_albedo.NonNeg) (n : Nat) :
    (∀ s, LoopStep.reach (PathMaterialSampling.step sqrt Epsilon scene) n
          ⟨Color3f.splat 0, Color3f.splat 1, ray, Color3f.splat 1, sampler⟩ = some s →
        (∀ k sk, k < n →
          LoopStep.reach (PathMaterialSampling.step sqrt Epsilon scene) k
            ⟨Color3f.splat 0, Color3f.splat 1, ray, Color3f.splat 1, sampler⟩ = some sk →
          0 < sk.t.maxCoeff) →
        s.t.NonNeg
          ∧ ∀ u t', 0 < s.t.maxCoeff →
              PathMaterialSampling.russianRoulette s.t u = some t' →
              Color3f.divsFloat s.t (min s.t.maxCoeff (999 / 1000)) = some t'
                ∧ t'.NonNeg)
    ∧ (∀ s, LoopStep.reach (PathMultiImportanceSampling.step sqrt Epsilon scene) n
          (PathMultiImportanceSampling.init sampler ray) = some s →
        (∀ k sk, k < n →
          LoopStep.reach (PathMultiImportanceSampling.step sqrt Epsilon scene) k
            (PathMultiImportanceSampling.init sampler ray) = some sk →
          0 < sk.t.maxCoeff) →
        s.t.NonNeg
          ∧ ∀ u t', 0 < s.t.maxCoeff →
              PathMultiImportanceSampling.russianRoulette s.t u = some t' →
              Color3f.divsFloat s.t (min s.t.maxCoeff (99 / 100)) = some t'
                ∧ t'.NonNeg)
    ∧ (∀ s, LoopStep.reach
          (VolumetricPT.step sqrt exp log cos sin M_PI Epsilon tOnMiss scene medium) n
          ⟨Color3f.splat 0, Color3f.splat 1, ray, sampler⟩ = some s →
        (∀ k sk, k < n →
          LoopStep.reach
            (VolumetricPT.step sqrt exp log cos sin M_PI Epsilon tOnMiss scene medium) k
            ⟨Color3f.splat 0, Color3f.splat 1, ray, sampler⟩ = some sk →
          ∀ x, VolumetricPT.interaction sqrt exp log cos sin M_PI Epsilon tOnMiss scene
            medium sk = some x → 0 < x.th.maxCoeff) →
        s.th.NonNeg
          ∧ ∀ x, VolumetricPT.interaction sqrt exp log cos sin M_PI Epsilon tOnMiss scene
              medium s = some x →
            x.th.NonNeg
              ∧ ∀ u t', 0 < x.th.maxCoeff →
                  VolumetricPT.russianRoulette x.th u = some t' →
                  Color3f.divsFloat x.th (min x.th.maxCoeff (99 / 100)) = some t'
                    ∧ t'.NonNeg)
    ∧ (∀ s, LoopStep.reach (PhotonMapper.liStep sqrt INV_PI Epsilon pm scene) n
          ⟨Color3f.splat 0, Color3f.splat 1, ray, sampler⟩ = some s →
        (∀ k sk, k < n →
          LoopStep.reach (PhotonMapper.liStep sqrt INV_PI Epsilon pm scene) k
            ⟨Color3f.splat 0, Color3f.splat 1, ray, sampler⟩ = some sk →
          0 < sk.t.maxCoeff) →
        s.t.NonNeg
          ∧ ∀ u t', 0 < s.t.maxCoeff →
              PhotonMapper.russianRouletteLi s.t u = some t' →
              Color3f.divsFloat s.t (min s.t.maxCoeff (999 / 1000)) = some t'
                ∧ t'.NonNeg) := by
  refine ⟨?_, ?_, ?_, ?_⟩
  · intro s hs hdiv
    have h := LoopStep.reach_invariant_under (PathMaterialSampling.step sqrt Epsilon scene)
      (fun s => s.t.NonNeg) (fun s => 0 < s.t.maxCoeff)
      (PathMaterialSampling.step_nonneg sqrt Epsilon scene hB)
      n _ s Color3f.nonneg_splat_one hs hdiv
    exact ⟨h, fun u t' hm hr => PathMaterialSampling.roulette_nonneg _ _ u h hm hr⟩
  · intro s hs hdiv
    have h := LoopStep.reach_invariant_under
      (PathMultiImportanceSampling.step sqrt Epsilon scene)
      (fun s => s.t.NonNeg) (fun s => 0 < s.t.maxCoeff)
      (PathMultiImportanceSampling.step_nonneg_mis sqrt Epsilon scene hB)
      n _ s Color3f.nonneg_splat_one hs hdiv
    exact ⟨h, fun u t' hm hr =>
      PathMultiImportanceSampling.roulette_nonneg_mis _ _ u h hm hr⟩
  · intro s hs hdiv
    have h := LoopStep.reach_invariant_under
      (VolumetricPT.step sqrt exp log cos sin M_PI Epsilon tOnMiss scene medium)
      (fun s => s.th.NonNeg)
      (fun s => ∀ x, VolumetricPT.interaction sqrt exp log cos sin M_PI Epsilon tOnMiss
        scene medium s = some x → 0 < x.th.maxCoeff)
      (VolumetricPT.step_nonneg_vol sqrt exp log cos sin M_PI Epsilon tOnMiss scene medium
        hB halb)
      n _ s Color3f.nonneg_splat_one hs hdiv
    refine ⟨h, fun x hx => ?_⟩
    have hxn := VolumetricPT.interaction_nonneg sqrt exp log cos sin M_PI Epsilon tOnMiss
      scene medium hB halb s x h hx
    exact ⟨hxn, fun u t' hm hr => VolumetricPT.roulette_nonneg_vol _ _ u hxn hm hr⟩
  · intro s hs hdiv
    have h := LoopStep.reach_invariant_under
      (PhotonMapper.liStep sqrt INV_PI Epsilon pm scene)
      (fun s => s.t.NonNeg) (fun s => 0 < s.t.maxCoeff)
      (PhotonMapper.step_nonneg_li sqrt INV_PI Epsilon pm scene hB)
      n _ s Color3f.nonneg_splat_one hs hdiv
    exact ⟨h, fun u t' hm hr => PhotonMapper.roulette_nonneg_li _ _ u h hm hr⟩

/-- C11, amended, on the test scene: the first roulette of `PathMaterialSampling::Li`
tests the throughput `(1, 1, 1)`, of positive largest channel, and after one
iteration the throughput is `1 / 0.999` in every channel, which is non-negative. -/
theorem throughput_nonneg_witness :
    ∃ s, LoopStep.reach
          (PathMaterialSampling.step TestScene.sqrtQ 0
            (TestScene.scene (TestScene.testBSDF 1 EMeasure.ESolidAngle) none
              (TestScene.testEmitter 1))) 1
          ⟨Color3f.splat 0, Color3f.splat 1, TestScene.cameraRay, Color3f.splat 1,
            TestScene.constSampler 0⟩ = some s
      ∧ s.t = ⟨1000 / 999, 1000 / 999, 1000 / 999⟩
      ∧ s.t.NonNeg := by
  have hreach : LoopStep.reach
      (PathMaterialSampling.step TestScene.sqrtQ 0
        (TestScene.scene (TestScene.testBSDF 1 EMeasure.ESolidAngle) none
          (TestScene.testEmitter 1))) 1
      ⟨Color3f.splat 0, Color3f.splat 1, TestScene.cameraRay, Color3f.splat 1,
        TestScene.constSampler 0⟩
      = some ⟨⟨0, 0, 0⟩, ⟨1000 / 999, 1000 / 999, 1000 / 999⟩,
          ⟨⟨0, 0, 0⟩, ⟨0, 0, 1⟩, 0, none⟩, ⟨1, 1, 1⟩, ⟨fun _ => 0, 3⟩⟩ := by
    simp [LoopStep.reach, PathMaterialSampling.step, PathMaterialSampling.russianRoulette,
      TestScene.scene, TestScene.cameraRay, TestScene.constSampler, TestScene.testBSDF,
      TestScene.floorHit, TestScene.frameZ, Sampler.next1D, Sampler.next2D,
      Color3f.maxCoeff, Color3f.splat, Color3f.divs, Color3f.mul_def, Ray3f.ofOD,
      BSDFQueryRecord.ofWi, Frame.toLocal, Frame.toWorld, Intersection.toWorld,
      Vector3f.dot, Vector3f.smul, Vector3f.vadd_def, Vector3f.vneg_def]
    norm_num
  have h := throughput_nonneg TestScene.sqrtQ TestScene.expQ TestScene.logQ
    (fun x => x) (fun x => x) (22 / 7) (7 / 22) 0 0
    (TestScene.scene (TestScene.testBSDF 1 EMeasure.ESolidAngle) none
      (TestScene.testEmitter 1))
    TestScene.fog TestScene.photonMapper (TestScene.constSampler 0) TestScene.cameraRay
    (by
      intro ray its hhit bRec u
      simp only [TestScene.scene] at hhit
      split at hhit
      · cases hhit
        simp [TestScene.floorHit, TestScene.testBSDF, Color3f.NonNeg, Color3f.splat]
      · cases hhit)
    (by norm_num [TestScene.fog, Medium.ofProps, Color3f.NonNeg, Color3f.add_def,
          Color3f.div_def, Color3f.div])
    1
  refine ⟨_, hreach, rfl, (h.1 _ hreach ?_).1⟩
  intro k sk hk hr
  have hk0 : k = 0 := by omega
  subst hk0
  simp only [LoopStep.reach, Option.some.injEq] at hr
  subst hr
  norm_num [Color3f.maxCoeff, Color3f.splat]

end Throughput

section PhotonGather

variable {R : Type} [LinearOrderedField R]

/-- Accumulating `Lr += g idx` over a list adds, channel by channel, the sum of the
values of `g`. -/
theorem Color3f.foldl_add (g : Nat → Color3f R) (l : List Nat) (init : Color3f R) :
    l.foldl (fun Lr idx => Lr + g idx) init
      = ⟨init.r + (l.map fun i => (g i).r).sum, init.g + (l.map fun i => (g i).g).sum,
          init.b + (l.map fun i => (g i).b).sum⟩ := by
  induction l generalizing init with
  | nil => simp
  | cons a l ih =>
    rw [List.foldl_cons, ih]
    simp only [Color3f.add_def, List.map_cons, List.sum_cons, add_assoc]

/-- C12: `PhotonMapper::photonDensityEstimation` returns, for the indices `S` the
radius search reports around the hit point,
`(sum over i in S of f(wi, d_i) * power_i) / (pi * radius^2 * photonCount)` in
every channel, `f` being the hit surface's BSDF `eval` between the local viewing
direction `-ray.d` and the stored direction `d_i` of photon `i`
(`INV_PI` is `1 / M_PI`). -/
theorem photonDensityEstimation_formula (INV_PI M_PI : R) (pm : PhotonMapper R)
    (its : Intersection R) (ray : Ray3f R) (hinv : INV_PI = 1 / M_PI) :
    PhotonMapper.photonDensityEstimation INV_PI pm its ray
      = ⟨((pm.m_photonMap.search its.p pm.m_photonRadius).map fun i =>
            (its.mesh.bsdf.eval
                (BSDFQueryRecord.ofWiWo (its.shFrame.toLocal (-ray.d))
                  (its.shFrame.toLocal (pm.m_photonMap.get i).direction)
                  EMeasure.ESolidAngle)
              * (pm.m_photonMap.get i).power).r).sum
            / (M_PI * pm.m_photonRadius ^ 2 * (pm.m_photonCount : R)),
          ((pm.m_photonMap.search its.p pm.m_photonRadius).map fun i =>
            (its.mesh.bsdf.eval
                (BSDFQueryRecord.ofWiWo (its.shFrame.toLocal (-ray.d))
                  (its.shFrame.toLocal (pm.m_photonMap.get i).direction)
                  EMeasure.ESolidAngle)
              * (pm.m_photonMap.get i).power).g).sum
            / (M_PI * pm.m_photonRadius ^ 2 * (pm.m_photonCount : R)),
          ((pm.m_photonMap.search its.p pm.m_photonRadius).map fun i =>
            (its.mesh.bsdf.eval
                (BSDFQueryRecord.ofWiWo (its.shFrame.toLocal (-ray.d))
                  (its.shFrame.toLocal (pm.m_photonMap.get i).direction)
                  EMeasure.ESolidAngle)
              * (pm.m_photonMap.get i).power).b).sum
            / (M_PI * pm.m_photonRadius ^ 2 * (pm.m_photonCount : R))⟩ := by
  unfold PhotonMapper.photonDensityEstimation
  simp only
  rw [Color3f.foldl_add (fun i =>
    its.mesh.bsdf.eval
        (BSDFQueryRecord.ofWiWo (its.shFrame.toLocal (-ray.d))
          (its.shFrame.toLocal (pm.m_photonMap.get i).direction) EMeasure.ESolidAngle)
      * (pm.m_photonMap.get i).power)]
  subst hinv
  simp only [Color3f.muls, Color3f.divs, Color3f.splat, zero_add, mul_one_div, div_div,
    mul_assoc]

/-- C12 on the test photon map (powers 2 and 4, BSDF value 1, radius 1, two emitted
photons, `22/7` for `M_PI`): the estimate is `(2 + 4) / ((22/7) * 1 * 2) = 21/22`. -/
theorem photonDensityEstimation_formula_witness :
    PhotonMapper.photonDensityEstimation (1 / (22 / 7)) TestScene.photonMapper
        (TestScene.floorHit (TestScene.testBSDF 1 EMeasure.ESolidAngle) none)
        TestScene.cameraRay
      = ⟨21 / 22, 21 / 22, 21 / 22⟩ :=
  (photonDensityEstimation_formula (1 / (22 / 7)) (22 / 7) TestScene.photonMapper
      (TestScene.floorHit (TestScene.testBSDF 1 EMeasure.ESolidAngle) none)
      TestScene.cameraRay rfl).trans
    (by
      norm_num [TestScene.photonMapper, TestScene.photonMap, TestScene.floorHit,
        TestScene.testBSDF, Color3f.mul_def, Color3f.splat])

/-- C13: the photon density estimate is non-negative and vanishes when no photon
is found: if the BSDF values and the powers of the photons found are non-negative
in every channel, `radius > 0` and `photonCount > 0` (and `INV_PI ≥ 0`), every
channel of `photonDensityEstimation` is `≥ 0`; and when the radius search returns
no photon the estimate is exactly zero. -/
theorem photonDensityEstimation_nonneg (INV_PI : R) (pm : PhotonMapper R)
    (its : Intersection R) (ray : Ray3f R) (hpi : 0 ≤ INV_PI)
    (hr : 0 < pm.m_photonRadius) (hc : 0 < pm.m_photonCount)
    (hf : ∀ bRec, (its.mesh.bsdf.eval bRec).NonNeg)
    (hp : ∀ i ∈ pm.m_photonMap.search its.p pm.m_photonRadius,
      (pm.m_photonMap.get i).power.NonNeg) :
    (PhotonMapper.photonDensityEstimation INV_PI pm its ray).NonNeg
      ∧ (pm.m_photonMap.search its.p pm.m_photonRadius = [] →
          PhotonMapper.photonDensityEstimation INV_PI pm its ray = Color3f.splat 0) := by
  have hD : 0 < pm.m_photonRadius ^ 2 * (pm.m_photonCount : R) :=
    mul_pos (pow_pos hr 2) (by exact_mod_cast hc)
  constructor
  · unfold PhotonMapper.photonDensityEstimation
    simp only
    rw [Color3f.foldl_add (fun i =>
      its.mesh.bsdf.eval
          (BSDFQueryRecord.ofWiWo (its.shFrame.toLocal (-ray.d))
            (its.shFrame.toLocal (pm.m_photonMap.get i).direction) EMeasure.ESolidAngle)
        * (pm.m_photonMap.get i).power)]
    have hterm : ∀ i ∈ pm.m_photonMap.search its.p pm.m_photonRadius,
        (its.mesh.bsdf.eval
            (BSDFQueryRecord.ofWiWo (its.shFrame.toLocal (-ray.d))
              (its.shFrame.toLocal (pm.m_photonMap.get i).direction) EMeasure.ESolidAngle)
          * (pm.m_photonMap.get i).power).NonNeg :=
      fun i hi => Color3f.nonneg_mul _ _ (hf _) (hp i hi)
    refine ⟨?_, ?_, ?_⟩ <;>
      simp only [Color3f.muls, Color3f.divs, Color3f.splat, zero_add] <;>
      refine div_nonneg (mul_nonneg (List.sum_nonneg ?_) hpi) hD.le <;>
      intro x hx <;>
      obtain ⟨i, hi, rfl⟩ := List.mem_map.mp hx
    · exact (hterm i hi).1
    · exact (hterm i hi).2.1
    · exact (hterm i hi).2.2
  · intro hempty
    unfold PhotonMapper.photonDensityEstimation
    simp only [hempty, List.foldl_nil]
    ext <;> simp [Color3f.muls, Color3f.divs, Color3f.splat]

/-- C13 on the test photon map: with radius 1 the estimate `21/22` is non-negative. -/
theorem photonDensityEstimation_nonneg_witness :
    (PhotonMapper.photonDensityEstimation (7 / 22 : ℚ) TestScene.photonMapper
        (TestScene.floorHit (TestScene.testBSDF 1 EMeasure.ESolidAngle) none)
        TestScene.cameraRay).NonNeg :=
  (photonDensityEstimation_nonneg (7 / 22 : ℚ) TestScene.photonMapper
      (TestScene.floorHit (TestScene.testBSDF 1 EMeasure.ESolidAngle) none)
      TestScene.cameraRay (by norm_num)
      (by norm_num [TestScene.photonMapper])
      (by norm_num [TestScene.photonMapper])
      (by
        intro bRec
        simp [TestScene.floorHit, TestScene.testBSDF, Color3f.NonNeg, Color3f.splat])
      (by
        intro i _
        simp only [TestScene.photonMapper, TestScene.photonMap]
        split <;> norm_num [Color3f.NonNeg])).1

/-- One iteration of `tracePhoton` that hits `its` leaves the photon map extended by
the photon of that visit if the BSDF is diffuse, and unchanged otherwise, whether
the walk then ends or goes on. -/
theorem PhotonMapper.traceStep_photonMap (Epsilon : R) (scene : Scene R)
    (s : PhotonMapper.TraceState R) (its : Intersection R)
    (hhit : scene.rayIntersect s.ray = some its) :
    (match PhotonMapper.traceStep Epsilon scene s with
      | LoopStep.ret s' => s'.photonMap
      | LoopStep.continue_ s' => s'.photonMap)
      = s.photonMap ++
          (if its.mesh.bsdf.isDiffuse then [(⟨its.p, -s.ray.d, s.W⟩ : Photon R)] else []) := by
  unfold PhotonMapper.traceStep
  rw [hhit]
  simp only
  cases PhotonMapper.russianRoulette s.W s.sampler.next1D.1 <;>
    by_cases hd : its.mesh.bsdf.isDiffuse <;> simp [hd]

/-- C14: `PhotonMapper::tracePhoton` deposits exactly one photon for every
intersection it visits whose BSDF is diffuse and none for a non-diffuse one.  After
any number of iterations the photon map is the initial one followed, in order, by
the photons (hit position, negated ray direction, power on arrival) of the
diffuse visits, so the number of photons appended equals the number of diffuse
hits visited; and when the walk ends within the fuel, the state recorded is the
one `tracePhoton` leaves. -/
theorem tracePhoton_deposits (Epsilon : R) (scene : Scene R) (fuel : Nat)
    (s : PhotonMapper.TraceState R) :
    (PhotonMapper.traceVisits Epsilon scene fuel s).2.photonMap
        = s.photonMap ++
            (((PhotonMapper.traceVisits Epsilon scene fuel s).1.filter
              fun v => v.its.mesh.bsdf.isDiffuse).map PhotonMapper.Visit.photon)
      ∧ (PhotonMapper.traceVisits Epsilon scene fuel s).2.photonMap.length
        = s.photonMap.length
          + ((PhotonMapper.traceVisits Epsilon scene fuel s).1.filter
              fun v => v.its.mesh.bsdf.isDiffuse).length
      ∧ (∀ s', PhotonMapper.tracePhoton Epsilon fuel scene s = some s' →
          (PhotonMapper.traceVisits Epsilon scene fuel s).2 = s') := by
  have key : ∀ (fuel : Nat) (s : PhotonMapper.TraceState R),
      (PhotonMapper.traceVisits Epsilon scene fuel s).2.photonMap
        = s.photonMap ++
            (((PhotonMapper.traceVisits Epsilon scene fuel s).1.filter
              fun v => v.its.mesh.bsdf.isDiffuse).map PhotonMapper.Visit.photon) := by
    intro fuel
    induction fuel with
    | zero => intro s; simp [PhotonMapper.traceVisits]
    | succ n ih =>
      intro s
      cases hhit : scene.rayIntersect s.ray with
      | none => simp [PhotonMapper.traceVisits, hhit]
      | some its =>
        have hmap := PhotonMapper.traceStep_photonMap Epsilon scene s its hhit
        cases hstep : PhotonMapper.traceStep Epsilon scene s with
        | ret s1 =>
          rw [hstep] at hmap
          simp only at hmap
          simp only [PhotonMapper.traceVisits, hhit, hstep]
          rw [hmap]
          by_cases hd : its.mesh.bsdf.isDiffuse <;>
            simp [hd, List.filter, PhotonMapper.Visit.photon]
        | continue_ s1 =>
          rw [hstep] at hmap
          simp only at hmap
          simp only [PhotonMapper.traceVisits, hhit, hstep]
          rw [ih s1, hmap]
          by_cases hd : its.mesh.bsdf.isDiffuse <;>
            simp [hd, List.filter, PhotonMapper.Visit.photon]
  refine ⟨key fuel s, ?_, ?_⟩
  · rw [key fuel s, List.length_append, List.length_map]
  · induction fuel generalizing s with
    | zero => intro s' h; simp [PhotonMapper.tracePhoton, LoopStep.run] at h
    | succ n ih =>
      intro s' h
      unfold PhotonMapper.tracePhoton at h
      simp only [LoopStep.run] at h
      cases hhit : scene.rayIntersect s.ray with
      | none =>
        have hstep : PhotonMapper.traceStep Epsilon scene s = LoopStep.ret s := by
          simp [PhotonMapper.traceStep, hhit]
        rw [hstep] at h
        simp only [Option.some.injEq] at h
        subst h
        simp [PhotonMapper.traceVisits, hhit]
      | some its =>
        cases hstep : PhotonMapper.traceStep Epsilon scene s with
        | ret s1 =>
          rw [hstep] at h
          simp only [Option.some.injEq] at h
          subst h
          simp [PhotonMapper.traceVisits, hhit, hstep]
        | continue_ s1 =>
          rw [hstep] at h
          simp only [PhotonMapper.traceVisits, hhit, hstep]
          exact ih s1 s' h

/-- C14 on the test scene with a Lambertian floor of albedo 1/2: two iterations of
the walk visit two diffuse hits and leave two photons, of powers 1 and
`(1 / 0.999) * (1/2)` per channel. -/
theorem tracePhoton_deposits_witness :
    (PhotonMapper.traceVisits 0
        (TestScene.scene (TestScene.lambert (22 / 7) ⟨1 / 2, 1 / 2, 1 / 2⟩) none
          (TestScene.testEmitter 1)) 2
        ⟨TestScene.cameraRay, Color3f.splat 1, TestScene.constSampler 0, []⟩).2.photonMap
      = [⟨⟨0, 0, 0⟩, ⟨0, 0, 1⟩, ⟨1, 1, 1⟩⟩,
          ⟨⟨0, 0, 0⟩, ⟨0, 0, -1⟩, ⟨500 / 999, 500 / 999, 500 / 999⟩⟩] :=
  (tracePhoton_deposits 0
      (TestScene.scene (TestScene.lambert (22 / 7) ⟨1 / 2, 1 / 2, 1 / 2⟩) none
        (TestScene.testEmitter 1)) 2
      ⟨TestScene.cameraRay, Color3f.splat 1, TestScene.constSampler 0, []⟩).1.trans
    (by
      simp [PhotonMapper.traceVisits, PhotonMapper.traceStep, PhotonMapper.russianRoulette,
        PhotonMapper.Visit.photon, TestScene.scene, TestScene.lambert, TestScene.floorHit,
        TestScene.frameZ, TestScene.cameraRay, TestScene.constSampler, Sampler.next1D,
        Sampler.next2D, Ray3f.ofOD, BSDFQueryRecord.ofWi, Intersection.toLocal,
        Intersection.toWorld, Frame.toLocal, Frame.toWorld, Vector3f.dot, Vector3f.smul,
        Vector3f.vadd_def, Vector3f.vneg_def, Color3f.maxCoeff, Color3f.splat,
        Color3f.divs, Color3f.mul_def]
      norm_num [PhotonMapper.Visit.photon, Vector3f.vneg_def])

/-- C15: `PhotonMapper::Li` stops stochastic sampling at a diffuse hit.  At a hit
whose BSDF is diffuse the iteration returns the radiance accumulated so far
(including the hit's own emission weighted by the throughput) plus throughput
times `photonDensityEstimation`, leaves the sampler as it found it, and its result
is the same in every scene that reports this hit for the current ray (no other ray
is cast).  At a non-diffuse hit the iteration is that of the path tracer
`PathMaterialSampling::Li`: the same roulette and BSDF sampling, the same radiance,
throughput, ray and sampler. -/
theorem photon_li_first_diffuse_hit (sqrt : R → R) (INV_PI Epsilon : R)
    (pm : PhotonMapper R) (scene : Scene R) (s : PhotonMapper.LiState R)
    (its : Intersection R) (hhit : scene.rayIntersect s.ray = some its) :
    (its.mesh.bsdf.isDiffuse = true →
        PhotonMapper.liStep sqrt INV_PI Epsilon pm scene s
          = LoopStep.ret
              ((match its.mesh.emitter with
                  | some e =>
                    s.Li + s.t * e.eval
                      (EmitterQueryRecord.ofRefPN sqrt s.ray.o its.p its.shFrame.n)
                  | none => s.Li)
                + s.t * PhotonMapper.photonDensityEstimation INV_PI pm its s.ray,
              s.sampler)
          ∧ ∀ scene2 : Scene R, scene2.rayIntersect s.ray = some its →
              PhotonMapper.liStep sqrt INV_PI Epsilon pm scene2 s
                = PhotonMapper.liStep sqrt INV_PI Epsilon pm scene s)
      ∧ (its.mesh.bsdf.isDiffuse = false →
          ∀ B : Color3f R,
            PhotonMapper.liStep sqrt INV_PI Epsilon pm scene s
              = match PathMaterialSampling.step sqrt Epsilon scene
                    ⟨s.Li, s.t, s.ray, B, s.sampler⟩ with
                | LoopStep.ret v => LoopStep.ret (v, s.sampler.next1D.2)
                | LoopStep.continue_ s' =>
                  LoopStep.continue_ ⟨s'.Li, s'.t, s'.mRay, s'.sampler⟩) := by
  constructor
  · intro hd
    have h1 : ∀ sc : Scene R, sc.rayIntersect s.ray = some its →
        PhotonMapper.liStep sqrt INV_PI Epsilon pm sc s
          = LoopStep.ret
              ((match its.mesh.emitter with
                  | some e =>
                    s.Li + s.t * e.eval
                      (EmitterQueryRecord.ofRefPN sqrt s.ray.o its.p its.shFrame.n)
                  | none => s.Li)
                + s.t * PhotonMapper.photonDensityEstimation INV_PI pm its s.ray,
              s.sampler) := by
      intro sc hsc
      unfold PhotonMapper.liStep
      rw [hsc]
      simp only [hd, if_true]
    exact ⟨h1 scene hhit, fun scene2 h2 => (h1 scene2 h2).trans (h1 scene hhit).symm⟩
  · intro hd B
    unfold PhotonMapper.liStep PathMaterialSampling.step
    rw [hhit]
    simp only [hd, Bool.false_eq_true, if_false]
    unfold PhotonMapper.russianRouletteLi PathMaterialSampling.russianRoulette
    by_cases hu : s.sampler.next1D.1 > min s.t.maxCoeff (999 / 1000)
    · simp only [hu, if_true]
    · simp only [hu, if_false]

/-- C15 on the test scene with a Lambertian floor and the test photon map: the
first iteration returns `0 + 1 * photonDensityEstimation` = `(1/2)/(22/7) * 6 /`
`(1 * 2) * (7/22)` per channel and has drawn no sample. -/
theorem photon_li_first_diffuse_hit_witness :
    PhotonMapper.liStep TestScene.sqrtQ (7 / 22) 0 TestScene.photonMapper
        (TestScene.scene (TestScene.lambert (22 / 7) ⟨1 / 2, 1 / 2, 1 / 2⟩) none
          (TestScene.testEmitter 1))
        ⟨Color3f.splat 0, Color3f.splat 1, TestScene.cameraRay, TestScene.constSampler 0⟩
      = LoopStep.ret (⟨147 / 968, 147 / 968, 147 / 968⟩, TestScene.constSampler 0) :=
  ((photon_li_first_diffuse_hit TestScene.sqrtQ (7 / 22) 0 TestScene.photonMapper
      (TestScene.scene (TestScene.lambert (22 / 7) ⟨1 / 2, 1 / 2, 1 / 2⟩) none
        (TestScene.testEmitter 1))
      ⟨Color3f.splat 0, Color3f.splat 1, TestScene.cameraRay, TestScene.constSampler 0⟩
      (TestScene.floorHit (TestScene.lambert (22 / 7) ⟨1 / 2, 1 / 2, 1 / 2⟩) none)
      (by simp [TestScene.scene, TestScene.cameraRay])).1 rfl).1.trans
    (by
      norm_num [PhotonMapper.photonDensityEstimation, TestScene.photonMapper,
        TestScene.photonMap, TestScene.floorHit, TestScene.lambert, Color3f.mul_def,
        Color3f.add_def, Color3f.splat, Color3f.muls, Color3f.divs])

end PhotonGather

section Volumetric

variable {R : Type} [LinearOrderedField R]

/-- C16, evaluated: surface interaction of `VolumetricPT::Li` at a non-emitting
floor of BSDF value 1, lit from the unit direction `(4/5, 0, 3/5)` (`cosTheta`
`= 3/5` with the shading normal `+Z`) by an unoccluded light of sample value 1, in
a medium without extinction (transmittance 1), with throughput 1.  The term the
code adds is `th * BSDF * transmittance * Le = 1` in every channel: there is no
cosine factor, where `th * (N * S) * f * max(0, cosTheta) * transmittance` is
`3/5`. -/
theorem vol_surface_light_without_cosine :
    (VolumetricPT.surfaceLightSampling TestScene.sqrtQ TestScene.expQ
        (TestScene.scene (TestScene.testBSDF 1 EMeasure.ESolidAngle) none
          TestScene.tiltedEmitter)
        TestScene.vacuum
        ⟨Color3f.splat 0, Color3f.splat 1, TestScene.cameraRay, TestScene.constSampler 0⟩
        (TestScene.floorHit (TestScene.testBSDF 1 EMeasure.ESolidAngle) none)
        (TestScene.constSampler 0)).1
      = ⟨1, 1, 1⟩
    ∧ Frame.cosTheta (TestScene.frameZ.toLocal ⟨4 / 5, 0, 3 / 5⟩) = 3 / 5
    ∧ TestScene.vacuum.transmittance TestScene.sqrtQ TestScene.expQ ⟨0, 0, 0⟩
        ⟨4 / 5, 0, 3 / 5⟩ = ⟨1, 1, 1⟩
    ∧ ((Color3f.splat (1 : ℚ) * (Color3f.splat 1).muls 1 * Color3f.splat 1).muls
          (max 0 (3 / 5)) * ⟨1, 1, 1⟩
        = ⟨3 / 5, 3 / 5, 3 / 5⟩) := by
  refine ⟨?_, ?_, ?_, ?_⟩
  · simp [VolumetricPT.surfaceLightSampling, TestScene.scene, TestScene.testBSDF,
      TestScene.tiltedEmitter, TestScene.floorHit, TestScene.vacuum, TestScene.expQ,
      TestScene.constSampler, Medium.ofProps, Medium.transmittance, Sampler.next1D,
      Sampler.next2D, EmitterQueryRecord.ofRef, EmitterQueryRecord.empty,
      Color3f.splat, Color3f.muls, Color3f.mul_def, Color3f.add_def]
  · norm_num [Frame.cosTheta, Frame.toLocal, TestScene.frameZ, Vector3f.dot]
  · simp [TestScene.vacuum, TestScene.expQ, Medium.ofProps, Medium.transmittance,
      Color3f.add_def]
  · norm_num [Color3f.splat, Color3f.muls, Color3f.mul_def]

/-- C17: in `VolumetricPT::Li`, an iteration is a medium scattering event exactly
when the sampled free-flight distance `t` is strictly less than the distance `tmax`
to the next surface: `sigmaT.maxCoeff()` is not zero and the quotient of line 38 is
less than `tmax` (for `sigmaT.maxCoeff() = 0` the float `t` is infinite or NaN and
the test of line 41 is false).  In that case the new ray starts at `o + t * d/|d|`,
the throughput is multiplied by the medium albedo, and the radiance added is
(updated throughput) `* transmittance(new point, light point) * (1 / (4 * M_PI)) *`
`(N * emitter sample)`, the emitter sample being replaced by zero when the shadow
ray is occluded; these values go to the roulette and nothing else happens (no BSDF
is evaluated).  Otherwise, and always for a medium without extinction, the iteration
is the surface interaction.  The phase function is the constructor's
`0.25 * INV_PI`, `INV_PI` being `1 / M_PI`. -/
theorem vol_medium_scattering (sqrt exp log cos sin : R → R)
    (M_PI INV_PI Epsilon tOnMiss : R) (scene : Scene R) (medium : Medium R)
    (s : VolumetricPT.State R)
    (hinv : INV_PI = 1 / M_PI)
    (hphase : medium.m_phaseF = 1 / 4 * INV_PI) :
    ((medium.m_sigmaT.maxCoeff ≠ 0
          ∧ VolumetricPT.freePath log medium s.sampler.next1D.1
              < VolumetricPT.tmax sqrt tOnMiss scene s) →
        VolumetricPT.interaction sqrt exp log cos sin M_PI Epsilon tOnMiss scene medium s
          = some
              ⟨s.Li
                + (s.th * medium.m_albedo
                    * medium.transmittance sqrt exp
                        (s.nRay.o + Vector3f.smul
                          (VolumetricPT.freePath log medium s.sampler.next1D.1)
                          (s.nRay.d.normalized sqrt))
                        (VolumetricPT.volumeEmitterSample scene
                          (s.nRay.o + Vector3f.smul
                            (VolumetricPT.freePath log medium s.sampler.next1D.1)
                            (s.nRay.d.normalized sqrt))
                          s.sampler.next1D.2).2.p).muls (1 / (4 * M_PI))
                  * (if (scene.rayIntersect
                          (VolumetricPT.volumeEmitterSample scene
                            (s.nRay.o + Vector3f.smul
                              (VolumetricPT.freePath log medium s.sampler.next1D.1)
                              (s.nRay.d.normalized sqrt))
                            s.sampler.next1D.2).2.shadowRay).isSome
                      then Color3f.splat 0
                      else (VolumetricPT.volumeEmitterSample scene
                          (s.nRay.o + Vector3f.smul
                            (VolumetricPT.freePath log medium s.sampler.next1D.1)
                            (s.nRay.d.normalized sqrt))
                          s.sampler.next1D.2).1.muls (scene.getLights.length : R)),
                s.th * medium.m_albedo,
                ⟨s.nRay.o + Vector3f.smul
                    (VolumetricPT.freePath log medium s.sampler.next1D.1)
                    (s.nRay.d.normalized sqrt),
                  Warp.squareToUniformSphere sqrt cos sin M_PI s.sampler.next1D.2.next2D.1,
                  Epsilon, none⟩,
                s.sampler.next1D.2.next2D.2.next1D.2.next2D.2⟩)
      ∧ (¬ (medium.m_sigmaT.maxCoeff ≠ 0
            ∧ VolumetricPT.freePath log medium s.sampler.next1D.1
                < VolumetricPT.tmax sqrt tOnMiss scene s) →
          VolumetricPT.interaction sqrt exp log cos sin M_PI Epsilon tOnMiss scene medium s
            = match scene.rayIntersect s.nRay with
              | some its =>
                some (VolumetricPT.surfaceInteraction sqrt exp Epsilon scene medium s its
                  s.sampler.next1D.2)
              | none => none)
      ∧ (medium.m_sigmaT.maxCoeff = 0 →
          VolumetricPT.interaction sqrt exp log cos sin M_PI Epsilon tOnMiss scene medium s
            = match scene.rayIntersect s.nRay with
              | some its =>
                some (VolumetricPT.surfaceInteraction sqrt exp Epsilon scene medium s its
                  s.sampler.next1D.2)
              | none => none)
      ∧ VolumetricPT.step sqrt exp log cos sin M_PI Epsilon tOnMiss scene medium s
          = (match VolumetricPT.interaction sqrt exp log cos sin M_PI Epsilon tOnMiss scene
                medium s with
            | some x => VolumetricPT.roulette x.Li x.th x.nRay x.sampler
            | none => LoopStep.ret none)
      ∧ ∀ absorption scattering : Color3f R,
          (Medium.ofProps INV_PI absorption scattering).m_phaseF = 1 / 4 * INV_PI := by
  have hph : medium.m_phaseF = 1 / (4 * M_PI) := by
    rw [hphase, hinv, one_div_mul_one_div]
  have hsurf : ¬ (medium.m_sigmaT.maxCoeff ≠ 0
        ∧ VolumetricPT.freePath log medium s.sampler.next1D.1
            < VolumetricPT.tmax sqrt tOnMiss scene s) →
      VolumetricPT.interaction sqrt exp log cos sin M_PI Epsilon tOnMiss scene medium s
        = match scene.rayIntersect s.nRay with
          | some its =>
            some (VolumetricPT.surfaceInteraction sqrt exp Epsilon scene medium s its
              s.sampler.next1D.2)
          | none => none := by
    intro ht
    unfold VolumetricPT.interaction
    dsimp only
    rw [if_neg ht]
  refine ⟨?_, hsurf, fun h0 => hsurf (fun h => h.1 h0), rfl, fun _ _ => rfl⟩
  intro ht
  unfold VolumetricPT.interaction
  dsimp only
  rw [if_pos ht]
  unfold VolumetricPT.volumeInteraction VolumetricPT.scatterRay
  simp only [hph, Ray3f.ofOD]

/-- C17 on the test scene.  In the medium of extinction 2 and albedo 1/2, with the
draw 0 the free flight is 0, less than the distance 1 to the floor, so the event is
a scattering at the ray origin `(0, 0, 1)` and the throughput becomes 1/2.  In the
medium without extinction the iteration is the surface interaction at the floor. -/
theorem vol_medium_scattering_witness :
    (TestScene.fog.m_sigmaT.maxCoeff ≠ 0
      ∧ VolumetricPT.freePath TestScene.logQ TestScene.fog
            (TestScene.constSampler 0).next1D.1
          < VolumetricPT.tmax TestScene.sqrtQ 0
              (TestScene.scene (TestScene.testBSDF 1 EMeasure.ESolidAngle) none
                (TestScene.testEmitter 1))
              ⟨Color3f.splat 0, Color3f.splat 1, TestScene.cameraRay,
                TestScene.constSampler 0⟩)
      ∧ (∃ Li nRay smp,
          VolumetricPT.interaction TestScene.sqrtQ TestScene.expQ TestScene.logQ
              (fun x => x) (fun x => x) (22 / 7) (1 / 10000) 0
              (TestScene.scene (TestScene.testBSDF 1 EMeasure.ESolidAngle) none
                (TestScene.testEmitter 1))
              TestScene.fog
              ⟨Color3f.splat 0, Color3f.splat 1, TestScene.cameraRay,
                TestScene.constSampler 0⟩
            = some ⟨Li, ⟨1 / 2, 1 / 2, 1 / 2⟩, nRay, smp⟩
          ∧ nRay.o = ⟨0, 0, 1⟩)
      ∧ VolumetricPT.interaction TestScene.sqrtQ TestScene.expQ TestScene.logQ
            (fun x => x) (fun x => x) (22 / 7) (1 / 10000) 0
            (TestScene.scene (TestScene.testBSDF 1 EMeasure.ESolidAngle) none
              (TestScene.testEmitter 1))
            TestScene.vacuum
            ⟨Color3f.splat 0, Color3f.splat 1, TestScene.cameraRay,
              TestScene.constSampler 0⟩
          = some (VolumetricPT.surfaceInteraction TestScene.sqrtQ TestScene.expQ (1 / 10000)
              (TestScene.scene (TestScene.testBSDF 1 EMeasure.ESolidAngle) none
                (TestScene.testEmitter 1))
              TestScene.vacuum
              ⟨Color3f.splat 0, Color3f.splat 1, TestScene.cameraRay,
                TestScene.constSampler 0⟩
              (TestScene.floorHit (TestScene.testBSDF 1 EMeasure.ESolidAngle) none)
              (TestScene.constSampler 0).next1D.2) := by
  have ht : TestScene.fog.m_sigmaT.maxCoeff ≠ 0
      ∧ VolumetricPT.freePath TestScene.logQ TestScene.fog
            (TestScene.constSampler 0).next1D.1
          < VolumetricPT.tmax TestScene.sqrtQ 0
              (TestScene.scene (TestScene.testBSDF 1 EMeasure.ESolidAngle) none
                (TestScene.testEmitter 1))
              ⟨Color3f.splat 0, Color3f.splat 1, TestScene.cameraRay,
                TestScene.constSampler 0⟩ := by
    norm_num [VolumetricPT.freePath, VolumetricPT.tmax, TestScene.logQ, TestScene.fog,
      TestScene.sqrtQ, TestScene.scene, TestScene.cameraRay, TestScene.floorHit,
      TestScene.constSampler, Sampler.next1D, Medium.ofProps, Color3f.add_def,
      Color3f.maxCoeff, Vector3f.norm, Vector3f.squaredNorm, Vector3f.vsub_def]
  have h := (vol_medium_scattering TestScene.sqrtQ TestScene.expQ TestScene.logQ
    (fun x => x) (fun x => x) (22 / 7) (1 / (22 / 7)) (1 / 10000) 0
    (TestScene.scene (TestScene.testBSDF 1 EMeasure.ESolidAngle) none
      (TestScene.testEmitter 1))
    TestScene.fog
    ⟨Color3f.splat 0, Color3f.splat 1, TestScene.cameraRay, TestScene.constSampler 0⟩
    rfl (by norm_num [TestScene.fog, Medium.ofProps])).1 ht
  dsimp only at h
  have hth : Color3f.splat (1 : ℚ) * TestScene.fog.m_albedo = ⟨1 / 2, 1 / 2, 1 / 2⟩ := by
    norm_num [TestScene.fog, Medium.ofProps, Color3f.splat, Color3f.mul_def,
      Color3f.add_def, Color3f.div_def]
  rw [hth] at h
  have hv := (vol_medium_scattering TestScene.sqrtQ TestScene.expQ TestScene.logQ
    (fun x => x) (fun x => x) (22 / 7) (1 / (22 / 7)) (1 / 10000) 0
    (TestScene.scene (TestScene.testBSDF 1 EMeasure.ESolidAngle) none
      (TestScene.testEmitter 1))
    TestScene.vacuum
    ⟨Color3f.splat 0, Color3f.splat 1, TestScene.cameraRay, TestScene.constSampler 0⟩
    rfl (by norm_num [TestScene.vacuum, Medium.ofProps])).2.2.1
    (by norm_num [TestScene.vacuum, Medium.ofProps, Color3f.add_def, Color3f.maxCoeff])
  refine ⟨ht, ⟨_, _, _, h, ?_⟩, ?_⟩
  · norm_num [VolumetricPT.freePath, TestScene.logQ, TestScene.fog, TestScene.sqrtQ,
      TestScene.cameraRay, TestScene.constSampler, Sampler.next1D, Medium.ofProps,
      Color3f.add_def, Color3f.maxCoeff, Vector3f.norm, Vector3f.normalized,
      Vector3f.squaredNorm, Vector3f.smul, Vector3f.vadd_def]
  · rw [hv]
    simp [TestScene.scene, TestScene.cameraRay]

/-- C20: the free-flight distance of `VolumetricPT::Li`, `t = -log(1 - u) / sigma`
with `sigma` the largest channel of `sigmaT`, inverts the CDF of the exponential
distribution of rate `sigma`: for `u` in `[0, 1)` and `sigma > 0`, `t ≥ 0` and
`1 - exp(-sigma * t) = u` (over the reals, with the real `log` and `exp`, where
every value is finite). -/
theorem free_path_inverse_cdf (m : Medium ℝ) (u : ℝ) (hu0 : 0 ≤ u) (hu1 : u < 1)
    (hsigma : 0 < m.m_sigmaT.maxCoeff) :
    0 ≤ VolumetricPT.freePath Real.log m u
      ∧ 1 - Real.exp (-m.m_sigmaT.maxCoeff * VolumetricPT.freePath Real.log m u) = u := by
  have h1 : 0 < 1 - u := by linarith
  have hlog : Real.log (1 - u) ≤ 0 := Real.log_nonpos h1.le (by linarith)
  unfold VolumetricPT.freePath
  constructor
  · exact div_nonneg (by linarith) hsigma.le
  · have he : -m.m_sigmaT.maxCoeff * (-Real.log (1 - u) / m.m_sigmaT.maxCoeff)
        = Real.log (1 - u) := by
      field_simp
    rw [he, Real.exp_log h1]
    ring

/-- C20 for extinction `(2, 3, 4)` and the draw `1/2`. -/
theorem free_path_inverse_cdf_witness :
    0 ≤ VolumetricPT.freePath Real.log
          (Medium.ofProps (1 / Real.pi) ⟨1, 1, 1⟩ ⟨1, 2, 3⟩) (1 / 2)
      ∧ 1 - Real.exp
            (-(Medium.ofProps (1 / Real.pi) ⟨1, 1, 1⟩ ⟨1, 2, 3⟩).m_sigmaT.maxCoeff
              * VolumetricPT.freePath Real.log
                  (Medium.ofProps (1 / Real.pi) ⟨1, 1, 1⟩ ⟨1, 2, 3⟩) (1 / 2))
          = 1 / 2 :=
  free_path_inverse_cdf (Medium.ofProps (1 / Real.pi) ⟨1, 1, 1⟩ ⟨1, 2, 3⟩) (1 / 2)
    (by norm_num) (by norm_num)
    (by norm_num [Medium.ofProps, Color3f.add_def, Color3f.maxCoeff])

end Volumetric

section Emitters

variable {R : Type} [LinearOrderedField R]

/-- C18, evaluated: for the point light of power `(8, 8, 8)` two units above the
reference point (`22/7` for `M_PI`), `sample` returns
`power / (4 * M_PI * 4) = (7/44, 7/44, 7/44)`, while `eval / pdf` on the record
that `sample` filled in is `power / 1 = (8, 8, 8)`: the density `pdf` reports is
not the quantity `sample` divides by. -/
theorem point_light_sample_is_not_eval_over_pdf :
    (TestScene.pointLight.sample TestScene.sqrtQ (22 / 7) (1 / 10000)
        (EmitterQueryRecord.ofRef ⟨0, 0, 0⟩) (0, 0)).1
      = ⟨7 / 44, 7 / 44, 7 / 44⟩
    ∧ (TestScene.pointLight.eval
          (TestScene.pointLight.sample TestScene.sqrtQ (22 / 7) (1 / 10000)
            (EmitterQueryRecord.ofRef ⟨0, 0, 0⟩) (0, 0)).2).divs
        (TestScene.pointLight.pdf
          (TestScene.pointLight.sample TestScene.sqrtQ (22 / 7) (1 / 10000)
            (EmitterQueryRecord.ofRef ⟨0, 0, 0⟩) (0, 0)).2)
      = ⟨8, 8, 8⟩
    ∧ TestScene.pointLight.pdf
        (TestScene.pointLight.sample TestScene.sqrtQ (22 / 7) (1 / 10000)
          (EmitterQueryRecord.ofRef ⟨0, 0, 0⟩) (0, 0)).2 = 1 := by
  refine ⟨?_, ?_, rfl⟩
  · norm_num [PointLight.sample, TestScene.pointLight, EmitterQueryRecord.ofRef,
      EmitterQueryRecord.empty, Color3f.divs, Vector3f.squaredNorm, Vector3f.vsub_def,
      Vector3f.zero_vec]
  · norm_num [PointLight.eval, PointLight.pdf, TestScene.pointLight, Color3f.divs]

/-- C19, evaluated: an `AreaEmitter` without a shape throws the `NoriException`
from `eval`, `pdf` and `sample` for every input, but `samplePhoton` has no such
check: it goes straight to `m_shape->sampleSurface` and dereferences the null
pointer instead of signalling the configuration error. -/
theorem area_emitter_without_shape (sqrt acos cos sin : R → R) (M_PI Epsilon : R)
    (frameOf : Vector3f R → Frame R) (radiance : Color3f R)
    (lRec : EmitterQueryRecord R) (sample1 sample2 : R × R) :
    AreaEmitter.eval ⟨radiance, none⟩ lRec = Except.error Raised.noriException
      ∧ AreaEmitter.pdf ⟨radiance, none⟩ lRec = Except.error Raised.noriException
      ∧ AreaEmitter.sample sqrt Epsilon ⟨radiance, none⟩ lRec sample1
          = Except.error Raised.noriException
      ∧ AreaEmitter.samplePhoton sqrt acos cos sin M_PI Epsilon frameOf ⟨radiance, none⟩
            sample1 sample2
          = Except.error Raised.nullDereference
      ∧ AreaEmitter.samplePhoton sqrt acos cos sin M_PI Epsilon frameOf ⟨radiance, none⟩
            sample1 sample2
          ≠ Except.error Raised.noriException := by
  refine ⟨rfl, rfl, rfl, rfl, ?_⟩
  intro h
  have h' : AreaEmitter.samplePhoton sqrt acos cos sin M_PI Epsilon frameOf
      ⟨radiance, none⟩ sample1 sample2 = Except.error Raised.nullDereference := rfl
  rw [h'] at h
  cases h

end Emitters

section RouletteDivisor

variable {R : Type} [LinearOrderedField R]

/-- C21 as stated fails: with the non-negative throughput `(0, 0, 0)` and the draw
`u = 0` in `[0, 1)`, each of the five roulette steps lets the walk continue
(`0 > min(0, cap)` is false) and the divisor `min(max channel, cap)` is `0`. -/
theorem roulette_zero_divisor_at_zero_draw :
    (Color3f.splat (0 : ℚ)).NonNeg ∧ (0 : ℚ) ≤ 0 ∧ (0 : ℚ) < 1
      ∧ (PathMaterialSampling.russianRoulette (Color3f.splat (0 : ℚ)) 0
            = some ((Color3f.splat 0).divs (min (Color3f.splat (0 : ℚ)).maxCoeff (999 / 1000)))
          ∧ ¬ 0 < min (Color3f.splat (0 : ℚ)).maxCoeff (999 / 1000))
      ∧ (PathMultiImportanceSampling.russianRoulette (Color3f.splat (0 : ℚ)) 0
            = some ((Color3f.splat 0).divs (min (Color3f.splat (0 : ℚ)).maxCoeff (99 / 100)))
          ∧ ¬ 0 < min (Color3f.splat (0 : ℚ)).maxCoeff (99 / 100))
      ∧ (VolumetricPT.russianRoulette (Color3f.splat (0 : ℚ)) 0
            = some ((Color3f.splat 0).divs (min (Color3f.splat (0 : ℚ)).maxCoeff (99 / 100))))
      ∧ (PhotonMapper.russianRouletteLi (Color3f.splat (0 : ℚ)) 0
            = some ((Color3f.splat 0).divs (min (Color3f.splat (0 : ℚ)).maxCoeff (999 / 1000))))
      ∧ (PhotonMapper.russianRoulette (Color3f.splat (0 : ℚ)) 0
            = some ((Color3f.splat 0).divs (min (Color3f.splat (0 : ℚ)).maxCoeff (999 / 1000)))) := by
  refine ⟨?_, le_refl _, by norm_num, ⟨?_, ?_⟩, ⟨?_, ?_⟩, ?_, ?_, ?_⟩
  · simp [Color3f.NonNeg, Color3f.splat]
  · norm_num [PathMaterialSampling.russianRoulette, Color3f.maxCoeff, Color3f.splat]
  · norm_num [Color3f.maxCoeff, Color3f.splat]
  · norm_num [PathMultiImportanceSampling.russianRoulette, Color3f.maxCoeff, Color3f.splat]
  · norm_num [Color3f.maxCoeff, Color3f.splat]
  · norm_num [VolumetricPT.russianRoulette, Color3f.maxCoeff, Color3f.splat]
  · norm_num [PhotonMapper.russianRouletteLi, Color3f.maxCoeff, Color3f.splat]
  · norm_num [PhotonMapper.russianRoulette, Color3f.maxCoeff, Color3f.splat]

/-- C21, amended: in `PathMaterialSampling::Li`, `PathMultiImportanceSampling::Li`,
`VolumetricPT::Li`, `PhotonMapper::Li` and `PhotonMapper::tracePhoton`, for every
throughput (or power) and draw `u` such that `u > 0` or the largest channel is
positive, whenever the roulette test lets the walk continue, the value
`min(max channel, cap)` the throughput is then divided by is strictly positive. -/
theorem roulette_divisor_pos (t t' : Color3f R) (u : R)
    (h : 0 < u ∨ 0 < t.maxCoeff) :
    (PathMaterialSampling.russianRoulette t u = some t' →
        0 < min t.maxCoeff (999 / 1000) ∧ t' = t.divs (min t.maxCoeff (999 / 1000)))
      ∧ (PathMultiImportanceSampling.russianRoulette t u = some t' →
        0 < min t.maxCoeff (99 / 100) ∧ t' = t.divs (min t.maxCoeff (99 / 100)))
      ∧ (VolumetricPT.russianRoulette t u = some t' →
        0 < min t.maxCoeff (99 / 100) ∧ t' = t.divs (min t.maxCoeff (99 / 100)))
      ∧ (PhotonMapper.russianRouletteLi t u = some t' →
        0 < min t.maxCoeff (999 / 1000) ∧ t' = t.divs (min t.maxCoeff (999 / 1000)))
      ∧ (PhotonMapper.russianRoulette t u = some t' →
        0 < min t.maxCoeff (999 / 1000) ∧ t' = t.divs (min t.maxCoeff (999 / 1000))) := by
  have key : ∀ cap : R, 0 < cap → ¬ u > min t.maxCoeff cap → 0 < min t.maxCoeff cap := by
    intro cap hc hu
    rcases h with h | h
    · exact lt_of_lt_of_le h (not_lt.mp hu)
    · exact lt_min h hc
  refine ⟨?_, ?_, ?_, ?_, ?_⟩
  · intro hr
    unfold PathMaterialSampling.russianRoulette at hr
    split at hr
    · cases hr
    · rename_i hu
      cases hr
      exact ⟨key _ (by norm_num) hu, rfl⟩
  · intro hr
    unfold PathMultiImportanceSampling.russianRoulette at hr
    split at hr
    · cases hr
    · rename_i hu
      cases hr
      exact ⟨key _ (by norm_num) hu, rfl⟩
  · intro hr
    unfold VolumetricPT.russianRoulette at hr
    split at hr
    · cases hr
    · rename_i hu
      cases hr
      exact ⟨key _ (by norm_num) hu, rfl⟩
  · intro hr
    unfold PhotonMapper.russianRouletteLi at hr
    split at hr
    · cases hr
    · rename_i hu
      cases hr
      exact ⟨key _ (by norm_num) hu, rfl⟩
  · intro hr
    unfold PhotonMapper.russianRoulette at hr
    split at hr
    · cases hr
    · rename_i hu
      cases hr
      have h1 : 0 < min t.maxCoeff (99 / 100) := key _ (by norm_num) hu
      exact ⟨lt_min (lt_of_lt_of_le h1 (min_le_left _ _)) (by norm_num), rfl⟩

/-- C21, amended, at the throughput `(1/2, 1/4, 1/8)` and the draw `1/4`: the path
tracer goes on and divides by `1/2`. -/
theorem roulette_divisor_pos_witness :
    PathMaterialSampling.russianRoulette (⟨1 / 2, 1 / 4, 1 / 8⟩ : Color3f ℚ) (1 / 4)
        = some ⟨1, 1 / 2, 1 / 4⟩
      ∧ 0 < min (⟨1 / 2, 1 / 4, 1 / 8⟩ : Color3f ℚ).maxCoeff (999 / 1000) := by
  have hr : PathMaterialSampling.russianRoulette (⟨1 / 2, 1 / 4, 1 / 8⟩ : Color3f ℚ) (1 / 4)
      = some ⟨1, 1 / 2, 1 / 4⟩ := by
    norm_num [PathMaterialSampling.russianRoulette, Color3f.maxCoeff, Color3f.divs]
  exact ⟨hr, ((roulette_divisor_pos (⟨1 / 2, 1 / 4, 1 / 8⟩ : Color3f ℚ) ⟨1, 1 / 2, 1 / 4⟩
    (1 / 4) (Or.inl (by norm_num))).1 hr).1⟩

end RouletteDivisor

section Environment

variable {R : Type} [LinearOrderedField R]

/-- C22, evaluated: `PathMaterialSampling::Li` on a path of one bounce that then
leaves a scene with an environment emitter of value 1.  At the floor (BSDF sample
value 1/2, roulette draw 0) the throughput becomes `(1 / 0.999) * (1/2) = 500/999`
and the variable `BSDF` becomes 1/2; on the miss, line 32 adds `eval * BSDF`, so
`Li` is 1/2 per channel, not `eval * t = 500/999`. -/
theorem path_mats_environment_uses_last_bsdf :
    PathMaterialSampling.Li TestScene.sqrtQ 0 2
        (TestScene.openScene (TestScene.lambert (22 / 7) ⟨1 / 2, 1 / 2, 1 / 2⟩)
          (TestScene.testEmitter 1))
        (TestScene.constSampler 0) TestScene.cameraRay
      = some ⟨1 / 2, 1 / 2, 1 / 2⟩
    ∧ ∃ s, LoopStep.reach
          (PathMaterialSampling.step TestScene.sqrtQ 0
            (TestScene.openScene (TestScene.lambert (22 / 7) ⟨1 / 2, 1 / 2, 1 / 2⟩)
              (TestScene.testEmitter 1))) 1
          ⟨Color3f.splat 0, Color3f.splat 1, TestScene.cameraRay, Color3f.splat 1,
            TestScene.constSampler 0⟩ = some s
        ∧ s.Li = ⟨0, 0, 0⟩
        ∧ s.t = ⟨500 / 999, 500 / 999, 500 / 999⟩
        ∧ s.BSDF = ⟨1 / 2, 1 / 2, 1 / 2⟩
        ∧ (TestScene.openScene (TestScene.lambert (22 / 7) ⟨1 / 2, 1 / 2, 1 / 2⟩)
            (TestScene.testEmitter 1)).rayIntersect s.mRay = none := by
  have hstep : PathMaterialSampling.step TestScene.sqrtQ 0
      (TestScene.openScene (TestScene.lambert (22 / 7) ⟨1 / 2, 1 / 2, 1 / 2⟩)
        (TestScene.testEmitter 1))
      ⟨Color3f.splat 0, Color3f.splat 1, TestScene.cameraRay, Color3f.splat 1,
        TestScene.constSampler 0⟩
      = LoopStep.continue_ ⟨⟨0, 0, 0⟩, ⟨500 / 999, 500 / 999, 500 / 999⟩,
          ⟨⟨0, 0, 0⟩, ⟨0, 0, 1⟩, 0, none⟩, ⟨1 / 2, 1 / 2, 1 / 2⟩, ⟨fun _ => 0, 3⟩⟩ := by
    simp [PathMaterialSampling.step, PathMaterialSampling.russianRoulette,
      TestScene.openScene, TestScene.cameraRay, TestScene.constSampler, TestScene.lambert,
      TestScene.floorHit, TestScene.frameZ, Sampler.next1D, Sampler.next2D,
      Color3f.maxCoeff, Color3f.splat, Color3f.divs, Color3f.mul_def, Ray3f.ofOD,
      BSDFQueryRecord.ofWi, Frame.toLocal, Frame.toWorld, Intersection.toWorld,
      Vector3f.dot, Vector3f.smul, Vector3f.vadd_def, Vector3f.vneg_def]
    norm_num
  have hstep2 : PathMaterialSampling.step TestScene.sqrtQ 0
      (TestScene.openScene (TestScene.lambert (22 / 7) ⟨1 / 2, 1 / 2, 1 / 2⟩)
        (TestScene.testEmitter 1))
      ⟨⟨0, 0, 0⟩, ⟨500 / 999, 500 / 999, 500 / 999⟩,
          ⟨⟨0, 0, 0⟩, ⟨0, 0, 1⟩, 0, none⟩, ⟨1 / 2, 1 / 2, 1 / 2⟩, ⟨fun _ => 0, 3⟩⟩
      = LoopStep.ret ⟨1 / 2, 1 / 2, 1 / 2⟩ := by
    norm_num [PathMaterialSampling.step, TestScene.openScene, TestScene.testEmitter,
      Color3f.splat, Color3f.mul_def, Color3f.add_def]
  refine ⟨?_, ⟨⟨0, 0, 0⟩, ⟨500 / 999, 500 / 999, 500 / 999⟩,
    ⟨⟨0, 0, 0⟩, ⟨0, 0, 1⟩, 0, none⟩, ⟨1 / 2, 1 / 2, 1 / 2⟩, ⟨fun _ => 0, 3⟩⟩,
    ?_, rfl, rfl, rfl, ?_⟩
  · simp only [PathMaterialSampling.Li, LoopStep.run, hstep, hstep2]
  · simp only [LoopStep.reach, hstep]
  · norm_num [TestScene.openScene]

end Environment

section WeightBounds

variable {R : Type} [LinearOrderedField R]

/-- A quotient `a / (a + b)` of non-negative numbers lies in the unit interval. -/
theorem unit_quotient (a b : R) (ha : 0 ≤ a) (hb : 0 ≤ b) :
    0 ≤ a / (a + b) ∧ a / (a + b) ≤ 1 := by
  have hs : 0 ≤ a + b := add_nonneg ha hb
  refine ⟨div_nonneg ha hs, ?_⟩
  rcases eq_or_lt_of_le hs with h0 | hpos
  · rw [← h0, div_zero]
    exact zero_le_one
  · rw [div_le_one hpos]
    linarith

theorem PathMultiImportanceSampling.updateWem_unit (w pdf_E pdf_B : R)
    (hw : 0 ≤ w ∧ w ≤ 1) (hE : 0 ≤ pdf_E) (hB : 0 ≤ pdf_B) :
    0 ≤ PathMultiImportanceSampling.updateWem w pdf_E pdf_B
      ∧ PathMultiImportanceSampling.updateWem w pdf_E pdf_B ≤ 1 := by
  unfold PathMultiImportanceSampling.updateWem
  split
  · exact unit_quotient pdf_E pdf_B hE hB
  · exact hw

theorem PathMultiImportanceSampling.updateWmat_unit (w pdf_B pdf_E : R)
    (hw : 0 ≤ w ∧ w ≤ 1) (hB : 0 ≤ pdf_B) (hE : 0 ≤ pdf_E) :
    0 ≤ PathMultiImportanceSampling.updateWmat w pdf_B pdf_E
      ∧ PathMultiImportanceSampling.updateWmat w pdf_B pdf_E ≤ 1 := by
  unfold PathMultiImportanceSampling.updateWmat
  split
  · exact unit_quotient pdf_B pdf_E hB hE
  · exact hw

theorem PathMultiImportanceSampling.lookAhead_unit (sqrt : R → R) (scene : Scene R)
    (hHit : ∀ ray its e, scene.rayIntersect ray = some its → its.mesh.emitter = some e →
      ∀ lRec, 0 ≤ e.pdf lRec)
    (hEnv : ∀ env, scene.getEnvEmitter = some env → ∀ lRec, 0 ≤ env.pdf lRec)
    (s : PathMultiImportanceSampling.State R) (its : Intersection R) (mRay : Ray3f R)
    (pdf_matsB : R) (hw : 0 ≤ s.w_mat ∧ s.w_mat ≤ 1) (hB : 0 ≤ pdf_matsB) :
    0 ≤ (PathMultiImportanceSampling.lookAhead sqrt scene s its mRay pdf_matsB).2
      ∧ (PathMultiImportanceSampling.lookAhead sqrt scene s its mRay pdf_matsB).2 ≤ 1 := by
  unfold PathMultiImportanceSampling.lookAhead
  cases hr : scene.rayIntersect mRay with
  | some itsR =>
    simp only
    cases he : itsR.mesh.emitter with
    | some e =>
      simp only
      exact PathMultiImportanceSampling.updateWmat_unit _ _ _ hw hB (hHit _ _ _ hr he _)
    | none => exact hw
  | none =>
    simp only
    cases he : scene.getEnvEmitter with
    | some env =>
      simp only
      exact PathMultiImportanceSampling.updateWmat_unit _ _ _ hw hB (hEnv _ he _)
    | none => exact hw

theorem PathMultiImportanceSampling.step_unit (sqrt : R → R) (Epsilon : R)
    (scene : Scene R)
    (hB : ∀ ray its, scene.rayIntersect ray = some its → ∀ bRec, 0 ≤ its.mesh.bsdf.pdf bRec)
    (hE : ∀ u lRec, 0 ≤ (scene.getRandomEmitter u).pdf lRec)
    (hHit : ∀ ray its e, scene.rayIntersect ray = some its → its.mesh.emitter = some e →
      ∀ lRec, 0 ≤ e.pdf lRec)
    (hEnv : ∀ env, scene.getEnvEmitter = some env → ∀ lRec, 0 ≤ env.pdf lRec)
    (s s' : PathMultiImportanceSampling.State R)
    (h : (0 ≤ s.w_mat ∧ s.w_mat ≤ 1) ∧ (0 ≤ s.w_em ∧ s.w_em ≤ 1))
    (hs : PathMultiImportanceSampling.step sqrt Epsilon scene s = LoopStep.continue_ s') :
    (0 ≤ s'.w_mat ∧ s'.w_mat ≤ 1) ∧ (0 ≤ s'.w_em ∧ s'.w_em ≤ 1) := by
  unfold PathMultiImportanceSampling.step at hs
  cases hhit : scene.rayIntersect s.mRay with
  | none =>
    rw [hhit] at hs
    simp only at hs
    split at hs <;> cases hs
  | some its =>
    rw [hhit] at hs
    simp only at hs
    split at hs
    · cases hs
    · injection hs with hs
      subst hs
      simp only
      constructor
      · split
        · exact ⟨zero_le_one, le_refl _⟩
        · exact PathMultiImportanceSampling.lookAhead_unit sqrt scene hHit hEnv s its _ _
            h.1 (hB _ _ hhit _)
      · split
        · exact ⟨le_refl _, zero_le_one⟩
        · exact PathMultiImportanceSampling.updateWem_unit _ _ _ h.2 (hE _ _)
            (hB _ _ hhit _)

/-- C23: in `PathMultiImportanceSampling::Li`, if every density returned by the BSDF
and emitter `pdf` calls is non-negative, both MIS weights stay in the unit
interval: at the head of every iteration `0 ≤ w_mat ≤ 1` and `0 ≤ w_em ≤ 1`, and
inside the iteration the light-sampling weight after its guarded assignment and the
material-sampling weight after the look-ahead are in `[0, 1]` as well. -/
theorem path_mis_weights_unit (sqrt : R → R) (Epsilon : R) (scene : Scene R)
    (sampler : Sampler R) (ray : Ray3f R)
    (hB : ∀ ray its, scene.rayIntersect ray = some its → ∀ bRec, 0 ≤ its.mesh.bsdf.pdf bRec)
    (hE : ∀ u lRec, 0 ≤ (scene.getRandomEmitter u).pdf lRec)
    (hHit : ∀ ray its e, scene.rayIntersect ray = some its → its.mesh.emitter = some e →
      ∀ lRec, 0 ≤ e.pdf lRec)
    (hEnv : ∀ env, scene.getEnvEmitter = some env → ∀ lRec, 0 ≤ env.pdf lRec)
    (n : Nat) (s : PathMultiImportanceSampling.State R)
    (hs : LoopStep.reach (PathMultiImportanceSampling.step sqrt Epsilon scene) n
      (PathMultiImportanceSampling.init sampler ray) = some s) :
    (0 ≤ s.w_mat ∧ s.w_mat ≤ 1) ∧ (0 ≤ s.w_em ∧ s.w_em ≤ 1)
      ∧ (∀ its u lRec bRec, scene.rayIntersect s.mRay = some its →
          0 ≤ PathMultiImportanceSampling.updateWem s.w_em
                ((scene.getRandomEmitter u).pdf lRec) (its.mesh.bsdf.pdf bRec)
            ∧ PathMultiImportanceSampling.updateWem s.w_em
                ((scene.getRandomEmitter u).pdf lRec) (its.mesh.bsdf.pdf bRec) ≤ 1)
      ∧ (∀ its mRay bRec, scene.rayIntersect s.mRay = some its →
          0 ≤ (PathMultiImportanceSampling.lookAhead sqrt scene s its mRay
                (its.mesh.bsdf.pdf bRec)).2
            ∧ (PathMultiImportanceSampling.lookAhead sqrt scene s its mRay
                (its.mesh.bsdf.pdf bRec)).2 ≤ 1) := by
  have h := LoopStep.reach_invariant (PathMultiImportanceSampling.step sqrt Epsilon scene)
    (fun s => (0 ≤ s.w_mat ∧ s.w_mat ≤ 1) ∧ (0 ≤ s.w_em ∧ s.w_em ≤ 1))
    (PathMultiImportanceSampling.step_unit sqrt Epsilon scene hB hE hHit hEnv)
    n _ s (by simp [PathMultiImportanceSampling.init]) hs
  refine ⟨h.1, h.2, ?_, ?_⟩
  · intro its u lRec bRec hhit
    exact PathMultiImportanceSampling.updateWem_unit _ _ _ h.2 (hE _ _) (hB _ _ hhit _)
  · intro its mRay bRec hhit
    exact PathMultiImportanceSampling.lookAhead_unit sqrt scene hHit hEnv s its mRay _ h.1
      (hB _ _ hhit _)

/-- C23 on the test scene with an emitting floor of BSDF density 3 and a light of
density 1: after one iteration the weights are `w_mat = 3/4` and `w_em = 1/4`. -/
theorem path_mis_weights_unit_witness :
    ∃ s, LoopStep.reach
          (PathMultiImportanceSampling.step (fun x => x) 0
            (TestScene.scene (TestScene.testBSDF 3 EMeasure.ESolidAngle)
              (some (TestScene.testEmitter 1)) (TestScene.testEmitter 1))) 1
          (PathMultiImportanceSampling.init (TestScene.constSampler 0) TestScene.cameraRay)
          = some s
      ∧ s.w_mat = 3 / 4 ∧ s.w_em = 1 / 4
      ∧ (0 ≤ s.w_mat ∧ s.w_mat ≤ 1) ∧ (0 ≤ s.w_em ∧ s.w_em ≤ 1) := by
  have hstep : PathMultiImportanceSampling.step (fun x => x) 0
      (TestScene.scene (TestScene.testBSDF 3 EMeasure.ESolidAngle)
        (some (TestScene.testEmitter 1)) (TestScene.testEmitter 1))
      (PathMultiImportanceSampling.init (TestScene.constSampler 0) TestScene.cameraRay)
        = LoopStep.continue_
          { Li := ⟨124 / 99, 124 / 99, 124 / 99⟩, t := ⟨100 / 99, 100 / 99, 100 / 99⟩
            mRay := ⟨⟨0, 0, 0⟩, ⟨0, 0, 1⟩, 0, none⟩
            pdf_matsB := 3, pdf_matsE := 1, pdf_emsB := 3, pdf_emsE := 1
            w_mat := 3 / 4, w_em := 1 / 4, sampler := ⟨fun _ => 0, 6⟩ } := by
    simp [PathMultiImportanceSampling.step, PathMultiImportanceSampling.init,
      PathMultiImportanceSampling.hitEmission, PathMultiImportanceSampling.bsdfSample,
      PathMultiImportanceSampling.lookAhead, PathMultiImportanceSampling.updateWem,
      PathMultiImportanceSampling.updateWmat,
      PathMultiImportanceSampling.russianRoulette,
      TestScene.scene, TestScene.cameraRay, TestScene.constSampler, TestScene.testBSDF,
      TestScene.testEmitter, TestScene.floorHit, TestScene.frameZ,
      Sampler.next1D, Sampler.next2D, Color3f.maxCoeff, Color3f.splat, Color3f.scale,
      Color3f.muls, Color3f.divs, Color3f.add_def, Color3f.mul_def, Ray3f.ofOD,
      EmitterQueryRecord.ofRef, EmitterQueryRecord.empty, BSDFQueryRecord.ofWi,
      BSDFQueryRecord.ofWiWo, Frame.toLocal, Frame.toWorld, Frame.cosTheta,
      Intersection.toWorld, Vector3f.dot, Vector3f.smul, Vector3f.vadd_def,
      Vector3f.vneg_def]
    norm_num
  have hreach : LoopStep.reach
      (PathMultiImportanceSampling.step (fun x => x) 0
        (TestScene.scene (TestScene.testBSDF 3 EMeasure.ESolidAngle)
          (some (TestScene.testEmitter 1)) (TestScene.testEmitter 1))) 1
      (PathMultiImportanceSampling.init (TestScene.constSampler 0) TestScene.cameraRay)
      = some
          { Li := ⟨124 / 99, 124 / 99, 124 / 99⟩, t := ⟨100 / 99, 100 / 99, 100 / 99⟩
            mRay := ⟨⟨0, 0, 0⟩, ⟨0, 0, 1⟩, 0, none⟩
            pdf_matsB := 3, pdf_matsE := 1, pdf_emsB := 3, pdf_emsE := 1
            w_mat := 3 / 4, w_em := 1 / 4, sampler := ⟨fun _ => 0, 6⟩ } := by
    simp only [LoopStep.reach, hstep]
  have h := path_mis_weights_unit (fun x => x) 0
    (TestScene.scene (TestScene.testBSDF 3 EMeasure.ESolidAngle)
      (some (TestScene.testEmitter 1)) (TestScene.testEmitter 1))
    (TestScene.constSampler 0) TestScene.cameraRay
    (by
      intro ray its hhit bRec
      simp only [TestScene.scene] at hhit
      split at hhit
      · cases hhit
        simp [TestScene.floorHit, TestScene.testBSDF]
      · cases hhit)
    (by intro u lRec; simp [TestScene.scene, TestScene.testEmitter])
    (by
      intro ray its e hhit he lRec
      simp only [TestScene.scene] at hhit
      split at hhit
      · cases hhit
        simp only [TestScene.floorHit, Option.some.injEq] at he
        subst he
        simp [TestScene.testEmitter]
      · cases hhit)
    (by intro env henv; simp [TestScene.scene] at henv)
    1 _ hreach
  exact ⟨_, hreach, rfl, rfl, h.1, h.2.1⟩

end WeightBounds

section Shapes

variable {R : Type} [LinearOrderedField R]

/-- C24, evaluated: `Sphere::rayIntersect` for the unit sphere at the origin and the
ray from `(0, 0, -4)` in the direction `(0, 0, 2)`, of length 2.  Here `a = 4`,
`b = -16`, `c = 15`, `delta = 16`, and line 52 computes
`tm = (-b - sqrt(delta)) / 2 * a = 24`, which lies in `(mint, maxt)`, so the call
returns `true` with `t = 24`: the point `o + t * d = (0, 0, 44)` is at squared
distance 1936 from the centre, not 1.  The root `(-b - sqrt(delta)) / (2 * a) = 3/2`
gives the point `(0, 0, -1)` on the sphere; with the unit direction `(0, 0, 1)` the
code returns that point (`t = 3`). -/
theorem sphere_intersect_nonunit_direction :
    Sphere.rayIntersect TestScene.sqrtQ16 (⟨⟨0, 0, 0⟩, 1⟩ : Sphere ℚ)
        ⟨⟨0, 0, -4⟩, ⟨0, 0, 2⟩, 1 / 10000, none⟩ = some 24
      ∧ (((⟨0, 0, -4⟩ : Vector3f ℚ) + Vector3f.smul 24 ⟨0, 0, 2⟩)
          - (⟨0, 0, 0⟩ : Vector3f ℚ)).squaredNorm
          = 1936
      ∧ (((⟨0, 0, -4⟩ : Vector3f ℚ) + Vector3f.smul (3 / 2) ⟨0, 0, 2⟩)
          - (⟨0, 0, 0⟩ : Vector3f ℚ)).squaredNorm
          = 1 * 1
      ∧ Sphere.rayIntersect TestScene.sqrtQ (⟨⟨0, 0, 0⟩, 1⟩ : Sphere ℚ)
          ⟨⟨0, 0, -4⟩, ⟨0, 0, 1⟩, 1 / 10000, none⟩ = some 3
      ∧ (((⟨0, 0, -4⟩ : Vector3f ℚ) + Vector3f.smul 3 ⟨0, 0, 1⟩)
          - (⟨0, 0, 0⟩ : Vector3f ℚ)).squaredNorm
          = 1 * 1 := by
  refine ⟨?_, ?_, ?_, ?_, ?_⟩
  · norm_num [Sphere.rayIntersect, Sphere.belowMaxt, TestScene.sqrtQ16, TestScene.sqrtQ]
  · norm_num [Vector3f.squaredNorm, Vector3f.vsub_def, Vector3f.vadd_def, Vector3f.smul]
  · norm_num [Vector3f.squaredNorm, Vector3f.vsub_def, Vector3f.vadd_def, Vector3f.smul]
  · norm_num [Sphere.rayIntersect, Sphere.belowMaxt, TestScene.sqrtQ]
  · norm_num [Vector3f.squaredNorm, Vector3f.vsub_def, Vector3f.vadd_def, Vector3f.smul]

end Shapes

section Spot

variable {R : Type} [LinearOrderedField R]

/-- The window of `SpotLight::falloff` as a function of the cosine: 0 below `a`, 1
above `b`, the fourth power of the linear ramp in between, is monotone. -/
theorem falloff_window_mono (a b c1 c2 : R) (hab : a < b) (h : c1 ≤ c2) :
    (if c1 < a then (0 : R) else if c1 > b then 1 else ((c1 - a) / (b - a)) ^ 4)
      ≤ (if c2 < a then (0 : R) else if c2 > b then 1 else ((c2 - a) / (b - a)) ^ 4) := by
  have hba : 0 < b - a := sub_pos.mpr hab
  have ramp0 : ∀ c : R, a ≤ c → 0 ≤ (c - a) / (b - a) :=
    fun c hc => div_nonneg (sub_nonneg.mpr hc) hba.le
  have ramp1 : ∀ c : R, c ≤ b → (c - a) / (b - a) ≤ 1 := by
    intro c hc
    rw [div_le_one hba]
    linarith
  by_cases h1 : c1 < a
  · rw [if_pos h1]
    by_cases h2 : c2 < a
    · rw [if_pos h2]
    · rw [if_neg h2]
      by_cases h3 : c2 > b
      · rw [if_pos h3]; exact zero_le_one
      · rw [if_neg h3]; exact pow_nonneg (ramp0 c2 (not_lt.mp h2)) 4
  · have h2 : ¬ c2 < a := fun hh => h1 (lt_of_le_of_lt h hh)
    rw [if_neg h1, if_neg h2]
    by_cases h3 : c1 > b
    · have h4 : c2 > b := lt_of_lt_of_le h3 h
      rw [if_pos h3, if_pos h4]
    · rw [if_neg h3]
      by_cases h4 : c2 > b
      · rw [if_pos h4]
        exact pow_le_one₀ (ramp0 c1 (not_lt.mp h1)) (ramp1 c1 (not_lt.mp h3))
      · rw [if_neg h4]
        exact pow_le_pow_left₀ (ramp0 c1 (not_lt.mp h1))
          (div_le_div_of_nonneg_right (by linarith) hba.le) 4

/-- C28: `SpotLight::falloff` is a bounded, monotone window.  For a spot light with
`cosFalloff > cosCone` and vectors `v`, `w`, with `c` the dot product of the
normalised `v` with the light direction: `falloff(v)` lies in `[0, 1]`, is 0 when
`c < cosCone`, is 1 when `c ≥ cosFalloff`, equals
`((c - cosCone) / (cosFalloff - cosCone))^4` in between, and `falloff(v) ≤`
`falloff(w)` whenever the cosine of `v` is at most that of `w`. -/
theorem spot_falloff_window (sqrt : R → R) (l : SpotLight R) (v w : Vector3f R)
    (hcone : l.m_cosCone < l.m_cosFalloff) :
    (0 ≤ l.falloff sqrt v ∧ l.falloff sqrt v ≤ 1)
      ∧ ((v.normalized sqrt).dot l.m_lightDir < l.m_cosCone → l.falloff sqrt v = 0)
      ∧ ((v.normalized sqrt).dot l.m_lightDir ≥ l.m_cosFalloff → l.falloff sqrt v = 1)
      ∧ (l.m_cosCone ≤ (v.normalized sqrt).dot l.m_lightDir →
          (v.normalized sqrt).dot l.m_lightDir ≤ l.m_cosFalloff →
          l.falloff sqrt v
            = (((v.normalized sqrt).dot l.m_lightDir - l.m_cosCone)
                / (l.m_cosFalloff - l.m_cosCone)) ^ 4)
      ∧ ((v.normalized sqrt).dot l.m_lightDir ≤ (w.normalized sqrt).dot l.m_lightDir →
          l.falloff sqrt v ≤ l.falloff sqrt w) := by
  have hba : 0 < l.m_cosFalloff - l.m_cosCone := sub_pos.mpr hcone
  have hbetween : l.m_cosCone ≤ (v.normalized sqrt).dot l.m_lightDir →
      (v.normalized sqrt).dot l.m_lightDir ≤ l.m_cosFalloff →
      l.falloff sqrt v
        = (((v.normalized sqrt).dot l.m_lightDir - l.m_cosCone)
            / (l.m_cosFalloff - l.m_cosCone)) ^ 4 := by
    intro h1 h2
    unfold SpotLight.falloff
    simp only
    rw [if_neg (not_lt.mpr h1), if_neg (not_lt.mpr h2)]
  have hzero : (v.normalized sqrt).dot l.m_lightDir < l.m_cosCone → l.falloff sqrt v = 0 := by
    intro h1
    unfold SpotLight.falloff
    simp only
    rw [if_pos h1]
  have hone : (v.normalized sqrt).dot l.m_lightDir ≥ l.m_cosFalloff →
      l.falloff sqrt v = 1 := by
    intro h1
    rcases eq_or_lt_of_le h1 with heq | hlt
    · rw [hbetween (by rw [← heq]; exact hcone.le) (le_of_eq heq.symm), ← heq,
        div_self (ne_of_gt hba), one_pow]
    · unfold SpotLight.falloff
      simp only
      rw [if_neg (not_lt.mpr (le_trans hcone.le h1)), if_pos hlt]
  have hmono : (v.normalized sqrt).dot l.m_lightDir ≤ (w.normalized sqrt).dot l.m_lightDir →
      l.falloff sqrt v ≤ l.falloff sqrt w := by
    intro h
    unfold SpotLight.falloff
    exact falloff_window_mono _ _ _ _ hcone h
  refine ⟨?_, hzero, hone, hbetween, hmono⟩
  by_cases h1 : (v.normalized sqrt).dot l.m_lightDir < l.m_cosCone
  · rw [hzero h1]
    exact ⟨le_refl _, zero_le_one⟩
  · by_cases h2 : (v.normalized sqrt).dot l.m_lightDir ≤ l.m_cosFalloff
    · rw [hbetween (not_lt.mp h1) h2]
      have hnn : 0 ≤ ((v.normalized sqrt).dot l.m_lightDir - l.m_cosCone)
          / (l.m_cosFalloff - l.m_cosCone) :=
        div_nonneg (sub_nonneg.mpr (not_lt.mp h1)) hba.le
      refine ⟨pow_nonneg hnn 4, pow_le_one₀ hnn ?_⟩
      rw [div_le_one hba]
      linarith
    · rw [hone (le_of_lt (not_le.mp h2))]
      exact ⟨zero_le_one, le_refl _⟩

theorem spot_falloff_window_witness :
    ((1 : ℚ) / 2 < 3 / 4)
      ∧ SpotLight.falloff TestScene.sqrtQ
          (⟨⟨0, 0, 1⟩, ⟨1, 1, 1⟩, ⟨0, 0, -1⟩, 1 / 2, 3 / 4⟩ : SpotLight ℚ) ⟨0, 0, 1⟩ = 0
      ∧ SpotLight.falloff TestScene.sqrtQ
          (⟨⟨0, 0, 1⟩, ⟨1, 1, 1⟩, ⟨0, 0, -1⟩, 1 / 2, 3 / 4⟩ : SpotLight ℚ) ⟨0, 0, 1⟩
        ≤ SpotLight.falloff TestScene.sqrtQ
          (⟨⟨0, 0, 1⟩, ⟨1, 1, 1⟩, ⟨0, 0, -1⟩, 1 / 2, 3 / 4⟩ : SpotLight ℚ) ⟨0, 0, -1⟩ := by
  have h := spot_falloff_window TestScene.sqrtQ
    (⟨⟨0, 0, 1⟩, ⟨1, 1, 1⟩, ⟨0, 0, -1⟩, 1 / 2, 3 / 4⟩ : SpotLight ℚ) ⟨0, 0, 1⟩ ⟨0, 0, -1⟩
    (by norm_num)
  refine ⟨by norm_num, h.2.1 ?_, h.2.2.2.2 ?_⟩
  · norm_num [Vector3f.normalized, Vector3f.norm, Vector3f.squaredNorm,
      Vector3f.dot, TestScene.sqrtQ]
  · norm_num [Vector3f.normalized, Vector3f.norm, Vector3f.squaredNorm,
      Vector3f.dot, TestScene.sqrtQ]

end Spot

section Tabulated

variable {R : Type} [LinearOrderedField R]

theorem EnvironmentMap.cdfLoop_length (l : List R) :
    ∀ acc : R, (EnvironmentMap.cdfLoop acc l).length = l.length := by
  induction l with
  | nil => intro acc; rfl
  | cons p ps ih => intro acc; simp [EnvironmentMap.cdfLoop, ih]

/-- Entry `i` of the loop's output is the start value plus the first `i` densities. -/
theorem EnvironmentMap.cdfLoop_getElem (l : List R) :
    ∀ (acc : R) (i : Nat), i < l.length →
      (EnvironmentMap.cdfLoop acc l)[i]? = some (acc + (l.take i).sum) := by
  induction l with
  | nil => intro acc i hi; simp at hi
  | cons p ps ih =>
    intro acc i hi
    cases i with
    | zero => simp [EnvironmentMap.cdfLoop]
    | succ k =>
      simp only [EnvironmentMap.cdfLoop, List.getElem?_cons_succ, List.take_succ_cons,
        List.sum_cons]
      rw [ih (acc + p) k (by simpa using hi), add_assoc]

theorem List.take_sum_mono (l : List R) (h : ∀ x ∈ l, 0 ≤ x) :
    ∀ i j : Nat, i ≤ j → (l.take i).sum ≤ (l.take j).sum := by
  induction l with
  | nil => intro i j _; simp
  | cons p ps ih =>
    intro i j hij
    have hp : 0 ≤ p := h p (List.mem_cons_self _ _)
    have hps : ∀ x ∈ ps, 0 ≤ x := fun x hx => h x (List.mem_cons_of_mem _ hx)
    cases i with
    | zero =>
      simp only [List.take_zero, List.sum_nil]
      exact List.sum_nonneg (fun x hx => h x (List.mem_of_mem_take hx))
    | succ a =>
      cases j with
      | zero => omega
      | succ b =>
        simp only [List.take_succ_cons, List.sum_cons]
        exact add_le_add_left (ih hps a b (by omega)) p

theorem List.foldl_add_eq_sum (l : List R) :
    ∀ acc : R, l.foldl (fun a x => a + x) acc = acc + l.sum := by
  induction l with
  | nil => intro acc; simp
  | cons p ps ih => intro acc; simp [ih, add_assoc]

theorem List.sum_map_div (l : List R) (c : R) :
    (l.map fun x => x / c).sum = l.sum / c := by
  induction l with
  | nil => simp
  | cons p ps ih => simp [ih, add_div]

/-- What `precompute1D` returns on a row of nonzero sum. -/
theorem EnvironmentMap.precompute1D_eq (f : List R) (hI : f.sum ≠ 0) :
    EnvironmentMap.precompute1D f
      = (f.sum, some (f.map (fun x => x / f.sum),
          EnvironmentMap.cdfLoop 0 (f.map fun x => x / f.sum) ++ [1])) := by
  unfold EnvironmentMap.precompute1D
  simp only [List.foldl_add_eq_sum, zero_add]
  rw [if_neg hI]

/-- The ends of the tables written by `precompute1D` for a row of nonzero sum: `pf` has
`nf` entries, `Pf` has `nf + 1`, starts at 0 and ends at 1. -/
theorem EnvironmentMap.precompute1D_ends (f : List R) (hI : f.sum ≠ 0) :
    (f.map fun x => x / f.sum).length = f.length
      ∧ (EnvironmentMap.cdfLoop 0 (f.map fun x => x / f.sum) ++ [1]).length = f.length + 1
      ∧ (EnvironmentMap.cdfLoop 0 (f.map fun x => x / f.sum) ++ [1])[0]? = some 0
      ∧ (EnvironmentMap.cdfLoop 0 (f.map fun x => x / f.sum) ++ [1])[f.length]? = some 1 := by
  have hlen : (EnvironmentMap.cdfLoop 0 (f.map fun x => x / f.sum)).length = f.length := by
    rw [EnvironmentMap.cdfLoop_length, List.length_map]
  refine ⟨List.length_map _ _, ?_, ?_, ?_⟩
  · rw [List.length_append, hlen]
    rfl
  · cases f with
    | nil => exact absurd rfl hI
    | cons y ys => simp [EnvironmentMap.cdfLoop]
  · rw [List.getElem?_append_right (by rw [hlen]), hlen, Nat.sub_self]
    rfl

/-- C25: `EnvironmentMap::precompute1D` builds a valid discrete distribution.  For a
row `f` with non-negative entries and nonzero sum `I` it stores `I`, the densities
`pf[i] = f[i] / I`, which sum to 1, and a CDF `Pf` of `nf + 1` entries with
`Pf[0] = 0`, `Pf[i]` the sum of `pf[j]` for `j < i` for every `i ≤ nf`, `Pf`
non-decreasing, and `Pf[nf] = 1`. -/
theorem precompute1D_valid (f : List R) (hnn : ∀ x ∈ f, 0 ≤ x) (hI : f.sum ≠ 0) :
    ∃ pf Pf : List R,
      EnvironmentMap.precompute1D f = (f.sum, some (pf, Pf))
        ∧ pf.length = f.length
        ∧ (∀ (i : Nat) (x : R), f[i]? = some x → pf[i]? = some (x / f.sum))
        ∧ pf.sum = 1
        ∧ Pf.length = f.length + 1
        ∧ Pf[0]? = some 0
        ∧ (∀ i : Nat, i ≤ f.length → Pf[i]? = some ((pf.take i).sum))
        ∧ (∀ (i j : Nat) (a b : R), i ≤ j → Pf[i]? = some a → Pf[j]? = some b → a ≤ b)
        ∧ Pf[f.length]? = some 1 := by
  have hsum : (f.map fun x => x / f.sum).sum = 1 := by
    rw [List.sum_map_div, div_self hI]
  have hlen : (EnvironmentMap.cdfLoop 0 (f.map fun x => x / f.sum)).length = f.length := by
    rw [EnvironmentMap.cdfLoop_length, List.length_map]
  have hget : ∀ i, i ≤ f.length →
      (EnvironmentMap.cdfLoop 0 (f.map fun x => x / f.sum) ++ [1])[i]?
        = some (((f.map fun x => x / f.sum).take i).sum) := by
    intro i hi
    rcases Nat.lt_or_ge i f.length with hlt | hge
    · rw [List.getElem?_append_left (by rw [hlen]; exact hlt),
        EnvironmentMap.cdfLoop_getElem _ 0 i (by rw [List.length_map]; exact hlt), zero_add]
    · have hi' : i = f.length := le_antisymm hi hge
      subst hi'
      rw [List.getElem?_append_right (by rw [hlen]), hlen, Nat.sub_self,
        List.take_of_length_le (by rw [List.length_map]), hsum]
      rfl
  have hpfnn : ∀ x ∈ f.map (fun x => x / f.sum), 0 ≤ x := by
    intro x hx
    obtain ⟨y, hy, rfl⟩ := List.mem_map.mp hx
    exact div_nonneg (hnn y hy) (List.sum_nonneg hnn)
  refine ⟨_, _, EnvironmentMap.precompute1D_eq f hI, List.length_map _ _, ?_, hsum, ?_, ?_,
    hget, ?_, ?_⟩
  · intro i x hx
    rw [List.getElem?_map, hx]
    rfl
  · rw [List.length_append, hlen]
    rfl
  · rw [hget 0 (Nat.zero_le _)]
    simp
  · intro i j a b hij ha hb
    have hj : j ≤ f.length := by
      have h1 : j < (EnvironmentMap.cdfLoop 0 (f.map fun x => x / f.sum) ++ [1]).length := by
        by_contra hcon
        rw [List.getElem?_eq_none (not_lt.mp hcon)] at hb
        cases hb
      rw [List.length_append, hlen] at h1
      simp only [List.length_singleton] at h1
      omega
    rw [hget i (le_trans hij hj)] at ha
    rw [hget j hj] at hb
    cases ha
    cases hb
    exact List.take_sum_mono _ hpfnn i j hij
  · rw [hget f.length (le_refl _), List.take_of_length_le (by rw [List.length_map]), hsum]

theorem precompute1D_valid_witness :
    (∀ x ∈ ([1, 3] : List ℚ), 0 ≤ x) ∧ ([1, 3] : List ℚ).sum ≠ 0
      ∧ EnvironmentMap.precompute1D ([1, 3] : List ℚ) = (4, some ([1 / 4, 3 / 4], [0, 1 / 4, 1]))
      ∧ ∃ pf Pf : List ℚ,
          EnvironmentMap.precompute1D ([1, 3] : List ℚ) = (([1, 3] : List ℚ).sum, some (pf, Pf))
            ∧ pf.sum = 1 ∧ Pf[0]? = some 0 ∧ Pf[([1, 3] : List ℚ).length]? = some 1 := by
  have hnn : ∀ x ∈ ([1, 3] : List ℚ), 0 ≤ x := by
    intro x hx
    simp only [List.mem_cons, List.mem_singleton, List.not_mem_nil, or_false] at hx
    rcases hx with rfl | rfl <;> norm_num
  have hI : ([1, 3] : List ℚ).sum ≠ 0 := by norm_num
  obtain ⟨pf, Pf, h1, _, _, h4, _, h6, _, _, h9⟩ := precompute1D_valid ([1, 3] : List ℚ) hnn hI
  refine ⟨hnn, hI, ?_, pf, Pf, h1, h4, h6, h9⟩
  norm_num [EnvironmentMap.precompute1D, EnvironmentMap.cdfLoop]

theorem EnvironmentMap.search_succ (Pf : List R) (unif : R) (fuel i : Nat) :
    EnvironmentMap.search Pf unif (fuel + 1) i
      = match Pf[i]? with
        | none => none
        | some a =>
          if unif ≥ a then
            match Pf[i + 1]? with
            | none => none
            | some b => if unif < b then some i else EnvironmentMap.search Pf unif fuel (i + 1)
          else EnvironmentMap.search Pf unif fuel (i + 1) := rfl

/-- The search loop of `sample1D` on a table whose last entry (index `nf`) is 1: from
any index `i` whose entry is at most `unif < 1` it stops, within the remaining
iterations, at a bin `j < nf` that brackets `unif`. -/
theorem EnvironmentMap.search_spec (Pf : List R) (unif : R) (nf : Nat)
    (hlast : Pf[nf]? = some 1) (hu1 : unif < 1) :
    ∀ (k i : Nat), i + k = nf → (∃ a, Pf[i]? = some a ∧ a ≤ unif) →
      ∃ (j : Nat) (a b : R), i ≤ j ∧ j < nf ∧ Pf[j]? = some a ∧ Pf[j + 1]? = some b
        ∧ a ≤ unif ∧ unif < b ∧ EnvironmentMap.search Pf unif (k + 1) i = some j := by
  intro k
  induction k with
  | zero =>
    intro i hi ⟨a, ha, hau⟩
    simp only [add_zero] at hi
    subst hi
    rw [hlast] at ha
    cases ha
    exact absurd hau (not_le.mpr hu1)
  | succ k ih =>
    intro i hi ⟨a, ha, hau⟩
    have hlen : nf < Pf.length := by
      by_contra hcon
      rw [List.getElem?_eq_none (not_lt.mp hcon)] at hlast
      cases hlast
    have hi1 : i + 1 < Pf.length := by omega
    obtain ⟨b, hb⟩ : ∃ b, Pf[i + 1]? = some b := ⟨Pf[i + 1], List.getElem?_eq_getElem hi1⟩
    by_cases hub : unif < b
    · refine ⟨i, a, b, le_refl _, by omega, ha, hb, hau, hub, ?_⟩
      rw [EnvironmentMap.search_succ]
      simp only [ha, hb]
      rw [if_pos hau, if_pos hub]
    · obtain ⟨j, a', b', hij, hj, ha', hb', h1, h2, hs⟩ :=
        ih (i + 1) (by omega) ⟨b, hb, not_lt.mp hub⟩
      refine ⟨j, a', b', by omega, hj, ha', hb', h1, h2, ?_⟩
      rw [EnvironmentMap.search_succ]
      simp only [ha, hb]
      rw [if_pos hau, if_neg hub]
      exact hs

/-- C26: `EnvironmentMap::sample1D` stays in range.  For a non-empty row `f` of
strictly positive entries, with `pf`/`Pf` built by `precompute1D`, and every
`u ∈ [0, 1)`, the search loop stops at a bin `i < nf` with `Pf[i] ≤ u < Pf[i+1]` (both
entries exist and differ), and the call returns `pdf = pf[i]` and a coordinate `x`
with `i < x ≤ i + 1`. -/
theorem sample1D_in_range (f : List R) (hpos : ∀ x ∈ f, 0 < x) (hne : f ≠ []) (u : R)
    (hu0 : 0 ≤ u) (hu1 : u < 1) :
    ∃ pf Pf : List R,
      EnvironmentMap.precompute1D f = (f.sum, some (pf, Pf))
        ∧ ∃ (i : Nat) (a b p x : R), i < f.length
            ∧ EnvironmentMap.search Pf u Pf.length 0 = some i
            ∧ Pf[i]? = some a ∧ Pf[i + 1]? = some b ∧ a ≤ u ∧ u < b ∧ b - a ≠ 0
            ∧ pf[i]? = some p
            ∧ EnvironmentMap.sample1D pf Pf u = some (x, p)
            ∧ (i : R) < x ∧ x ≤ (i : R) + 1 := by
  have hsum : 0 < f.sum := by
    cases f with
    | nil => exact absurd rfl hne
    | cons y ys =>
      rw [List.sum_cons]
      exact add_pos_of_pos_of_nonneg (hpos y (List.mem_cons_self _ _))
        (List.sum_nonneg fun x hx => le_of_lt (hpos x (List.mem_cons_of_mem _ hx)))
  obtain ⟨hpflen, hPflen, hP0, hPn⟩ := EnvironmentMap.precompute1D_ends f (ne_of_gt hsum)
  have hpre := EnvironmentMap.precompute1D_eq f (ne_of_gt hsum)
  generalize (f.map fun x => x / f.sum) = pf at hpflen hPflen hP0 hPn hpre
  generalize EnvironmentMap.cdfLoop 0 pf ++ [1] = Pf at hPflen hP0 hPn hpre
  obtain ⟨i, a, b, _, hi, ha, hb, hau, hub, hs⟩ :=
    EnvironmentMap.search_spec Pf u f.length hPn hu1 f.length 0 (by omega) ⟨0, hP0, hu0⟩
  have hba : 0 < b - a := sub_pos.mpr (lt_of_le_of_lt hau hub)
  obtain ⟨p, hp⟩ : ∃ p, pf[i]? = some p :=
    ⟨pf[i], List.getElem?_eq_getElem (by rw [hpflen]; exact hi)⟩
  have hs' : EnvironmentMap.search Pf u Pf.length 0 = some i := by
    rw [hPflen]
    exact hs
  refine ⟨pf, Pf, hpre, i, a, b, p,
    (1 - (b - u) / (b - a)) * (i : R) + (b - u) / (b - a) * ((i : R) + 1),
    hi, hs', ha, hb, hau, hub, ne_of_gt hba, hp, ?_, ?_, ?_⟩
  · simp only [EnvironmentMap.sample1D, hs', ha, hb, hp]
  · have ht : 0 < (b - u) / (b - a) := div_pos (sub_pos.mpr hub) hba
    nlinarith
  · have ht : (b - u) / (b - a) ≤ 1 := by
      rw [div_le_one hba]
      linarith
    nlinarith

theorem sample1D_in_range_witness :
    (∀ x ∈ ([1, 3] : List ℚ), 0 < x) ∧ ([1, 3] : List ℚ) ≠ [] ∧ (0 : ℚ) ≤ 1 / 2
      ∧ ((1 : ℚ) / 2 < 1)
      ∧ EnvironmentMap.search ([0, 1 / 4, 1] : List ℚ) (1 / 2) 3 0 = some 1
      ∧ EnvironmentMap.sample1D ([1 / 4, 3 / 4] : List ℚ) [0, 1 / 4, 1] (1 / 2)
          = some (5 / 3, 3 / 4)
      ∧ ∃ pf Pf : List ℚ,
          EnvironmentMap.precompute1D ([1, 3] : List ℚ) = (([1, 3] : List ℚ).sum, some (pf, Pf))
            ∧ ∃ (i : Nat) (p x : ℚ), i < 2
              ∧ EnvironmentMap.sample1D pf Pf (1 / 2) = some (x, p)
              ∧ (i : ℚ) < x ∧ x ≤ (i : ℚ) + 1 := by
  have hpos : ∀ x ∈ ([1, 3] : List ℚ), 0 < x := by
    intro x hx
    simp only [List.mem_cons, List.mem_singleton, List.not_mem_nil, or_false] at hx
    rcases hx with rfl | rfl <;> norm_num
  obtain ⟨pf, Pf, hpre, i, _, _, p, x, hi, _, _, _, _, _, _, _, hx, h1, h2⟩ :=
    sample1D_in_range ([1, 3] : List ℚ) hpos (by simp) (1 / 2) (by norm_num) (by norm_num)
  refine ⟨hpos, by simp, by norm_num, by norm_num, ?_, ?_, pf, Pf, hpre, i, p, x, hi, hx, h1, h2⟩
  · norm_num [EnvironmentMap.search]
  · norm_num [EnvironmentMap.sample1D, EnvironmentMap.search]

end Tabulated

section Directions

/-- The point `squareToUniformSphere` returns for a first coordinate in `[0, 1]` has
squared length 1. -/
theorem Warp.squareToUniformSphere_sqnorm (M_PI : ℝ) (sample : ℝ × ℝ)
    (hx0 : 0 ≤ sample.1) (hx1 : sample.1 ≤ 1) :
    (Warp.squareToUniformSphere Real.sqrt Real.cos Real.sin M_PI sample).squaredNorm = 1 := by
  have hrad : 0 ≤ 1 - (2 * sample.1 - 1) ^ 2 := by nlinarith
  have hS := Real.mul_self_sqrt hrad
  have hcs := Real.cos_sq_add_sin_sq (2 * M_PI * sample.2)
  simp only [Warp.squareToUniformSphere, Warp.squareToUniformCylinder, Vector3f.squaredNorm]
  linear_combination
    (Real.cos (2 * M_PI * sample.2) ^ 2 + Real.sin (2 * M_PI * sample.2) ^ 2) * hS
      + (1 - (2 * sample.1 - 1) ^ 2) * hcs

/-- The density `squareToUniformSpherePdf` at the pole `(0, 0, 1)`. -/
theorem Warp.squareToUniformSpherePdf_pole (INV_PI Epsilon : ℝ) (hEps : 0 < Epsilon) :
    Warp.squareToUniformSpherePdf Real.sqrt INV_PI Epsilon ⟨0, 0, 1⟩ = 1 / 4 * INV_PI := by
  simp [Warp.squareToUniformSpherePdf, Vector3f.norm, Vector3f.squaredNorm, hEps]

/-- C27: `Sphere::sampleSurface` is consistent with `Sphere::pdfSurface` and with the
area of the sphere.  For a sample whose first coordinate is in `[0, 1]` and a radius
`r > 0` the sampled point is at distance exactly `r` from the centre, the reported
normal is `(p - center) / r` and has length 1, and the reported density equals
`pdfSurface` of the returned record and `1 / (4 * pi * r^2)`. -/
theorem sphere_sample_consistent (M_PI INV_PI Epsilon : ℝ) (s : Sphere ℝ)
    (sRec : ShapeQueryRecord ℝ) (sample : ℝ × ℝ) (hx0 : 0 ≤ sample.1) (hx1 : sample.1 ≤ 1)
    (hr : 0 < s.m_radius) (hEps : 0 < Epsilon) (hInv : INV_PI = 1 / M_PI) :
    ((Sphere.sampleSurface Real.sqrt Real.cos Real.sin M_PI INV_PI Epsilon s sRec sample).p
          - s.m_position).norm Real.sqrt = s.m_radius
      ∧ (Sphere.sampleSurface Real.sqrt Real.cos Real.sin M_PI INV_PI Epsilon s sRec sample).n
          = Vector3f.smul (1 / s.m_radius)
              ((Sphere.sampleSurface Real.sqrt Real.cos Real.sin M_PI INV_PI Epsilon s sRec
                  sample).p - s.m_position)
      ∧ (Sphere.sampleSurface Real.sqrt Real.cos Real.sin M_PI INV_PI Epsilon s sRec
          sample).n.norm Real.sqrt = 1
      ∧ (Sphere.sampleSurface Real.sqrt Real.cos Real.sin M_PI INV_PI Epsilon s sRec sample).pdf
          = Sphere.pdfSurface Real.sqrt INV_PI Epsilon s
              (Sphere.sampleSurface Real.sqrt Real.cos Real.sin M_PI INV_PI Epsilon s sRec sample)
      ∧ (Sphere.sampleSurface Real.sqrt Real.cos Real.sin M_PI INV_PI Epsilon s sRec sample).pdf
          = 1 / (4 * M_PI * s.m_radius ^ 2) := by
  have hq := Warp.squareToUniformSphere_sqnorm M_PI sample hx0 hx1
  have hr0 : s.m_radius ≠ 0 := ne_of_gt hr
  refine ⟨?_, ?_, ?_, rfl, ?_⟩
  · have hsq : ((Sphere.sampleSurface Real.sqrt Real.cos Real.sin M_PI INV_PI Epsilon s sRec
        sample).p - s.m_position).squaredNorm = s.m_radius ^ 2 := by
      simp only [Vector3f.squaredNorm] at hq
      simp only [Sphere.sampleSurface, Vector3f.vsub_def, Vector3f.vadd_def, Vector3f.smul,
        Vector3f.squaredNorm]
      linear_combination s.m_radius ^ 2 * hq
    rw [Vector3f.norm, hsq, Real.sqrt_sq (le_of_lt hr)]
  · simp only [Sphere.sampleSurface, Vector3f.vsub_def, Vector3f.vadd_def, Vector3f.smul]
    ext <;> simp only <;> field_simp
  · simp only [Sphere.sampleSurface]
    rw [Vector3f.norm, hq, Real.sqrt_one]
  · simp only [Sphere.sampleSurface]
    rw [Warp.squareToUniformSpherePdf_pole INV_PI Epsilon hEps, hInv]
    by_cases hpi : M_PI = 0
    · simp [hpi]
    · field_simp
      ring

theorem sphere_sample_consistent_witness :
    ((0 : ℝ) ≤ 1 / 2) ∧ ((1 : ℝ) / 2 ≤ 1) ∧ ((0 : ℝ) < 2) ∧ ((0 : ℝ) < 1 / 10000)
      ∧ ((Sphere.sampleSurface Real.sqrt Real.cos Real.sin 3 (1 / 3) (1 / 10000)
            (⟨⟨0, 0, 0⟩, 2⟩ : Sphere ℝ) ⟨⟨0, 0, 0⟩, ⟨0, 0, 0⟩, ⟨0, 0, 0⟩, 0⟩ (1 / 2, 0)).p
          - (⟨0, 0, 0⟩ : Vector3f ℝ)).norm Real.sqrt = 2
      ∧ (Sphere.sampleSurface Real.sqrt Real.cos Real.sin 3 (1 / 3) (1 / 10000)
            (⟨⟨0, 0, 0⟩, 2⟩ : Sphere ℝ) ⟨⟨0, 0, 0⟩, ⟨0, 0, 0⟩, ⟨0, 0, 0⟩, 0⟩ (1 / 2, 0)).pdf
          = 1 / (4 * 3 * 2 ^ 2) := by
  have h := sphere_sample_consistent 3 (1 / 3) (1 / 10000) (⟨⟨0, 0, 0⟩, 2⟩ : Sphere ℝ)
    ⟨⟨0, 0, 0⟩, ⟨0, 0, 0⟩, ⟨0, 0, 0⟩, 0⟩ (1 / 2, 0) (by norm_num) (by norm_num) (by norm_num)
    (by norm_num) rfl
  exact ⟨by norm_num, by norm_num, by norm_num, by norm_num, h.1, h.2.2.2.2⟩

/-- C29: `Warp::squareToUniformSphereCap` lands in the support of its density.  For a
sample whose first coordinate is in `[0, 1]` and `cosThetaMax ∈ [-1, 1)` the returned
vector has length 1 and `z = cosThetaMax + sample.x * (1 - cosThetaMax)`, so
`cosThetaMax ≤ z ≤ 1`, and `squareToUniformSphereCapPdf` of it is
`1 / (2 * pi * (1 - cosThetaMax))`. -/
theorem sphere_cap_in_support (M_PI Epsilon : ℝ) (sample : ℝ × ℝ) (cosThetaMax : ℝ)
    (hx0 : 0 ≤ sample.1) (hx1 : sample.1 ≤ 1) (hc0 : -1 ≤ cosThetaMax)
    (hc1 : cosThetaMax < 1) (hEps : 0 < Epsilon) :
    (Warp.squareToUniformSphereCap Real.sqrt Real.cos Real.sin M_PI sample
        cosThetaMax).norm Real.sqrt = 1
      ∧ (Warp.squareToUniformSphereCap Real.sqrt Real.cos Real.sin M_PI sample cosThetaMax).z
          = cosThetaMax + sample.1 * (1 - cosThetaMax)
      ∧ cosThetaMax
          ≤ (Warp.squareToUniformSphereCap Real.sqrt Real.cos Real.sin M_PI sample cosThetaMax).z
      ∧ (Warp.squareToUniformSphereCap Real.sqrt Real.cos Real.sin M_PI sample cosThetaMax).z
          ≤ 1
      ∧ Warp.squareToUniformSphereCapPdf Real.sqrt M_PI Epsilon
          (Warp.squareToUniformSphereCap Real.sqrt Real.cos Real.sin M_PI sample cosThetaMax)
          cosThetaMax
        = 1 / (2 * M_PI * (1 - cosThetaMax)) := by
  have hz : (Warp.squareToUniformSphereCap Real.sqrt Real.cos Real.sin M_PI sample
      cosThetaMax).z = cosThetaMax + sample.1 * (1 - cosThetaMax) := by
    simp only [Warp.squareToUniformSphereCap, Warp.squareToUniformCylinder]
    ring
  have hc : 0 ≤ 1 - cosThetaMax := by linarith
  have hlo : cosThetaMax
      ≤ (Warp.squareToUniformSphereCap Real.sqrt Real.cos Real.sin M_PI sample cosThetaMax).z := by
    rw [hz]
    nlinarith [mul_nonneg hx0 hc]
  have hhi : (Warp.squareToUniformSphereCap Real.sqrt Real.cos Real.sin M_PI sample
      cosThetaMax).z ≤ 1 := by
    rw [hz]
    nlinarith [mul_nonneg (sub_nonneg.mpr hx1) hc]
  have hnorm : (Warp.squareToUniformSphereCap Real.sqrt Real.cos Real.sin M_PI sample
      cosThetaMax).norm Real.sqrt = 1 := by
    have hrad : 0 ≤ 1 - (Warp.squareToUniformSphereCap Real.sqrt Real.cos Real.sin M_PI sample
        cosThetaMax).z ^ 2 := by nlinarith
    have hS := Real.mul_self_sqrt hrad
    have hcs := Real.cos_sq_add_sin_sq (2 * M_PI * sample.2)
    have hsq : (Warp.squareToUniformSphereCap Real.sqrt Real.cos Real.sin M_PI sample
        cosThetaMax).squaredNorm = 1 := by
      simp only [Warp.squareToUniformSphereCap, Warp.squareToUniformCylinder] at hS
      simp only [Warp.squareToUniformSphereCap, Warp.squareToUniformCylinder,
        Vector3f.squaredNorm]
      linear_combination
        (Real.cos (2 * M_PI * sample.2) ^ 2 + Real.sin (2 * M_PI * sample.2) ^ 2) * hS
          + (1 - ((2 * sample.1 - 1) * (1 - cosThetaMax) / 2 + 1 / 2 + cosThetaMax / 2) ^ 2)
            * hcs
    rw [Vector3f.norm, hsq, Real.sqrt_one]
  refine ⟨hnorm, hz, hlo, hhi, ?_⟩
  unfold Warp.squareToUniformSphereCapPdf
  rw [if_pos ⟨by rw [hnorm]; simpa using hEps, hlo⟩]

theorem sphere_cap_in_support_witness :
    ((0 : ℝ) ≤ 1 / 2) ∧ ((1 : ℝ) / 2 ≤ 1) ∧ ((-1 : ℝ) ≤ 0) ∧ ((0 : ℝ) < 1)
      ∧ ((0 : ℝ) < 1 / 10000)
      ∧ (Warp.squareToUniformSphereCap Real.sqrt Real.cos Real.sin 3 (1 / 2, 0) 0).z
          = 0 + 1 / 2 * (1 - 0)
      ∧ Warp.squareToUniformSphereCapPdf Real.sqrt 3 (1 / 10000)
          (Warp.squareToUniformSphereCap Real.sqrt Real.cos Real.sin 3 (1 / 2, 0) 0) 0
        = 1 / (2 * 3 * (1 - 0)) := by
  have h := sphere_cap_in_support 3 (1 / 10000) (1 / 2, 0) 0 (by norm_num) (by norm_num)
    (by norm_num) (by norm_num) (by norm_num)
  exact ⟨by norm_num, by norm_num, by norm_num, by norm_num, by norm_num, h.2.1, h.2.2.2.2⟩

/-- C30: the refraction branch of `Dielectric::sample`.  For a unit-length `wi` and a
relative index for which the radicand `1 - eta1_2^2 * (1 - (wi.n)^2)` is non-negative
(`n = +Z` if `cosTheta(wi) > 0`, else `-Z`), the direction computed before
`normalize()` already has length 1, and `wo.n = -sqrt(radicand) ≤ 0` while
`wi.n ≥ 0`: it lies on the other side of the surface from `wi`. -/
theorem refracted_unit_opposite (d : Dielectric ℝ) (wi : Vector3f ℝ)
    (hunit : wi.norm Real.sqrt = 1)
    (hrad : 0 ≤ 1 - d.eta1_2 wi ^ 2 * (1 - wi.dot (Dielectric.normal wi) ^ 2)) :
    (Dielectric.refracted Real.sqrt d wi).norm Real.sqrt = 1
      ∧ (Dielectric.refracted Real.sqrt d wi).dot (Dielectric.normal wi)
          = -Real.sqrt (1 - d.eta1_2 wi ^ 2 * (1 - wi.dot (Dielectric.normal wi) ^ 2))
      ∧ (Dielectric.refracted Real.sqrt d wi).dot (Dielectric.normal wi) ≤ 0
      ∧ 0 ≤ wi.dot (Dielectric.normal wi) := by
  have hw : wi.x * wi.x + wi.y * wi.y + wi.z * wi.z = 1 := by
    have h1 := hunit
    rw [Vector3f.norm, Real.sqrt_eq_one] at h1
    exact h1
  have hS := Real.mul_self_sqrt hrad
  have hdot : (Dielectric.refracted Real.sqrt d wi).dot (Dielectric.normal wi)
      = -Real.sqrt (1 - d.eta1_2 wi ^ 2 * (1 - wi.dot (Dielectric.normal wi) ^ 2)) := by
    by_cases hz : Frame.cosTheta wi ≤ 0
    · simp only [Dielectric.refracted, Dielectric.normal, if_pos hz, Vector3f.smul,
        Vector3f.dot, Vector3f.vsub_def]
      ring
    · simp only [Dielectric.refracted, Dielectric.normal, if_neg hz, Vector3f.smul,
        Vector3f.dot, Vector3f.vsub_def]
      ring
  have hsq : (Dielectric.refracted Real.sqrt d wi).squaredNorm = 1 := by
    by_cases hz : Frame.cosTheta wi ≤ 0
    · simp only [Dielectric.normal, if_pos hz, Vector3f.smul, Vector3f.dot] at hS
      simp only [Dielectric.refracted, Dielectric.normal, if_pos hz, Vector3f.smul,
        Vector3f.dot, Vector3f.vsub_def, Vector3f.squaredNorm]
      linear_combination hS + d.eta1_2 wi ^ 2 * hw
    · simp only [Dielectric.normal, if_neg hz, Vector3f.smul, Vector3f.dot] at hS
      simp only [Dielectric.refracted, Dielectric.normal, if_neg hz, Vector3f.smul,
        Vector3f.dot, Vector3f.vsub_def, Vector3f.squaredNorm]
      linear_combination hS + d.eta1_2 wi ^ 2 * hw
  refine ⟨?_, hdot, ?_, ?_⟩
  · rw [Vector3f.norm, hsq, Real.sqrt_one]
  · rw [hdot]
    exact neg_nonpos.mpr (Real.sqrt_nonneg _)
  · by_cases hz : Frame.cosTheta wi ≤ 0
    · simp only [Frame.cosTheta] at hz
      simp only [Dielectric.normal, Frame.cosTheta, if_pos hz, Vector3f.smul, Vector3f.dot]
      linarith
    · simp only [Frame.cosTheta] at hz
      simp only [Dielectric.normal, Frame.cosTheta, if_neg hz, Vector3f.smul, Vector3f.dot]
      linarith

theorem refracted_unit_opposite_witness :
    (⟨0, 0, 1⟩ : Vector3f ℝ).norm Real.sqrt = 1
      ∧ 0 ≤ 1 - (⟨3 / 2, 1⟩ : Dielectric ℝ).eta1_2 ⟨0, 0, 1⟩ ^ 2
              * (1 - (⟨0, 0, 1⟩ : Vector3f ℝ).dot (Dielectric.normal ⟨0, 0, 1⟩) ^ 2)
      ∧ (Dielectric.refracted Real.sqrt (⟨3 / 2, 1⟩ : Dielectric ℝ) ⟨0, 0, 1⟩).norm Real.sqrt = 1
      ∧ (Dielectric.refracted Real.sqrt (⟨3 / 2, 1⟩ : Dielectric ℝ) ⟨0, 0, 1⟩).dot
          (Dielectric.normal ⟨0, 0, 1⟩) ≤ 0 := by
  have h1 : (⟨0, 0, 1⟩ : Vector3f ℝ).norm Real.sqrt = 1 := by
    simp [Vector3f.norm, Vector3f.squaredNorm]
  have h2 : 0 ≤ 1 - (⟨3 / 2, 1⟩ : Dielectric ℝ).eta1_2 ⟨0, 0, 1⟩ ^ 2
      * (1 - (⟨0, 0, 1⟩ : Vector3f ℝ).dot (Dielectric.normal ⟨0, 0, 1⟩) ^ 2) := by
    norm_num [Dielectric.eta1_2, Dielectric.normal, Frame.cosTheta, Vector3f.dot]
  have h := refracted_unit_opposite (⟨3 / 2, 1⟩ : Dielectric ℝ) ⟨0, 0, 1⟩ h1 h2
  exact ⟨h1, h2, h.1, h.2.2.1⟩

end Directions

end Nori
